import Mathlib

/-!
# Privileges of AKDB (`src/sql/privileges.c`)

A shallow embedding of the privilege functions of AKDB and of the part of the
record store they drive, followed by theorems about them.

Conventions of the embedding.

* A C `int` is an `Int`.  The field `data` of a `struct list_node` is a `char`
  buffer, so `(int) *elem->data` reads ONE byte of a stored integer while
  `*(int *) elem->data` reads the whole integer.  `AK_char` is the byte read
  (least significant byte, `char` signed, as on x86).
* A C string is a `String`; `strcmp(a, b) == 0` is `a = b`, and `strlen` is the
  number of bytes, `String.utf8ByteSize`.
* A table is the list of its rows in scan order: `AK_get_row(i, t)` is the
  `i`-th element, `NULL` past the end.  A loop that only reads a table is a
  recursion over its rows; a loop that deletes while it scans keeps the index
  and re-reads the table at every step.
* Functions whose C body can run into undefined behaviour (writing past
  `groups[100]`, `strcpy` into `found_privilege[10]`, reading an uninitialised
  variable) return an `Option`, `none` standing for the undefined run.
-/

namespace AKDB

/-! ## Constants and external collaborators -/

/-- Values the source takes from headers that are not part of `privileges.c`
(`EXIT_SUCCESS`, `EXIT_ERROR` of `auxi/constants.h`), the two values the C
implementation produces when a string literal is converted to an integer
(`return "exists";` in a function of return type `int`, `char check = "taken";`),
and the credential hasher `hash_password` (SHA-256 as 64 hex characters).  All
of them are parameters of the embedding. -/
structure Env where
  EXIT_SUCCESS : Int
  EXIT_ERROR : Int
  /-- Value of `(int) "exists"` in `AK_user_add`: the address of the literal converted to
  `int`. -/
  str_exists : Int
  /-- Value of `(int) "exists"` in `AK_role_add`. -/
  str_exists_role : Int
  /-- Value of `(int) "taken"`: the address of the literal converted to `int`. -/
  str_taken : Int
  hash_password : String → String

/-- The value of `(int) *elem->data` when `elem` stores the integer `v`: the
least significant byte of `v` read as a signed `char`. -/
def AK_char (v : Int) : Int := (v + 128) % 256 - 128

/-! ## Rows and the store -/

/-- Row of `AK_user`: `obj_id`, `username`, `password`. -/
structure UserRow where
  obj_id : Int
  username : String
  password : String
deriving DecidableEq, Repr

/-- Row of `AK_group`: `obj_id`, `name`. -/
structure GroupRow where
  obj_id : Int
  name : String
deriving DecidableEq, Repr

/-- Row of `AK_role`: `role_id`, `role_name`. -/
structure RoleRow where
  role_id : Int
  role_name : String
deriving DecidableEq, Repr

/-- Row of `AK_user_group`: `user_id`, `group_id`. -/
structure UserGroupRow where
  user_id : Int
  group_id : Int
deriving DecidableEq, Repr

/-- Row of `AK_user_role` (`subject_id` is the column `user_id`) and of
`AK_group_role` (`subject_id` is the column `group_id`). -/
structure RoleEdgeRow where
  subject_id : Int
  role_id : Int
deriving DecidableEq, Repr

/-- Row of `AK_user_right`, `AK_group_right` and `AK_role_right`: `obj_id`,
the subject column (`user_id`, `group_id` or `role_id`), `artifact_id` and
`right_type`. -/
structure RightRow where
  obj_id : Int
  subject_id : Int
  artifact_id : Int
  right_type : String
deriving DecidableEq, Repr

/-- The three privilege ledgers. -/
inductive Ledger where
  | user
  | group
  | role
deriving DecidableEq, Repr

/-- Modelled from the spec: the Record Store and the relation catalog, which are
not part of `privileges.c`.  Section 6 of the spec gives their contract:
`scanRows` (ordinal iteration), `insertRow`, `updateWhere` + `deleteRow`
(`success | failure`), `allocateId` (fresh unique integer) and
`resolveTableObjectId`.  The store holds each system table as the list of its
rows in scan order, the catalog as a list of `(table name, object id)`, the
last value handed out by the identifier sequence, and the outcomes of the
coming `AK_delete_row` calls (`true`: that call fails; past the end of the
list every call succeeds). -/
structure Store where
  AK_user : List UserRow := []
  AK_group : List GroupRow := []
  AK_role : List RoleRow := []
  AK_user_group : List UserGroupRow := []
  AK_user_role : List RoleEdgeRow := []
  AK_group_role : List RoleEdgeRow := []
  AK_user_right : List RightRow := []
  AK_group_right : List RightRow := []
  AK_role_right : List RightRow := []
  catalog : List (String × Int) := []
  last_id : Int := 0
  delete_faults : List Bool := []
deriving DecidableEq, Repr

/-- The rows of a privilege ledger. -/
def Store.rights (st : Store) : Ledger → List RightRow
  | .user => st.AK_user_right
  | .group => st.AK_group_right
  | .role => st.AK_role_right

/-- Replace the rows of a privilege ledger. -/
def Store.setRights (st : Store) (k : Ledger) (rows : List RightRow) : Store :=
  match k with
  | .user => { st with AK_user_right := rows }
  | .group => { st with AK_group_right := rows }
  | .role => { st with AK_role_right := rows }

/-- Modelled from the spec: `AK_get_table_obj_id` (`resolveTableObjectId`), the
object id of the first catalog entry with that name, `EXIT_ERROR` when none. -/
def AK_get_table_obj_id (c : Env) (st : Store) (table : String) : Int :=
  match st.catalog.find? (fun e => e.1 = table) with
  | some e => e.2
  | none => c.EXIT_ERROR

/-- Modelled from the spec: `AK_get_id` (`allocateId`), the next value of the
identifier sequence. -/
def AK_get_id (st : Store) : Int × Store :=
  (st.last_id + 1, { st with last_id := st.last_id + 1 })

/-- Modelled from the spec: the outcome of the next `AK_delete_row` call
(`true`: the rows are deleted and the call returns `EXIT_SUCCESS`), and the
store with that outcome consumed. -/
def Store.delete_outcome (st : Store) : Bool × Store :=
  match st.delete_faults with
  | [] => (true, st)
  | f :: fs => (!f, { st with delete_faults := fs })

/-- Modelled from the spec: `AK_delete_row` on a ledger with the condition
prepared by `AK_Update_Existing_Element`: every row satisfying `p` is deleted
and `EXIT_SUCCESS` returned, or the call fails, deletes nothing and returns
`EXIT_ERROR`. -/
def AK_delete_row_rights (c : Env) (st : Store) (k : Ledger) (p : RightRow → Bool) :
    Int × Store :=
  let o := st.delete_outcome
  if o.1 then (c.EXIT_SUCCESS, o.2.setRights k ((o.2.rights k).filter (fun r => !p r)))
  else (c.EXIT_ERROR, o.2)

/-! ## Name resolution -/

/-- The loop of `AK_user_get_id` over the rows not yet read: it runs while a
row is left and `id == EXIT_ERROR`, and reads one byte of `obj_id`. -/
def AK_user_get_id_loop (c : Env) (username : String) : List UserRow → Int → Int
  | [], id => id
  | row :: rest, id =>
    if id = c.EXIT_ERROR then
      AK_user_get_id_loop c username rest
        (if row.username = username then AK_char row.obj_id else id)
    else id

/-- Function `AK_user_get_id`. -/
def AK_user_get_id (c : Env) (st : Store) (username : String) : Int :=
  AK_user_get_id_loop c username st.AK_user c.EXIT_ERROR

/-- The loop of `AK_group_get_id`: the first row with that name returns one byte
of its `obj_id`. -/
def AK_group_get_id_loop (c : Env) (name : String) : List GroupRow → Int
  | [] => c.EXIT_ERROR
  | row :: rest =>
    if row.name = name then AK_char row.obj_id else AK_group_get_id_loop c name rest

/-- Function `AK_group_get_id`. -/
def AK_group_get_id (c : Env) (st : Store) (name : String) : Int :=
  AK_group_get_id_loop c name st.AK_group

/-- The loop of `AK_role_get_id`: the first row with that name returns its whole
`role_id`. -/
def AK_role_get_id_loop (c : Env) (name : String) : List RoleRow → Int
  | [] => c.EXIT_ERROR
  | row :: rest =>
    if row.role_name = name then row.role_id else AK_role_get_id_loop c name rest

/-- Function `AK_role_get_id`. -/
def AK_role_get_id (c : Env) (st : Store) (name : String) : Int :=
  AK_role_get_id_loop c name st.AK_role

/-! ## `AK_check_privilege` -/

/-- The array `int checking_privileges[4]`: one flag for each of `UPDATE`,
`DELETE`, `INSERT`, `SELECT`, in the order of the source. -/
structure CheckingPrivileges where
  p0 : Bool
  p1 : Bool
  p2 : Bool
  p3 : Bool
deriving DecidableEq, Repr

/-- The four `if (strcmp(found_privilege, ...) == 0) checking_privileges[..] = 1`
statements. -/
def mark_found_privilege (found_privilege : String) (f : CheckingPrivileges) :
    CheckingPrivileges :=
  { p0 := if found_privilege = "UPDATE" then true else f.p0
    p1 := if found_privilege = "DELETE" then true else f.p1
    p2 := if found_privilege = "INSERT" then true else f.p2
    p3 := if found_privilege = "SELECT" then true else f.p3 }

/-- The loop `for (i = 0; i < 4; i++)` that sets `has_right`: it ends with
`has_right == 1` exactly when the four flags are set. -/
def has_right_of (f : CheckingPrivileges) : Bool := f.p0 && f.p1 && f.p2 && f.p3

/-- One scan of a ledger in the `"ALL"` branch of `AK_check_privilege`, for one
subject (the user, or one entry of `groups`).  The subject and the table are
compared with one byte of the stored columns; `strcpy` copies the bytes of the
stored right and the terminating zero, so the copy into
`char found_privilege[10]` is undefined for a stored right of 10 bytes or more
(`utf8ByteSize` is the number of bytes of the string). -/
def check_all_scan (subject table_id : Int) :
    List RightRow → CheckingPrivileges → Option CheckingPrivileges
  | [], f => some f
  | row :: rest, f =>
    if AK_char row.subject_id = subject ∧ table_id = AK_char row.artifact_id then
      if row.right_type.utf8ByteSize < 10 then
        check_all_scan subject table_id rest (mark_found_privilege row.right_type f)
      else none
    else check_all_scan subject table_id rest f

/-- The loop over `AK_user_group` that fills `int groups[100]`: a matching row
appends one byte of its `group_id`; a 101st matching row writes past the array,
which is undefined. -/
def collect_groups (user_id : Int) : List UserGroupRow → List Int → Option (List Int)
  | [], groups => some groups
  | row :: rest, groups =>
    if user_id = AK_char row.user_id then
      if groups.length < 100 then
        collect_groups user_id rest (groups ++ [AK_char row.group_id])
      else none
    else collect_groups user_id rest groups

/-- The loop `for (i = 0; i < number_of_groups; i++)` of the `"ALL"` branch: the
flags are carried from one group to the next. -/
def check_all_groups (table_id : Int) (rights : List RightRow) :
    List Int → CheckingPrivileges → Option CheckingPrivileges
  | [], f => some f
  | g :: gs, f =>
    match check_all_scan g table_id rights f with
    | none => none
    | some f1 => check_all_groups table_id rights gs f1

/-- The test of the scans of the specific-right branch: some row of the ledger
matches the subject, the table (one byte of each column) and the right. -/
def check_right_scan (subject table_id : Int) (privilege : String)
    (rows : List RightRow) : Bool :=
  rows.any (fun row => decide (AK_char row.subject_id = subject) &&
    decide (table_id = AK_char row.artifact_id) && decide (row.right_type = privilege))

/-- Function `AK_check_privilege`. -/
def AK_check_privilege (c : Env) (st : Store) (username table privilege : String) :
    Option Int :=
  let user_id := AK_user_get_id c st username
  let table_id := AK_get_table_obj_id c st table
  if table_id = c.EXIT_ERROR ∨ user_id = c.EXIT_ERROR then some c.EXIT_ERROR
  else if privilege = "ALL" then
    match check_all_scan user_id table_id st.AK_user_right ⟨false, false, false, false⟩ with
    | none => none
    | some f =>
      if has_right_of f then some c.EXIT_SUCCESS
      else
        match collect_groups user_id st.AK_user_group [] with
        | none => none
        | some groups =>
          -- set "flags" to 0
          match check_all_groups table_id st.AK_group_right groups
              ⟨false, false, false, false⟩ with
          | none => none
          | some f1 => if has_right_of f1 then some c.EXIT_SUCCESS else some c.EXIT_ERROR
  else if check_right_scan user_id table_id privilege st.AK_user_right then
    some c.EXIT_SUCCESS
  else
    match collect_groups user_id st.AK_user_group [] with
    | none => none
    | some groups =>
      if groups.any (fun g => check_right_scan g table_id privilege st.AK_group_right) then
        some c.EXIT_SUCCESS
      else some c.EXIT_ERROR

/-! ## Membership -/

/-- Function `AK_add_user_to_group`.  The scan of `AK_user_group` compares `user_id` with
one byte of the first column of each row and with nothing else. -/
def AK_add_user_to_group (c : Env) (st : Store) (user group : String) : Int × Store :=
  let user_id := AK_user_get_id c st user
  let group_id := AK_group_get_id c st group
  if group_id = c.EXIT_ERROR ∨ user_id = c.EXIT_ERROR then (c.EXIT_ERROR, st)
  else if st.AK_user_group.any (fun row => decide (user_id = AK_char row.user_id)) then
    (c.EXIT_ERROR, st)
  else
    (c.EXIT_SUCCESS,
      { st with AK_user_group := st.AK_user_group ++ [⟨user_id, group_id⟩] })

/-! ## Grant -/

/-- One pass of the body shared by the grant functions: `AK_get_id`, four
`AK_Insert_New_Element` and `AK_insert_row`, which appends the row.  The result
is `privilege_id` and the new store. -/
def grant_row (st : Store) (k : Ledger) (subject_id table_id : Int) (right : String) :
    Int × Store :=
  let a := AK_get_id st
  (a.1, a.2.setRights k (a.2.rights k ++ [⟨a.1, subject_id, table_id, right⟩]))

/-- The two branches shared by `AK_grant_privilege_user`, `_group` and `_role`
once the names are resolved: with `"ALL"` the loop `for (i = 0; i < 4; i++)`
over `UPDATE`, `DELETE`, `INSERT`, `SELECT`, else one row.  The result is the
last `privilege_id` and the new store. -/
def grant_privilege (st : Store) (k : Ledger) (subject_id table_id : Int)
    (right : String) : Int × Store :=
  if right = "ALL" then
    let s0 := grant_row st k subject_id table_id "UPDATE"
    let s1 := grant_row s0.2 k subject_id table_id "DELETE"
    let s2 := grant_row s1.2 k subject_id table_id "INSERT"
    grant_row s2.2 k subject_id table_id "SELECT"
  else grant_row st k subject_id table_id right

/-- Function `AK_grant_privilege_user`: returns `privilege_id`. -/
def AK_grant_privilege_user (c : Env) (st : Store) (username table right : String) :
    Int × Store :=
  let table_id := AK_get_table_obj_id c st table
  let user_id := AK_user_get_id c st username
  if table_id = c.EXIT_ERROR ∨ user_id = c.EXIT_ERROR then (c.EXIT_ERROR, st)
  else grant_privilege st .user user_id table_id right

/-- Function `AK_grant_privilege_group`: returns `EXIT_SUCCESS`. -/
def AK_grant_privilege_group (c : Env) (st : Store) (groupname table right : String) :
    Int × Store :=
  let table_id := AK_get_table_obj_id c st table
  let group_id := AK_group_get_id c st groupname
  if table_id = c.EXIT_ERROR ∨ group_id = c.EXIT_ERROR then (c.EXIT_ERROR, st)
  else (c.EXIT_SUCCESS, (grant_privilege st .group group_id table_id right).2)

/-- Function `AK_grant_privilege_role`: returns `EXIT_SUCCESS`. -/
def AK_grant_privilege_role (c : Env) (st : Store) (role_name table right : String) :
    Int × Store :=
  let role_id := AK_role_get_id c st role_name
  let table_id := AK_get_table_obj_id c st table
  if role_id = c.EXIT_ERROR ∨ table_id = c.EXIT_ERROR then (c.EXIT_ERROR, st)
  else (c.EXIT_SUCCESS, (grant_privilege st .role role_id table_id right).2)

/-! ## Revoke -/

/-- The test of the revoke scans: the whole `int` of the subject and table
columns and the right string. -/
def revoke_match (subject_id table_id : Int) (right : String) (row : RightRow) : Bool :=
  decide (row.subject_id = subject_id) && decide (row.artifact_id = table_id) &&
    decide (row.right_type = right)

/-- The `while` loop of the `"ALL"` branch of the revoke functions for one right:
`i_row` is the scan index, `result` the last outcome of `AK_delete_row`.  A
matching row has every row with its `obj_id` deleted, and the index advances
whether or not a row was deleted.  The first argument bounds the number of
iterations; `revoke_all_scan_fuel` shows that the length of the ledger is
enough. -/
def revoke_all_scan (c : Env) (k : Ledger) (subject_id table_id : Int) (right : String) :
    Nat → Nat → Int → Store → Int × Store
  | 0, _, result, st => (result, st)
  | fuel + 1, i_row, result, st =>
    match (st.rights k)[i_row]? with
    | none => (result, st)
    | some row =>
      if revoke_match subject_id table_id right row then
        let d := AK_delete_row_rights c st k (fun r => decide (r.obj_id = row.obj_id))
        revoke_all_scan c k subject_id table_id right fuel (i_row + 1) d.1 d.2
      else revoke_all_scan c k subject_id table_id right fuel (i_row + 1) result st

/-- One iteration of `for (int i = 0; i < 4; i++)`: the scan starts at
`i_row = 0`. -/
def revoke_all_right (c : Env) (k : Ledger) (subject_id table_id : Int) (right : String)
    (s : Int × Store) : Int × Store :=
  revoke_all_scan c k subject_id table_id right (s.2.rights k).length 0 s.1 s.2

/-- The `else` branch of the revoke functions: the first matching row has every
row with its `obj_id` deleted, then `break`. -/
def revoke_one (c : Env) (st : Store) (k : Ledger) (subject_id table_id : Int)
    (right : String) : Int × Store :=
  match (st.rights k).find? (revoke_match subject_id table_id right) with
  | none => (c.EXIT_ERROR, st)
  | some row => AK_delete_row_rights c st k (fun r => decide (r.obj_id = row.obj_id))

/-- The body shared by `AK_revoke_privilege_user`, `_group` and `_role` once the
names are resolved; `result` starts as `EXIT_ERROR`. -/
def revoke_privilege (c : Env) (st : Store) (k : Ledger) (subject_id table_id : Int)
    (right : String) : Int × Store :=
  if right = "ALL" then
    let s0 := revoke_all_right c k subject_id table_id "UPDATE" (c.EXIT_ERROR, st)
    let s1 := revoke_all_right c k subject_id table_id "DELETE" s0
    let s2 := revoke_all_right c k subject_id table_id "INSERT" s1
    revoke_all_right c k subject_id table_id "SELECT" s2
  else revoke_one c st k subject_id table_id right

/-- Function `AK_revoke_privilege_user`. -/
def AK_revoke_privilege_user (c : Env) (st : Store) (username table right : String) :
    Int × Store :=
  let table_id := AK_get_table_obj_id c st table
  let user_id := AK_user_get_id c st username
  if table_id = c.EXIT_ERROR ∨ user_id = c.EXIT_ERROR then (c.EXIT_ERROR, st)
  else revoke_privilege c st .user user_id table_id right

/-- Function `AK_revoke_privilege_group`. -/
def AK_revoke_privilege_group (c : Env) (st : Store) (group_name table right : String) :
    Int × Store :=
  let table_id := AK_get_table_obj_id c st table
  let group_id := AK_group_get_id c st group_name
  if group_id = c.EXIT_ERROR ∨ table_id = c.EXIT_ERROR then (c.EXIT_ERROR, st)
  else revoke_privilege c st .group group_id table_id right

/-- Function `AK_revoke_privilege_role`. -/
def AK_revoke_privilege_role (c : Env) (st : Store) (role_name table right : String) :
    Int × Store :=
  let role_id := AK_role_get_id c st role_name
  let table_id := AK_get_table_obj_id c st table
  if role_id = c.EXIT_ERROR ∨ table_id = c.EXIT_ERROR then (c.EXIT_ERROR, st)
  else revoke_privilege c st .role role_id table_id right

/-! ## Identity registry -/

/-- Function `AK_user_add`.  When the name resolves, the function returns the string
literal `"exists"`, that is `str_exists`, and inserts nothing.  `AK_get_id` is
called before `set_id` is looked at. -/
def AK_user_add (c : Env) (st : Store) (username password : String) (set_id : Int) :
    Int × Store :=
  if AK_user_get_id c st username ≠ c.EXIT_ERROR then (c.str_exists, st)
  else
    let a := AK_get_id st
    let user_id := if set_id ≠ 0 then set_id else a.1
    (user_id,
      { a.2 with AK_user := a.2.AK_user ++ [⟨user_id, username, c.hash_password password⟩] })

/-- Function `AK_group_add`.  When the name resolves, `char check = "taken"` keeps one
byte of the address of the literal and that byte is returned. -/
def AK_group_add (c : Env) (st : Store) (name : String) (set_id : Int) : Int × Store :=
  if AK_group_get_id c st name ≠ c.EXIT_ERROR then (AK_char c.str_taken, st)
  else
    let a := AK_get_id st
    let group_id := if set_id ≠ 0 then set_id else a.1
    (group_id, { a.2 with AK_group := a.2.AK_group ++ [⟨group_id, name⟩] })

/-- Function `AK_role_add`.  When the name resolves, the function returns the string
literal `"exists"`, that is `str_exists_role`. -/
def AK_role_add (c : Env) (st : Store) (role_name : String) (set_id : Int) : Int × Store :=
  if AK_role_get_id c st role_name ≠ c.EXIT_ERROR then (c.str_exists_role, st)
  else
    let a := AK_get_id st
    let role_id := if set_id ≠ 0 then set_id else a.1
    (role_id, { a.2 with AK_role := a.2.AK_role ++ [⟨role_id, role_name⟩] })

/-- Function `AK_user_remove_by_name`: `AK_delete_row` with the condition
`username = name` (modelled from the spec like `AK_delete_row_rights`); the
result of the deletion is returned. -/
def AK_user_remove_by_name (c : Env) (st : Store) (name : String) : Int × Store :=
  let o := st.delete_outcome
  if o.1 then
    (c.EXIT_SUCCESS,
      { o.2 with AK_user := o.2.AK_user.filter (fun r => !decide (r.username = name)) })
  else (c.EXIT_ERROR, o.2)

/-- Function `AK_group_remove_by_name`: `AK_delete_row` with the condition `name = name`. -/
def AK_group_remove_by_name (c : Env) (st : Store) (name : String) : Int × Store :=
  let o := st.delete_outcome
  if o.1 then
    (c.EXIT_SUCCESS,
      { o.2 with AK_group := o.2.AK_group.filter (fun r => !decide (r.name = name)) })
  else (c.EXIT_ERROR, o.2)

/-- Function `AK_user_rename`: the id is looked up, the old row removed, and the user
added again with `set_id = user_id`; both exits after `AK_user_add` return its
result. -/
def AK_user_rename (c : Env) (st : Store) (old_name new_name password : String) :
    Int × Store :=
  let user_id := AK_user_get_id c st old_name
  let r := AK_user_remove_by_name c st old_name
  if r.1 = c.EXIT_ERROR then r
  else AK_user_add c r.2 new_name password user_id

/-- Function `AK_group_rename`.  `old_name == new_name` compares the two pointers, which
the strings do not determine: `same_pointer` says whether the caller passed the
same pointer twice.  The result of the removal is overwritten by the result of
`AK_group_add`. -/
def AK_group_rename (c : Env) (st : Store) (old_name new_name : String)
    (same_pointer : Bool) : Int × Store :=
  if same_pointer then (c.EXIT_ERROR, st)
  else
    let group_id := AK_group_get_id c st old_name
    let r := AK_group_remove_by_name c st old_name
    AK_group_add c r.2 new_name group_id

/-! ## Password verification -/

/-- The characters `isspace` accepts in the C locale: the space and the
control characters 9 to 13. -/
def isspace (ch : Char) : Bool := ch.toNat = 32 || (9 ≤ ch.toNat && ch.toNat ≤ 13)

/-- What `AK_user_check_pass` does to `stored_password` before the comparison:
the string is cut at its first newline (`strcspn`), leading white space is
skipped, and white space is removed from the end while `end > stored_password`,
so the first character left is never removed. -/
def trim_stored_password (stored_password : String) : String :=
  let cut := stored_password.toList.takeWhile (fun ch => ch.toNat ≠ 10)
  match cut.dropWhile isspace with
  | [] => ""
  | ch :: rest => String.mk (ch :: (rest.reverse.dropWhile isspace).reverse)

/-- Function `AK_user_check_pass`.  The id comes from `AK_user_get_id` (one byte); the
scan of `AK_user` compares it with the whole `obj_id` of each row and stops at
the first row that has it. -/
def AK_user_check_pass (c : Env) (st : Store) (username password : String) : Int :=
  let user_id := AK_user_get_id c st username
  if user_id = c.EXIT_ERROR then 0
  else
    match st.AK_user.find? (fun row => decide (row.obj_id = user_id)) with
    | none => 0
    | some row =>
      if trim_stored_password row.password = c.hash_password password then 1 else 0

/-! ## Bulk revoke -/

/-- The `while` loop of `AK_revoke_all_privileges_user` and `_group`: a row
whose subject column, read as one byte, equals the id has every row whose
subject column equals the id deleted (`AK_Update_Existing_Element` on the
subject column); the index advances at every row.  `result` is declared without
a value: `none` until the first deletion.  The first argument bounds the number
of iterations; `revoke_all_privileges_scan_fuel` shows that the length of the
ledger is enough. -/
def revoke_all_privileges_scan (c : Env) (k : Ledger) (id : Int) :
    Nat → Nat → Option Int → Store → Option Int × Store
  | 0, _, result, st => (result, st)
  | fuel + 1, i, result, st =>
    match (st.rights k)[i]? with
    | none => (result, st)
    | some row =>
      if AK_char row.subject_id = id then
        let d := AK_delete_row_rights c st k (fun r => decide (r.subject_id = id))
        revoke_all_privileges_scan c k id fuel (i + 1) (some d.1) d.2
      else revoke_all_privileges_scan c k id fuel (i + 1) result st

/-- The part of `AK_revoke_all_privileges_user` and `_group` after the name is
resolved: the scan, then `if (result == EXIT_ERROR)`, which reads `result`; the
read is undefined when no row matched. -/
def revoke_all_privileges (c : Env) (st : Store) (k : Ledger) (id : Int) :
    Option (Int × Store) :=
  let s := revoke_all_privileges_scan c k id (st.rights k).length 0 none st
  match s.1 with
  | none => none
  | some result =>
    if result = c.EXIT_ERROR then some (c.EXIT_ERROR, s.2) else some (c.EXIT_SUCCESS, s.2)

/-- Function `AK_revoke_all_privileges_user`. -/
def AK_revoke_all_privileges_user (c : Env) (st : Store) (username : String) :
    Option (Int × Store) :=
  let user_id := AK_user_get_id c st username
  if user_id = c.EXIT_ERROR then some (c.EXIT_ERROR, st)
  else revoke_all_privileges c st .user user_id

/-- Function `AK_revoke_all_privileges_group`. -/
def AK_revoke_all_privileges_group (c : Env) (st : Store) (groupname : String) :
    Option (Int × Store) :=
  let group_id := AK_group_get_id c st groupname
  if group_id = c.EXIT_ERROR then some (c.EXIT_ERROR, st)
  else revoke_all_privileges c st .group group_id

/-! ## Any privilege -/

/-- Function `AK_check_user_privilege`: the first row of `AK_user_right`, then of
`AK_user_group`, whose user column read as one byte equals the id returns
`EXIT_SUCCESS`; `privilege` is still 0 after the two loops. -/
def AK_check_user_privilege (c : Env) (st : Store) (user : String) : Int :=
  let user_id := AK_user_get_id c st user
  if user_id = c.EXIT_ERROR then c.EXIT_ERROR
  else if st.AK_user_right.any (fun row => decide (AK_char row.subject_id = user_id)) then
    c.EXIT_SUCCESS
  else if st.AK_user_group.any (fun row => decide (AK_char row.user_id = user_id)) then
    c.EXIT_SUCCESS
  else c.EXIT_ERROR

/-- Function `AK_check_group_privilege`. -/
def AK_check_group_privilege (c : Env) (st : Store) (group : String) : Int :=
  let group_id := AK_group_get_id c st group
  if group_id = c.EXIT_ERROR then c.EXIT_ERROR
  else if st.AK_group_right.any (fun row => decide (AK_char row.subject_id = group_id)) then
    c.EXIT_SUCCESS
  else c.EXIT_ERROR

/-! ## Bulk removal of memberships -/

/-- Modelled from the spec: `AK_delete_row` on `AK_user_group` with the condition
prepared by `AK_Update_Existing_Element`, like `AK_delete_row_rights`. -/
def AK_delete_row_user_group (c : Env) (st : Store) (p : UserGroupRow → Bool) :
    Int × Store :=
  let o := st.delete_outcome
  if o.1 then
    (c.EXIT_SUCCESS, { o.2 with AK_user_group := o.2.AK_user_group.filter (fun r => !p r) })
  else (c.EXIT_ERROR, o.2)

/-- The `while` loop of `AK_remove_user_from_all_groups`: a row whose `user_id`,
read as one byte, equals the id has every row with that `user_id` deleted; a
failed deletion returns `EXIT_ERROR` at once, and the end of the table returns
`EXIT_SUCCESS`.  The first argument bounds the number of iterations
(`remove_user_from_all_groups_scan_fuel`). -/
def remove_user_from_all_groups_scan (c : Env) (user_id : Int) :
    Nat → Nat → Store → Int × Store
  | 0, _, st => (c.EXIT_SUCCESS, st)
  | fuel + 1, i, st =>
    match st.AK_user_group[i]? with
    | none => (c.EXIT_SUCCESS, st)
    | some row =>
      if user_id = AK_char row.user_id then
        let d := AK_delete_row_user_group c st (fun r => decide (r.user_id = user_id))
        if d.1 = c.EXIT_ERROR then (c.EXIT_ERROR, d.2)
        else remove_user_from_all_groups_scan c user_id fuel (i + 1) d.2
      else remove_user_from_all_groups_scan c user_id fuel (i + 1) st

/-- Function `AK_remove_user_from_all_groups`. -/
def AK_remove_user_from_all_groups (c : Env) (st : Store) (user : String) : Int × Store :=
  let user_id := AK_user_get_id c st user
  if user_id = c.EXIT_ERROR then (c.EXIT_ERROR, st)
  else remove_user_from_all_groups_scan c user_id st.AK_user_group.length 0 st

/-- The `while` loop of `AK_remove_all_users_from_group`.  `result` is declared
without a value (`none`) and `if (result == EXIT_ERROR)` stands after the test
of the row, not inside it: it reads `result` at every row, which is undefined
until a row has matched. -/
def remove_all_users_from_group_scan (c : Env) (group_id : Int) :
    Nat → Nat → Option Int → Store → Option (Int × Store)
  | 0, _, _, st => some (c.EXIT_SUCCESS, st)
  | fuel + 1, i, result, st =>
    match st.AK_user_group[i]? with
    | none => some (c.EXIT_SUCCESS, st)
    | some row =>
      let s : Option Int × Store :=
        if group_id = AK_char row.group_id then
          let d := AK_delete_row_user_group c st (fun r => decide (r.group_id = group_id))
          (some d.1, d.2)
        else (result, st)
      match s.1 with
      | none => none
      | some r =>
        if r = c.EXIT_ERROR then some (c.EXIT_ERROR, s.2)
        else remove_all_users_from_group_scan c group_id fuel (i + 1) (some r) s.2

/-- Function `AK_remove_all_users_from_group`. -/
def AK_remove_all_users_from_group (c : Env) (st : Store) (group : String) :
    Option (Int × Store) :=
  let group_id := AK_group_get_id c st group
  if group_id = c.EXIT_ERROR then some (c.EXIT_ERROR, st)
  else remove_all_users_from_group_scan c group_id st.AK_user_group.length 0 none st

/-! ## Roles -/

/-- The two tables of role edges, `AK_user_role` and `AK_group_role`. -/
inductive RoleEdges where
  | user
  | group
deriving DecidableEq, Repr

/-- The rows of a table of role edges. -/
def Store.role_edges (st : Store) : RoleEdges → List RoleEdgeRow
  | .user => st.AK_user_role
  | .group => st.AK_group_role

/-- Replace the rows of a table of role edges. -/
def Store.setRoleEdges (st : Store) (k : RoleEdges) (rows : List RoleEdgeRow) : Store :=
  match k with
  | .user => { st with AK_user_role := rows }
  | .group => { st with AK_group_role := rows }

/-- Modelled from the spec: `AK_delete_row` on a table of role edges, like
`AK_delete_row_rights`. -/
def AK_delete_row_role_edges (c : Env) (st : Store) (k : RoleEdges)
    (p : RoleEdgeRow → Bool) : Int × Store :=
  let o := st.delete_outcome
  if o.1 then
    (c.EXIT_SUCCESS, o.2.setRoleEdges k ((o.2.role_edges k).filter (fun r => !p r)))
  else (c.EXIT_ERROR, o.2)

/-- Function `AK_assign_role_to_user`: once the two names resolve, the row is inserted and
`EXIT_SUCCESS` returned; the table is not read. -/
def AK_assign_role_to_user (c : Env) (st : Store) (username role_name : String) :
    Int × Store :=
  let user_id := AK_user_get_id c st username
  let role_id := AK_role_get_id c st role_name
  if user_id = c.EXIT_ERROR ∨ role_id = c.EXIT_ERROR then (c.EXIT_ERROR, st)
  else (c.EXIT_SUCCESS, { st with AK_user_role := st.AK_user_role ++ [⟨user_id, role_id⟩] })

/-- Function `AK_assign_role_to_group`. -/
def AK_assign_role_to_group (c : Env) (st : Store) (group_name role_name : String) :
    Int × Store :=
  let group_id := AK_group_get_id c st group_name
  let role_id := AK_role_get_id c st role_name
  if group_id = c.EXIT_ERROR ∨ role_id = c.EXIT_ERROR then (c.EXIT_ERROR, st)
  else (c.EXIT_SUCCESS, { st with AK_group_role := st.AK_group_role ++ [⟨group_id, role_id⟩] })

/-- Function `AK_check_role_privilege`: the first row of `AK_role_right` whose role, table
(whole `int` each) and right equal the arguments returns `EXIT_SUCCESS`.  The
test of the column types is true of every `RightRow`, whose columns are typed. -/
def AK_check_role_privilege (c : Env) (st : Store) (role_id table_id : Int)
    (privilege : String) : Int :=
  if st.AK_role_right.any (fun row => decide (row.subject_id = role_id) &&
      decide (row.artifact_id = table_id) && decide (row.right_type = privilege)) then
    c.EXIT_SUCCESS
  else c.EXIT_ERROR

/-- The loop shared by `AK_check_user_privilege_via_roles` and
`AK_check_group_privilege_via_roles`: the first edge of the subject (whole
`int`) whose role passes `AK_check_role_privilege` returns `EXIT_SUCCESS`. -/
def check_privilege_via_roles (c : Env) (st : Store) (k : RoleEdges)
    (subject_id table_id : Int) (privilege : String) : Int :=
  if (st.role_edges k).any (fun row => decide (row.subject_id = subject_id) &&
      decide (AK_check_role_privilege c st row.role_id table_id privilege = c.EXIT_SUCCESS))
  then c.EXIT_SUCCESS
  else c.EXIT_ERROR

/-- Function `AK_check_user_privilege_via_roles`. -/
def AK_check_user_privilege_via_roles (c : Env) (st : Store)
    (username table privilege : String) : Int :=
  let user_id := AK_user_get_id c st username
  let table_id := AK_get_table_obj_id c st table
  if user_id = c.EXIT_ERROR ∨ table_id = c.EXIT_ERROR then c.EXIT_ERROR
  else check_privilege_via_roles c st .user user_id table_id privilege

/-- Function `AK_check_group_privilege_via_roles`. -/
def AK_check_group_privilege_via_roles (c : Env) (st : Store)
    (group_name table privilege : String) : Int :=
  let group_id := AK_group_get_id c st group_name
  let table_id := AK_get_table_obj_id c st table
  if group_id = c.EXIT_ERROR ∨ table_id = c.EXIT_ERROR then c.EXIT_ERROR
  else check_privilege_via_roles c st .group group_id table_id privilege

/-- The `while` loop of `AK_remove_all_roles_from_user` and `_group`: a row whose
subject column (whole `int`) equals the id has every row of that subject
deleted; a failed deletion returns `EXIT_ERROR` at once, and the end of the
table returns `EXIT_SUCCESS`.  The first argument bounds the number of
iterations (`remove_all_roles_scan_fuel`). -/
def remove_all_roles_scan (c : Env) (k : RoleEdges) (id : Int) :
    Nat → Nat → Store → Int × Store
  | 0, _, st => (c.EXIT_SUCCESS, st)
  | fuel + 1, i, st =>
    match (st.role_edges k)[i]? with
    | none => (c.EXIT_SUCCESS, st)
    | some row =>
      if row.subject_id = id then
        let d := AK_delete_row_role_edges c st k (fun r => decide (r.subject_id = id))
        if d.1 = c.EXIT_ERROR then (c.EXIT_ERROR, d.2)
        else remove_all_roles_scan c k id fuel (i + 1) d.2
      else remove_all_roles_scan c k id fuel (i + 1) st

/-- Function `AK_remove_all_roles_from_user`. -/
def AK_remove_all_roles_from_user (c : Env) (st : Store) (username : String) : Int × Store :=
  let user_id := AK_user_get_id c st username
  if user_id = c.EXIT_ERROR then (c.EXIT_ERROR, st)
  else remove_all_roles_scan c .user user_id st.AK_user_role.length 0 st

/-- Function `AK_remove_all_roles_from_group`. -/
def AK_remove_all_roles_from_group (c : Env) (st : Store) (group_name : String) :
    Int × Store :=
  let group_id := AK_group_get_id c st group_name
  if group_id = c.EXIT_ERROR then (c.EXIT_ERROR, st)
  else remove_all_roles_scan c .group group_id st.AK_group_role.length 0 st

/-! ## Removal of one role -/

/-- The part of `AK_remove_role_from_user` and `AK_remove_role_from_group` after
the names are resolved.  The scan stops at the first edge whose subject and role
(whole `int` each) equal the two ids; there `AK_Update_Existing_Element`
prepares a condition on the subject column alone (`user_id`, `group_id`), and
`AK_delete_row` deletes by it, then `break`.  `result` starts as `EXIT_ERROR`.
The test of the column types is true of every `RoleEdgeRow`. -/
def remove_role (c : Env) (st : Store) (k : RoleEdges) (subject_id role_id : Int) :
    Int × Store :=
  if (st.role_edges k).any (fun row => decide (row.subject_id = subject_id) &&
      decide (row.role_id = role_id)) then
    AK_delete_row_role_edges c st k (fun r => decide (r.subject_id = subject_id))
  else (c.EXIT_ERROR, st)

/-- Function `AK_remove_role_from_user`. -/
def AK_remove_role_from_user (c : Env) (st : Store) (username role_name : String) :
    Int × Store :=
  let user_id := AK_user_get_id c st username
  let role_id := AK_role_get_id c st role_name
  if user_id = c.EXIT_ERROR ∨ role_id = c.EXIT_ERROR then (c.EXIT_ERROR, st)
  else remove_role c st .user user_id role_id

/-- Function `AK_remove_role_from_group`. -/
def AK_remove_role_from_group (c : Env) (st : Store) (group_name role_name : String) :
    Int × Store :=
  let group_id := AK_group_get_id c st group_name
  let role_id := AK_role_get_id c st role_name
  if group_id = c.EXIT_ERROR ∨ role_id = c.EXIT_ERROR then (c.EXIT_ERROR, st)
  else remove_role c st .group group_id role_id

/-! ## Concrete environments and stores

Used to evaluate the functions above on explicit inputs. -/

/-- An environment with the values of a typical build: `EXIT_SUCCESS = 0`,
`EXIT_ERROR = -1`, three addresses for the string literals and the identity in
place of SHA-256. -/
def env_example : Env :=
  { EXIT_SUCCESS := 0, EXIT_ERROR := -1, str_exists := 4202496, str_exists_role := 4202503,
    str_taken := 4202510, hash_password := fun s => s }

/-- User `"u"` (id 1) holds a direct `SELECT` row on table `"t"`, whose object id
is 300. -/
def store_wide_table : Store :=
  { AK_user := [⟨1, "u", "h"⟩], catalog := [("t", 300)],
    AK_user_right := [⟨10, 1, 300, "SELECT"⟩] }

/-- User `"u"` (id 1) holds direct `SELECT` and `INSERT` rows on table `"t"`
(object id 7); group `"g"` (id 2), of which `"u"` is a member, holds `UPDATE`
and `DELETE` rows on `"t"`. -/
def store_mixed : Store :=
  { AK_user := [⟨1, "u", "h"⟩], AK_group := [⟨2, "g"⟩], catalog := [("t", 7)],
    AK_user_group := [⟨1, 2⟩],
    AK_user_right := [⟨10, 1, 7, "SELECT"⟩, ⟨11, 1, 7, "INSERT"⟩],
    AK_group_right := [⟨12, 2, 7, "UPDATE"⟩, ⟨13, 2, 7, "DELETE"⟩],
    last_id := 13 }

/-- User `"u"` (id 1) holds the four rights on table `"t"` (object id 7)
directly. -/
def store_direct_all : Store :=
  { AK_user := [⟨1, "u", "h"⟩], catalog := [("t", 7)],
    AK_user_right := [⟨10, 1, 7, "UPDATE"⟩, ⟨11, 1, 7, "DELETE"⟩, ⟨12, 1, 7, "INSERT"⟩,
      ⟨13, 1, 7, "SELECT"⟩],
    last_id := 13 }

/-- User `"u"` (id 1) and group `"g"` (id 2) exist, `"u"` belongs to no group,
nobody holds a grant, and table `"t"` has object id 300. -/
def store_C3 : Store :=
  { AK_user := [⟨1, "u", "h"⟩], AK_group := [⟨2, "g"⟩], catalog := [("t", 300)],
    last_id := 50 }

/-- The store `store_C3` after `AK_add_user_to_group("u", "g")`. -/
def store_C3_member : Store :=
  { AK_user := [⟨1, "u", "h"⟩], AK_group := [⟨2, "g"⟩], catalog := [("t", 300)],
    AK_user_group := [⟨1, 2⟩], last_id := 50 }

/-- The store `store_C3_member` after `AK_grant_privilege_group("g", "t",
"SELECT")`. -/
def store_C3_granted : Store :=
  { AK_user := [⟨1, "u", "h"⟩], AK_group := [⟨2, "g"⟩], catalog := [("t", 300)],
    AK_user_group := [⟨1, 2⟩], AK_group_right := [⟨51, 2, 300, "SELECT"⟩], last_id := 51 }

/-- User `"u"` (id 1) is a member of group `"g1"` (id 2) and not of group
`"g2"` (id 3). -/
def store_C4 : Store :=
  { AK_user := [⟨1, "u", "h"⟩], AK_group := [⟨2, "g1"⟩, ⟨3, "g2"⟩],
    AK_user_group := [⟨1, 2⟩] }

/-! ## Statements of the spec used in the theorems -/

/-- The rows the spec says a grant appends (section 4.3): with `"ALL"` one row
for each of `UPDATE`, `DELETE`, `INSERT`, `SELECT`, in that order, with the next
four values of the identifier sequence; else one row with the next value. -/
def spec_granted_rows (last_id subject_id table_id : Int) (right : String) : List RightRow :=
  if right = "ALL" then
    [⟨last_id + 1, subject_id, table_id, "UPDATE"⟩, ⟨last_id + 2, subject_id, table_id, "DELETE"⟩,
      ⟨last_id + 3, subject_id, table_id, "INSERT"⟩, ⟨last_id + 4, subject_id, table_id, "SELECT"⟩]
  else [⟨last_id + 1, subject_id, table_id, right⟩]

/-- The `(subject, table, right)` triples of a ledger, in scan order. -/
def triples (rows : List RightRow) : List (Int × Int × String) :=
  rows.map (fun row => (row.subject_id, row.artifact_id, row.right_type))

/-- User `"u"` (id 1), group `"g"` (id 2), role `"r"` (id 3) and table `"t"`
(object id 7); each ledger holds one unrelated row. -/
def store_ledgers : Store :=
  { AK_user := [⟨1, "u", "h"⟩], AK_group := [⟨2, "g"⟩], AK_role := [⟨3, "r"⟩],
    catalog := [("t", 7)],
    AK_user_right := [⟨20, 9, 7, "SELECT"⟩], AK_group_right := [⟨21, 9, 7, "SELECT"⟩],
    AK_role_right := [⟨22, 9, 7, "SELECT"⟩], last_id := 30 }

/-- The name resolution of each subject kind. -/
def AK_subject_get_id (k : Ledger) (c : Env) (st : Store) (name : String) : Int :=
  match k with
  | .user => AK_user_get_id c st name
  | .group => AK_group_get_id c st name
  | .role => AK_role_get_id c st name

/-- The grant function of each subject kind. -/
def AK_grant_privilege (k : Ledger) (c : Env) (st : Store) (name table right : String) :
    Int × Store :=
  match k with
  | .user => AK_grant_privilege_user c st name table right
  | .group => AK_grant_privilege_group c st name table right
  | .role => AK_grant_privilege_role c st name table right

/-- The revoke function of each subject kind. -/
def AK_revoke_privilege (k : Ledger) (c : Env) (st : Store) (name table right : String) :
    Int × Store :=
  match k with
  | .user => AK_revoke_privilege_user c st name table right
  | .group => AK_revoke_privilege_group c st name table right
  | .role => AK_revoke_privilege_role c st name table right

/-- User `"u"` (id 1) already holds a `SELECT` row on table `"t"` (object
id 7). -/
def store_held : Store :=
  { AK_user := [⟨1, "u", "h"⟩], catalog := [("t", 7)],
    AK_user_right := [⟨5, 1, 7, "SELECT"⟩], last_id := 5 }

/-- The store with no row at all and the identifier sequence at 0. -/
def store_empty : Store := {}

/-- The user `"old"` has identifier 0. -/
def store_id_zero : Store :=
  { AK_user := [⟨0, "old", "h"⟩], AK_group := [⟨0, "old"⟩], last_id := 40 }

/-- The users `"old"` and `"x"` carry the same identifier 5, and so do the groups
`"old"` and `"x"`. -/
def store_shared_id : Store :=
  { AK_user := [⟨5, "old", "h"⟩, ⟨5, "x", "h"⟩], AK_group := [⟨5, "old"⟩, ⟨5, "x"⟩],
    last_id := 40 }

/-- The user `"old"` and the group `"old"` have identifier 5, next to a user and
a group `"x"` of identifier 6. -/
def store_rename : Store :=
  { AK_user := [⟨5, "old", "h"⟩, ⟨6, "x", "h"⟩], AK_group := [⟨5, "old"⟩, ⟨6, "x"⟩],
    last_id := 40 }

/-! ## More concrete stores -/

/-- The store `store_rename` with the next `AK_delete_row` call scheduled to
fail. -/
def store_rename_fault : Store :=
  { AK_user := [⟨5, "old", "h"⟩, ⟨6, "x", "h"⟩], AK_group := [⟨5, "old"⟩, ⟨6, "x"⟩],
    last_id := 40, delete_faults := [true] }

/-- User `"u"` (id 1) holds two rows of `AK_user_right` around a row of
subject 2; group `"g"` (id 3) holds two rows of `AK_group_right` after a row of
subject 4. -/
def store_bulk : Store :=
  { AK_user := [⟨1, "u", "h"⟩, ⟨2, "v", "h"⟩], AK_group := [⟨3, "g"⟩, ⟨4, "f"⟩],
    catalog := [("t", 7), ("s", 8)],
    AK_user_right := [⟨10, 1, 7, "SELECT"⟩, ⟨11, 2, 7, "SELECT"⟩, ⟨12, 1, 8, "UPDATE"⟩],
    AK_group_right := [⟨13, 4, 7, "SELECT"⟩, ⟨14, 3, 7, "SELECT"⟩, ⟨15, 3, 8, "DELETE"⟩],
    last_id := 15 }

/-- User `"u"` (id 1), group `"g"` (id 2) and role `"r"` (id 3) exist; the only
membership is that of user 5 in group 6, and the only role edges are those of
user 5 and of group 6. -/
def store_no_edge : Store :=
  { AK_user := [⟨1, "u", "h"⟩], AK_group := [⟨2, "g"⟩], AK_role := [⟨3, "r"⟩],
    AK_user_group := [⟨5, 6⟩], AK_user_role := [⟨5, 3⟩], AK_group_role := [⟨6, 3⟩] }

/-- User `"u"` (id 1) and group `"g"` (id 2) both have the role `"r"` (id 3),
which holds a `SELECT` row on table `"t"` (object id 300). -/
def store_role_edge : Store :=
  { AK_user := [⟨1, "u", "h"⟩], AK_group := [⟨2, "g"⟩], AK_role := [⟨3, "r"⟩],
    catalog := [("t", 300)],
    AK_user_role := [⟨1, 3⟩], AK_group_role := [⟨2, 3⟩],
    AK_role_right := [⟨20, 3, 300, "SELECT"⟩], last_id := 20 }

/-- User `"u"` (id 1) and role `"r"` (id 3) hold one `UPDATE` row each on table
`"t"` (object id 7) and no other row. -/
def store_update_only : Store :=
  { AK_user := [⟨1, "u", "h"⟩], AK_role := [⟨3, "r"⟩], catalog := [("t", 7)],
    AK_user_right := [⟨5, 1, 7, "UPDATE"⟩], AK_role_right := [⟨6, 3, 7, "UPDATE"⟩],
    last_id := 6 }

/-! ## Invariants and lists used in the theorems -/

/-- The user and group ids held by the ledgers `AK_user_right` and
`AK_group_right` and by the memberships are values of the range of `char`.
The grant functions and `AK_add_user_to_group` write there what
`AK_user_get_id` and `AK_group_get_id` return, which is one byte of an id
(`grant_keeps_subject_ids_chars`, `add_user_to_group_keeps_subject_ids_chars`). -/
def Store.subject_ids_are_chars (st : Store) : Prop :=
  (∀ row ∈ st.AK_user_right, AK_char row.subject_id = row.subject_id) ∧
  (∀ row ∈ st.AK_group_right, AK_char row.subject_id = row.subject_id) ∧
  (∀ row ∈ st.AK_user_group,
    AK_char row.user_id = row.user_id ∧ AK_char row.group_id = row.group_id)

instance (st : Store) : Decidable st.subject_ids_are_chars := by
  unfold Store.subject_ids_are_chars
  infer_instance

/-- The four rights a revoke of `"ALL"` goes through, in the order of the
source. -/
def all_rights : List String := ["UPDATE", "DELETE", "INSERT", "SELECT"]

/-! ## The decision of the resolver in terms of the rows -/

/-- The group ids `AK_check_privilege` collects for a user id: one byte of the
`group_id` of every membership row whose `user_id`, read as one byte, is the
user id, in scan order. -/
def groups_of (user_id : Int) (edges : List UserGroupRow) : List Int :=
  (edges.filter (fun e => decide (user_id = AK_char e.user_id))).map
    (fun e => AK_char e.group_id)

/-- The decision of section 4.4 of the spec on resolved ids, ids being compared
as the code reads them.  For a specific right: a direct row of the user matches,
or a row of one of the groups of the user matches.  For `"ALL"`: the direct rows
of the user cover the four rights, or the rows of the groups of the user, taken
together, cover them. -/
def check_decision (st : Store) (user_id table_id : Int) (privilege : String) : Bool :=
  if privilege = "ALL" then
    all_rights.all (fun r => check_right_scan user_id table_id r st.AK_user_right) ||
      all_rights.all (fun r => (groups_of user_id st.AK_user_group).any
        (fun g => check_right_scan g table_id r st.AK_group_right))
  else
    check_right_scan user_id table_id privilege st.AK_user_right ||
      (groups_of user_id st.AK_user_group).any
        (fun g => check_right_scan g table_id privilege st.AK_group_right)

/-! ## Concrete stores for the resolver -/

/-- User `"u"` (id 1) belongs to the groups `"g1"` (id 2) and `"g2"` (id 3) and
holds no direct grant; on table `"t"` (object id 7) `"g1"` holds `UPDATE` and
`DELETE` and `"g2"` holds `INSERT` and `SELECT`. -/
def store_two_groups : Store :=
  { AK_user := [⟨1, "u", "h"⟩], AK_group := [⟨2, "g1"⟩, ⟨3, "g2"⟩], catalog := [("t", 7)],
    AK_user_group := [⟨1, 2⟩, ⟨1, 3⟩],
    AK_group_right := [⟨10, 2, 7, "UPDATE"⟩, ⟨11, 2, 7, "DELETE"⟩, ⟨12, 3, 7, "INSERT"⟩,
      ⟨13, 3, 7, "SELECT"⟩],
    last_id := 13 }

/-- The store `store_role_edge` without its roles, role edges and role
grants. -/
def store_role_edge_no_roles : Store :=
  { AK_user := [⟨1, "u", "h"⟩], AK_group := [⟨2, "g"⟩], catalog := [("t", 300)],
    last_id := 20 }

/-! ## Tables built by `AK_add_user_to_group` -/

/-- The tables `AK_user_group` that calls of `AK_add_user_to_group` build from
the empty table, whatever the other tables of the store hold at each call. -/
inductive built_by_add_user_to_group (c : Env) : List UserGroupRow → Prop where
  | empty : built_by_add_user_to_group c []
  | add (st : Store) (user group : String) :
      built_by_add_user_to_group c st.AK_user_group →
      built_by_add_user_to_group c (AK_add_user_to_group c st user group).2.AK_user_group

/-! ## Concrete stores for the roles and the renames -/

/-- User `"u"` (id 1) and group `"g"` (id 5) have the roles `"r"` (id 3) and
`"r2"` (id 4); user 2 and group 6 have the role `"r"`. -/
def store_two_roles : Store :=
  { AK_user := [⟨1, "u", "h"⟩, ⟨2, "v", "h"⟩], AK_group := [⟨5, "g"⟩, ⟨6, "f"⟩],
    AK_role := [⟨3, "r"⟩, ⟨4, "r2"⟩],
    AK_user_role := [⟨1, 3⟩, ⟨1, 4⟩, ⟨2, 3⟩], AK_group_role := [⟨5, 3⟩, ⟨5, 4⟩, ⟨6, 3⟩] }

/-- User `"u"` (id 1) holds two `SELECT` rows on table `"t"` (object id 7), at
adjacent positions and with distinct grant ids, as two grants of `SELECT` leave
them; group `"g"` (id 2) likewise. -/
def store_adjacent : Store :=
  { AK_user := [⟨1, "u", "h"⟩], AK_group := [⟨2, "g"⟩], catalog := [("t", 7)],
    AK_user_right := [⟨5, 1, 7, "SELECT"⟩, ⟨6, 1, 7, "SELECT"⟩],
    AK_group_right := [⟨8, 2, 7, "SELECT"⟩, ⟨9, 2, 7, "SELECT"⟩],
    last_id := 9 }

/-! ## Identifiers in the range of `char` -/

/-- Every identifier `AK_check_privilege` reads through one byte is in the range
of `char` (-128 to 127), so that the byte read returns it whole: the ids of the
users, the two columns of the memberships, and the subject and table columns of
`AK_user_right` and `AK_group_right`. -/
def Store.ids_fit_char (st : Store) : Prop :=
  (∀ r ∈ st.AK_user, AK_char r.obj_id = r.obj_id) ∧
  (∀ e ∈ st.AK_user_group, AK_char e.user_id = e.user_id ∧ AK_char e.group_id = e.group_id) ∧
  (∀ row ∈ st.AK_user_right,
    AK_char row.subject_id = row.subject_id ∧ AK_char row.artifact_id = row.artifact_id) ∧
  (∀ row ∈ st.AK_group_right,
    AK_char row.subject_id = row.subject_id ∧ AK_char row.artifact_id = row.artifact_id)

instance (st : Store) : Decidable st.ids_fit_char := by
  unfold Store.ids_fit_char
  infer_instance

/-! ## Two users whose identifiers share the low byte -/

/-- The store with the table `"t"` (object id 7) in the catalog and no row in
any system table. -/
def store_catalog : Store := { catalog := [("t", 7)] }

/-- The store `store_catalog` after `AK_user_add("v", "p", 44)` and
`AK_user_add("u", "p", 300)`: two users, of ids 44 and 300, and 44 is the low
byte of 300. -/
def store_alias : Store :=
  (AK_user_add env_example (AK_user_add env_example store_catalog "v" "p" 44).2 "u" "p" 300).2

/-- The store `store_alias` after `AK_grant_privilege_user("v", "t", "SELECT")`:
`"v"` holds one row and no grant was made to `"u"`. -/
def store_alias_v_granted : Store :=
  (AK_grant_privilege_user env_example store_alias "v" "t" "SELECT").2

/-- The store `store_alias_v_granted` after
`AK_grant_privilege_user("u", "t", "INSERT")`. -/
def store_alias_granted : Store :=
  (AK_grant_privilege_user env_example store_alias_v_granted "u" "t" "INSERT").2

/-- The store `store_alias` after `AK_role_add("r", 0)`,
`AK_assign_role_to_user("v", "r")` and
`AK_grant_privilege_role("r", "t", "SELECT")`: the role was assigned to `"v"`
and to nobody else. -/
def store_alias_role : Store :=
  (AK_grant_privilege_role env_example
    (AK_assign_role_to_user env_example (AK_role_add env_example store_alias "r" 0).2
      "v" "r").2 "r" "t" "SELECT").2

/-! ## Grants through a group, a wide table id and a long right -/

/-- The store `store_C3_member` after `AK_grant_privilege_group("g", "t", "ALL")`:
the user `"u"` belongs to the group `"g"`, which holds the four rights on the
table `"t"` of object id 300, and `"u"` holds no direct grant. -/
def store_wide_group_all : Store :=
  (AK_grant_privilege_group env_example store_C3_member "g" "t" "ALL").2

/-- User `"u"` (id 1) belongs to the group `"g"` (id 2); table `"t"` has object
id 7 and nobody holds a grant. -/
def store_member : Store :=
  { AK_user := [⟨1, "u", "h"⟩], AK_group := [⟨2, "g"⟩], catalog := [("t", 7)],
    AK_user_group := [⟨1, 2⟩], last_id := 50 }

/-- The store `store_member` after `AK_grant_privilege_group("g", "t", "ALL")`. -/
def store_group_all : Store :=
  (AK_grant_privilege_group env_example store_member "g" "t" "ALL").2

/-- The store `store_group_all` after
`AK_grant_privilege_group("g", "t", "REFERENCES")`, a right of 10 bytes. -/
def store_group_all_references : Store :=
  (AK_grant_privilege_group env_example store_group_all "g" "t" "REFERENCES").2

/-- The store `store_direct_all` after
`AK_grant_privilege_user("u", "t", "REFERENCES")`, a right of 10 bytes. -/
def store_direct_all_references : Store :=
  (AK_grant_privilege_user env_example store_direct_all "u" "t" "REFERENCES").2

/-! ## The `AK_delete_row` calls of a revoke of `"ALL"` -/

/-- The scan `revoke_all_scan` with the list of the values returned by the
`AK_delete_row` calls made so far, in the order of the calls, in place of
`result`: where `revoke_all_scan` stores the value of a call in `result`, this
scan appends it to the list; nothing else differs. -/
def revoke_all_scan_calls (c : Env) (k : Ledger) (subject_id table_id : Int)
    (right : String) : Nat → Nat → List Int → Store → List Int × Store
  | 0, _, calls, st => (calls, st)
  | fuel + 1, i_row, calls, st =>
    match (st.rights k)[i_row]? with
    | none => (calls, st)
    | some row =>
      if revoke_match subject_id table_id right row then
        let d := AK_delete_row_rights c st k (fun r => decide (r.obj_id = row.obj_id))
        revoke_all_scan_calls c k subject_id table_id right fuel (i_row + 1)
          (calls ++ [d.1]) d.2
      else revoke_all_scan_calls c k subject_id table_id right fuel (i_row + 1) calls st

/-- One iteration of `for (int i = 0; i < 4; i++)`, as in `revoke_all_right`,
with the list of the values of the calls. -/
def revoke_all_right_calls (c : Env) (k : Ledger) (subject_id table_id : Int)
    (right : String) (s : List Int × Store) : List Int × Store :=
  revoke_all_scan_calls c k subject_id table_id right (s.2.rights k).length 0 s.1 s.2

/-- The values returned by the `AK_delete_row` calls of the `"ALL"` branch of
`revoke_privilege`, in the order of the calls, and the store after the four
rights. -/
def revoke_all_calls (c : Env) (st : Store) (k : Ledger) (subject_id table_id : Int) :
    List Int × Store :=
  let s0 := revoke_all_right_calls c k subject_id table_id "UPDATE" ([], st)
  let s1 := revoke_all_right_calls c k subject_id table_id "DELETE" s0
  let s2 := revoke_all_right_calls c k subject_id table_id "INSERT" s1
  revoke_all_right_calls c k subject_id table_id "SELECT" s2

/-- The value the `j`-th `AK_delete_row` call of a run returns, the calls being
counted from 0: `EXIT_ERROR` when the schedule of the store makes that call
fail, else `EXIT_SUCCESS`. -/
def scheduled_result (c : Env) (st : Store) (j : Nat) : Int :=
  if st.delete_faults.getD j false then c.EXIT_ERROR else c.EXIT_SUCCESS

/-- User `"u"` (id 1) holds an `UPDATE` row and a `SELECT` row on table `"t"`
(object id 7); the first `AK_delete_row` call succeeds and the second fails. -/
def store_update_select_fault : Store :=
  { AK_user := [⟨1, "u", "h"⟩], catalog := [("t", 7)],
    AK_user_right := [⟨5, 1, 7, "UPDATE"⟩, ⟨6, 1, 7, "SELECT"⟩],
    last_id := 6, delete_faults := [false, true] }

/-! ## Theorems -/

/-! ### Byte reads -/

theorem AK_char_idem (v : Int) : AK_char (AK_char v) = AK_char v := by
  unfold AK_char; omega

theorem AK_char_of_range (v : Int) (h : -128 ≤ v ∧ v ≤ 127) : AK_char v = v := by
  unfold AK_char; omega

/-! ### C1 -/

/-- C1 (code defect).  `AK_check_privilege` compares the table id with ONE byte
of the stored `artifact_id`: with user `"u"` (id 1), table `"t"` of object id
300 and the row `(1, 300, "SELECT")` in `AK_user_right`, both names resolve, the
row is there, and the check still returns `EXIT_ERROR`. -/
theorem C1_check_privilege_wide_table_id (c : Env)
    (h1 : c.EXIT_ERROR ≠ 1) (h300 : c.EXIT_ERROR ≠ 300) :
    AK_user_get_id c store_wide_table "u" = 1 ∧
    AK_get_table_obj_id c store_wide_table "t" = 300 ∧
    (⟨10, 1, 300, "SELECT"⟩ : RightRow) ∈ store_wide_table.AK_user_right ∧
    AK_check_privilege c store_wide_table "u" "t" "SELECT" = some c.EXIT_ERROR := by
  have hu : AK_user_get_id c store_wide_table "u" = 1 := by
    simp [AK_user_get_id, AK_user_get_id_loop, store_wide_table, AK_char]
  have ht : AK_get_table_obj_id c store_wide_table "t" = 300 := by
    simp [AK_get_table_obj_id, store_wide_table]
  refine ⟨hu, ht, by simp [store_wide_table], ?_⟩
  simp only [AK_check_privilege, hu, ht]
  simp [Ne.symm h1, Ne.symm h300, check_right_scan, store_wide_table, collect_groups, AK_char]

/-- Witness of `C1_check_privilege_wide_table_id`: the environment
`env_example`. -/
theorem C1_check_privilege_wide_table_id_witness :
    env_example.EXIT_ERROR ≠ 1 ∧ env_example.EXIT_ERROR ≠ 300 ∧
    AK_check_privilege env_example store_wide_table "u" "t" "SELECT" = some (-1) :=
  ⟨by decide, by decide,
    (C1_check_privilege_wide_table_id env_example (by decide) (by decide)).2.2.2⟩
/-! ### The scans of `AK_check_privilege` -/

/-- The flags a scan of the `"ALL"` branch ends with. -/
theorem check_all_scan_eq (subject table_id : Int) (rows : List RightRow)
    (hlen : ∀ row ∈ rows, row.right_type.utf8ByteSize < 10) (f : CheckingPrivileges) :
    check_all_scan subject table_id rows f = some
      { p0 := f.p0 || check_right_scan subject table_id "UPDATE" rows
        p1 := f.p1 || check_right_scan subject table_id "DELETE" rows
        p2 := f.p2 || check_right_scan subject table_id "INSERT" rows
        p3 := f.p3 || check_right_scan subject table_id "SELECT" rows } := by
  induction rows generalizing f with
  | nil => simp [check_all_scan, check_right_scan]
  | cons row rest ih =>
    have hrest : ∀ r ∈ rest, r.right_type.utf8ByteSize < 10 :=
      fun r hr => hlen r (List.mem_cons_of_mem _ hr)
    have hrow : row.right_type.utf8ByteSize < 10 := hlen row (List.mem_cons_self _ _)
    by_cases hm : AK_char row.subject_id = subject ∧ table_id = AK_char row.artifact_id
    · rw [check_all_scan, if_pos hm, if_pos hrow, ih hrest]
      obtain ⟨h1, h2⟩ := hm
      simp only [check_right_scan] at *
      simp only [mark_found_privilege, List.any_cons, h1, ← h2, decide_True, Bool.true_and]
      congr 2 <;> (split <;> rename_i hr <;> simp [hr])
    · rw [check_all_scan, if_neg hm, ih hrest]
      have : (decide (AK_char row.subject_id = subject) &&
          decide (table_id = AK_char row.artifact_id)) = false := by
        simpa using hm
      simp [check_right_scan, List.any_cons, this]

/-- The groups collected for a user: one byte of the `group_id` of every row
whose `user_id` byte is `user_id`, in scan order, as long as `groups[100]` is
not overrun. -/
theorem collect_groups_eq (user_id : Int) (rows : List UserGroupRow) (groups : List Int)
    (h : groups.length +
      (rows.filter (fun row => decide (user_id = AK_char row.user_id))).length ≤ 100) :
    collect_groups user_id rows groups = some (groups ++
      (rows.filter (fun row => decide (user_id = AK_char row.user_id))).map
        (fun row => AK_char row.group_id)) := by
  induction rows generalizing groups with
  | nil => simp [collect_groups]
  | cons row rest ih =>
    by_cases hm : user_id = AK_char row.user_id
    · have hf : (row :: rest).filter (fun row => decide (user_id = AK_char row.user_id)) =
          row :: rest.filter (fun row => decide (user_id = AK_char row.user_id)) := by
        simp [List.filter_cons, hm]
      rw [hf] at h ⊢
      simp only [List.length_cons] at h
      have hlt : groups.length < 100 := by omega
      rw [collect_groups, if_pos hm, if_pos hlt, ih]
      · simp
      · simp only [List.length_append, List.length_singleton]; omega
    · have hf : (row :: rest).filter (fun row => decide (user_id = AK_char row.user_id)) =
          rest.filter (fun row => decide (user_id = AK_char row.user_id)) := by
        simp [List.filter_cons, hm]
      rw [hf] at h ⊢
      rw [collect_groups, if_neg hm, ih _ h]

/-- The flags the loop over the collected groups ends with. -/
theorem check_all_groups_eq (table_id : Int) (rights : List RightRow)
    (hlen : ∀ row ∈ rights, row.right_type.utf8ByteSize < 10) (groups : List Int)
    (f : CheckingPrivileges) :
    check_all_groups table_id rights groups f = some
      { p0 := f.p0 || groups.any (fun g => check_right_scan g table_id "UPDATE" rights)
        p1 := f.p1 || groups.any (fun g => check_right_scan g table_id "DELETE" rights)
        p2 := f.p2 || groups.any (fun g => check_right_scan g table_id "INSERT" rights)
        p3 := f.p3 || groups.any (fun g => check_right_scan g table_id "SELECT" rights) } := by
  induction groups generalizing f with
  | nil => simp [check_all_groups]
  | cons g gs ih =>
    rw [check_all_groups, check_all_scan_eq g table_id rights hlen f]
    simp only [ih, List.any_cons, Bool.or_assoc]

/-- What `check_right_scan` decides. -/
theorem check_right_scan_iff (subject table_id : Int) (privilege : String)
    (rows : List RightRow) :
    check_right_scan subject table_id privilege rows = true ↔
      ∃ row ∈ rows, AK_char row.subject_id = subject ∧
        table_id = AK_char row.artifact_id ∧ row.right_type = privilege := by
  simp [check_right_scan, List.any_eq_true, and_assoc]

/-- What the scan over the collected groups decides. -/
theorem groups_any_iff (user_id table_id : Int) (privilege : String)
    (edges : List UserGroupRow) (rights : List RightRow) :
    ((edges.filter (fun e => decide (user_id = AK_char e.user_id))).map
        (fun e => AK_char e.group_id)).any
      (fun g => check_right_scan g table_id privilege rights) = true ↔
    ∃ e ∈ edges, user_id = AK_char e.user_id ∧ ∃ row ∈ rights,
      AK_char row.subject_id = AK_char e.group_id ∧
        table_id = AK_char row.artifact_id ∧ row.right_type = privilege := by
  simp only [List.any_eq_true, List.mem_map, List.mem_filter, decide_eq_true_eq,
    check_right_scan_iff]
  constructor
  · rintro ⟨g, ⟨e, ⟨he, hu⟩, rfl⟩, h⟩
    exact ⟨e, he, hu, h⟩
  · rintro ⟨e, he, hu, h⟩
    exact ⟨_, ⟨e, ⟨he, hu⟩, rfl⟩, h⟩

/-- The result of the `"ALL"` branch of `AK_check_privilege` when no `strcpy`
overruns `found_privilege` and `groups[100]` is not overrun: the four rights are
found by the direct scan alone, or by the scan of the groups alone. -/
theorem AK_check_privilege_all_eq (c : Env) (st : Store) (username table : String)
    (hu : AK_user_get_id c st username ≠ c.EXIT_ERROR)
    (ht : AK_get_table_obj_id c st table ≠ c.EXIT_ERROR)
    (hlen_user : ∀ row ∈ st.AK_user_right, row.right_type.utf8ByteSize < 10)
    (hlen_group : ∀ row ∈ st.AK_group_right, row.right_type.utf8ByteSize < 10)
    (hcap : (st.AK_user_group.filter
      (fun e => decide (AK_user_get_id c st username = AK_char e.user_id))).length ≤ 100) :
    AK_check_privilege c st username table "ALL" = some
      (if (∀ r ∈ ["UPDATE", "DELETE", "INSERT", "SELECT"],
            check_right_scan (AK_user_get_id c st username) (AK_get_table_obj_id c st table) r
              st.AK_user_right = true) ∨
          (∀ r ∈ ["UPDATE", "DELETE", "INSERT", "SELECT"],
            ((st.AK_user_group.filter
                (fun e => decide (AK_user_get_id c st username = AK_char e.user_id))).map
              (fun e => AK_char e.group_id)).any
              (fun g => check_right_scan g (AK_get_table_obj_id c st table) r
                st.AK_group_right) = true)
        then c.EXIT_SUCCESS else c.EXIT_ERROR) := by
  have hg := collect_groups_eq (AK_user_get_id c st username) st.AK_user_group []
    (by simpa using hcap)
  simp only [List.nil_append] at hg
  simp only [AK_check_privilege, hu, ht, or_self, if_false, if_true,
    check_all_scan_eq _ _ _ hlen_user, hg, check_all_groups_eq _ _ hlen_group,
    has_right_of, Bool.false_or]
  simp only [List.mem_cons, List.mem_singleton, List.not_mem_nil, or_false, forall_eq_or_imp,
    forall_eq]
  by_cases hd : (check_right_scan (AK_user_get_id c st username)
      (AK_get_table_obj_id c st table) "UPDATE" st.AK_user_right &&
    check_right_scan (AK_user_get_id c st username)
      (AK_get_table_obj_id c st table) "DELETE" st.AK_user_right &&
    check_right_scan (AK_user_get_id c st username)
      (AK_get_table_obj_id c st table) "INSERT" st.AK_user_right &&
    check_right_scan (AK_user_get_id c st username)
      (AK_get_table_obj_id c st table) "SELECT" st.AK_user_right) = true
  · rw [if_pos hd]
    simp only [Bool.and_eq_true] at hd
    rw [if_pos (Or.inl ⟨hd.1.1.1, hd.1.1.2, hd.1.2, hd.2⟩)]
  · rw [if_neg hd]
    simp only [Bool.and_eq_true] at hd
    split
    · rename_i h
      simp only [Bool.and_eq_true] at h
      rw [if_pos (Or.inr ⟨h.1.1.1, h.1.1.2, h.1.2, h.2⟩)]
    · rename_i h
      simp only [Bool.and_eq_true] at h
      rw [if_neg]
      rintro (h' | h')
      · exact hd ⟨⟨⟨h'.1, h'.2.1⟩, h'.2.2.1⟩, h'.2.2.2⟩
      · exact h ⟨⟨⟨h'.1, h'.2.1⟩, h'.2.2.1⟩, h'.2.2.2⟩
/-! ### C2 -/

/-- C2 (counterexample).  In `store_mixed` the user holds direct `SELECT` and
`INSERT` rows on the table and a group containing the user holds `UPDATE` and
`DELETE` rows on it, yet `AK_check_privilege(.., "ALL")` returns `EXIT_ERROR`:
the flags marked by the direct scan are set back to 0 before the group scan. -/
theorem C2_mixed_sources_denied :
    AK_user_get_id env_example store_mixed "u" = 1 ∧
    AK_group_get_id env_example store_mixed "g" = 2 ∧
    AK_get_table_obj_id env_example store_mixed "t" = 7 ∧
    (⟨10, 1, 7, "SELECT"⟩ : RightRow) ∈ store_mixed.AK_user_right ∧
    (⟨11, 1, 7, "INSERT"⟩ : RightRow) ∈ store_mixed.AK_user_right ∧
    (⟨1, 2⟩ : UserGroupRow) ∈ store_mixed.AK_user_group ∧
    (⟨12, 2, 7, "UPDATE"⟩ : RightRow) ∈ store_mixed.AK_group_right ∧
    (⟨13, 2, 7, "DELETE"⟩ : RightRow) ∈ store_mixed.AK_group_right ∧
    AK_check_privilege env_example store_mixed "u" "t" "ALL" = some env_example.EXIT_ERROR ∧
    env_example.EXIT_ERROR ≠ env_example.EXIT_SUCCESS := by
  decide

/-- A user lookup that succeeds returns one byte of the id of a row that carries
the name. -/
theorem AK_user_get_id_loop_mem (c : Env) (n : String) (rows : List UserRow)
    (h : AK_user_get_id_loop c n rows c.EXIT_ERROR ≠ c.EXIT_ERROR) :
    ∃ r ∈ rows, r.username = n ∧
      AK_char r.obj_id = AK_user_get_id_loop c n rows c.EXIT_ERROR := by
  induction rows with
  | nil => exact absurd rfl h
  | cons row rest ih =>
    simp only [AK_user_get_id_loop, if_true] at h ⊢
    by_cases hn : row.username = n
    · simp only [if_pos hn] at h ⊢
      by_cases hv : AK_char row.obj_id = c.EXIT_ERROR
      · rw [hv] at h ⊢
        obtain ⟨r, hr, h1, h2⟩ := ih h
        exact ⟨r, List.mem_cons_of_mem _ hr, h1, h2⟩
      · have hstop : AK_user_get_id_loop c n rest (AK_char row.obj_id) = AK_char row.obj_id := by
          cases rest with
          | nil => rfl
          | cons r1 rest1 => simp [AK_user_get_id_loop, hv]
        exact ⟨row, List.mem_cons_self _ _, hn, hstop.symm⟩
    · simp only [if_neg hn] at h ⊢
      obtain ⟨r, hr, h1, h2⟩ := ih h
      exact ⟨r, List.mem_cons_of_mem _ hr, h1, h2⟩

/-- C2 (amended).  In a store whose identifiers are in the range of `char`
(`Store.ids_fit_char`), whose stored rights are shorter than 10 bytes and where
the user has at most 100 membership rows, for a user `U` and a table `T` that
resolve: `U` resolves to the id of a row of `AK_user` named `U`, and
`AK_check_privilege(U, T, "ALL")` returns `EXIT_SUCCESS` exactly when the direct
rows of `U` on `T` cover `UPDATE`, `DELETE`, `INSERT` and `SELECT`, or the rows on
`T` of the groups of `U` cover the four of them, and `EXIT_ERROR` otherwise; a
right found only by the direct scan does not count in the group scan. -/
theorem C2_check_all_iff (c : Env) (st : Store) (U T : String)
    (hne : c.EXIT_SUCCESS ≠ c.EXIT_ERROR)
    (hu : AK_user_get_id c st U ≠ c.EXIT_ERROR)
    (ht : AK_get_table_obj_id c st T ≠ c.EXIT_ERROR)
    (hids : st.ids_fit_char)
    (hlen_user : ∀ row ∈ st.AK_user_right, row.right_type.utf8ByteSize < 10)
    (hlen_group : ∀ row ∈ st.AK_group_right, row.right_type.utf8ByteSize < 10)
    (hcap : (st.AK_user_group.filter
      (fun e => decide (e.user_id = AK_user_get_id c st U))).length ≤ 100) :
    (∃ urow ∈ st.AK_user, urow.username = U ∧ urow.obj_id = AK_user_get_id c st U) ∧
    (AK_check_privilege c st U T "ALL" = some c.EXIT_SUCCESS ∨
      AK_check_privilege c st U T "ALL" = some c.EXIT_ERROR) ∧
    (AK_check_privilege c st U T "ALL" = some c.EXIT_SUCCESS ↔
      (∀ r ∈ ["UPDATE", "DELETE", "INSERT", "SELECT"], ∃ row ∈ st.AK_user_right,
        row.subject_id = AK_user_get_id c st U ∧
        row.artifact_id = AK_get_table_obj_id c st T ∧ row.right_type = r) ∨
      (∀ r ∈ ["UPDATE", "DELETE", "INSERT", "SELECT"], ∃ e ∈ st.AK_user_group,
        e.user_id = AK_user_get_id c st U ∧ ∃ row ∈ st.AK_group_right,
          row.subject_id = e.group_id ∧
          row.artifact_id = AK_get_table_obj_id c st T ∧ row.right_type = r)) := by
  obtain ⟨hU, hE, hUR, hGR⟩ := hids
  have hfilter : st.AK_user_group.filter
        (fun e => decide (AK_user_get_id c st U = AK_char e.user_id)) =
      st.AK_user_group.filter (fun e => decide (e.user_id = AK_user_get_id c st U)) := by
    apply List.filter_congr
    intro e he
    rw [(hE e he).1]
    exact decide_eq_decide.2 eq_comm
  have hdirect : ∀ r : String,
      (∃ row ∈ st.AK_user_right, AK_char row.subject_id = AK_user_get_id c st U ∧
        AK_get_table_obj_id c st T = AK_char row.artifact_id ∧ row.right_type = r) ↔
      (∃ row ∈ st.AK_user_right, row.subject_id = AK_user_get_id c st U ∧
        row.artifact_id = AK_get_table_obj_id c st T ∧ row.right_type = r) := by
    intro r
    constructor
    · rintro ⟨row, hrow, h1, h2, h3⟩
      rw [(hUR row hrow).1] at h1
      rw [(hUR row hrow).2] at h2
      exact ⟨row, hrow, h1, h2.symm, h3⟩
    · rintro ⟨row, hrow, h1, h2, h3⟩
      exact ⟨row, hrow, by rw [(hUR row hrow).1]; exact h1,
        by rw [(hUR row hrow).2]; exact h2.symm, h3⟩
  have hgroup : ∀ r : String,
      (∃ e ∈ st.AK_user_group, AK_user_get_id c st U = AK_char e.user_id ∧
        ∃ row ∈ st.AK_group_right, AK_char row.subject_id = AK_char e.group_id ∧
          AK_get_table_obj_id c st T = AK_char row.artifact_id ∧ row.right_type = r) ↔
      (∃ e ∈ st.AK_user_group, e.user_id = AK_user_get_id c st U ∧
        ∃ row ∈ st.AK_group_right, row.subject_id = e.group_id ∧
          row.artifact_id = AK_get_table_obj_id c st T ∧ row.right_type = r) := by
    intro r
    constructor
    · rintro ⟨e, he, h0, row, hrow, h1, h2, h3⟩
      rw [(hE e he).1] at h0
      rw [(hGR row hrow).1, (hE e he).2] at h1
      rw [(hGR row hrow).2] at h2
      exact ⟨e, he, h0.symm, row, hrow, h1, h2.symm, h3⟩
    · rintro ⟨e, he, h0, row, hrow, h1, h2, h3⟩
      exact ⟨e, he, by rw [(hE e he).1]; exact h0.symm, row, hrow,
        by rw [(hGR row hrow).1, (hE e he).2]; exact h1,
        by rw [(hGR row hrow).2]; exact h2.symm, h3⟩
  have hrun := AK_check_privilege_all_eq c st U T hu ht hlen_user hlen_group
    (by rw [hfilter]; exact hcap)
  simp only [check_right_scan_iff, groups_any_iff, hdirect, hgroup] at hrun
  refine ⟨?_, ?_, ?_⟩
  · obtain ⟨r, hr, h1, h2⟩ := AK_user_get_id_loop_mem c U st.AK_user hu
    exact ⟨r, hr, h1, by rw [← hU r hr]; exact h2⟩
  · rw [hrun]
    split
    · exact Or.inl rfl
    · exact Or.inr rfl
  · rw [hrun]
    constructor
    · intro h
      by_contra hn
      rw [if_neg hn] at h
      exact hne (Option.some.inj h).symm
    · intro h
      rw [if_pos h]

/-- Witness of `C2_check_all_iff`: in `store_direct_all` the user holds the four
rights directly, and the call returns `EXIT_SUCCESS`. -/
theorem C2_check_all_iff_witness :
    store_direct_all.ids_fit_char ∧
    AK_check_privilege env_example store_direct_all "u" "t" "ALL" =
      some env_example.EXIT_SUCCESS :=
  ⟨by decide,
    (C2_check_all_iff env_example store_direct_all "u" "t" (by decide) (by decide) (by decide)
      (by decide) (by decide) (by decide) (by decide)).2.2.2 (Or.inl (by decide))⟩
/-! ### C3 -/

/-- C3 (code defect).  From `store_C3` (user `"u"`, group `"g"`, table `"t"` of
object id 300, no membership, no grant), `AK_add_user_to_group` and
`AK_grant_privilege_group(.., "SELECT")` both succeed, and
`AK_check_privilege("u", "t", "SELECT")` then returns `EXIT_ERROR`: the grant
stores the whole table id, the check reads one byte of it. -/
theorem C3_group_inheritance_wide_table_id (c : Env)
    (h1 : c.EXIT_ERROR ≠ 1) (h2 : c.EXIT_ERROR ≠ 2) (h300 : c.EXIT_ERROR ≠ 300) :
    AK_add_user_to_group c store_C3 "u" "g" = (c.EXIT_SUCCESS, store_C3_member) ∧
    AK_grant_privilege_group c store_C3_member "g" "t" "SELECT" =
      (c.EXIT_SUCCESS, store_C3_granted) ∧
    AK_check_privilege c store_C3_granted "u" "t" "SELECT" = some c.EXIT_ERROR := by
  refine ⟨?_, ?_, ?_⟩
  · simp [AK_add_user_to_group, AK_user_get_id, AK_user_get_id_loop, AK_group_get_id,
      AK_group_get_id_loop, store_C3, store_C3_member, AK_char, Ne.symm h1, Ne.symm h2]
  · simp [AK_grant_privilege_group, AK_get_table_obj_id, AK_group_get_id,
      AK_group_get_id_loop, grant_privilege, grant_row, AK_get_id, Store.setRights,
      Store.rights, store_C3_member, store_C3_granted, AK_char, Ne.symm h2, Ne.symm h300]
  · simp [AK_check_privilege, AK_user_get_id, AK_user_get_id_loop, AK_get_table_obj_id,
      check_right_scan, collect_groups, store_C3_granted, AK_char, Ne.symm h1,
      Ne.symm h300]

/-- Witness of `C3_group_inheritance_wide_table_id`: the environment
`env_example`. -/
theorem C3_group_inheritance_wide_table_id_witness :
    AK_check_privilege env_example
      (AK_grant_privilege_group env_example
        (AK_add_user_to_group env_example store_C3 "u" "g").2 "g" "t" "SELECT").2
      "u" "t" "SELECT" = some env_example.EXIT_ERROR := by
  have h := C3_group_inheritance_wide_table_id env_example (by decide) (by decide)
    (by decide)
  rw [h.1, h.2.1]
  exact h.2.2

/-! ### C4 -/

/-- C4 (code defect).  In `store_C4` the user `"u"` is a member of `"g1"` only:
no row for the pair `("u", "g2")` is in `AK_user_group`, and
`AK_add_user_to_group("u", "g2")` returns `EXIT_ERROR` and leaves the store as it
was, because the scan compares the user id alone. -/
theorem C4_add_user_to_second_group_refused (c : Env)
    (h1 : c.EXIT_ERROR ≠ 1) (h3 : c.EXIT_ERROR ≠ 3) :
    AK_user_get_id c store_C4 "u" = 1 ∧ AK_group_get_id c store_C4 "g2" = 3 ∧
    (⟨1, 3⟩ : UserGroupRow) ∉ store_C4.AK_user_group ∧
    AK_add_user_to_group c store_C4 "u" "g2" = (c.EXIT_ERROR, store_C4) := by
  have hu : AK_user_get_id c store_C4 "u" = 1 := by
    simp [AK_user_get_id, AK_user_get_id_loop, store_C4, AK_char]
  have hg : AK_group_get_id c store_C4 "g2" = 3 := by
    simp [AK_group_get_id, AK_group_get_id_loop, store_C4, AK_char]
  refine ⟨hu, hg, by decide, ?_⟩
  simp only [AK_add_user_to_group, hu, hg]
  simp [store_C4, AK_char, Ne.symm h1, Ne.symm h3]

/-- Witness of `C4_add_user_to_second_group_refused`: the environment
`env_example`. -/
theorem C4_add_user_to_second_group_refused_witness :
    AK_add_user_to_group env_example store_C4 "u" "g2" = (env_example.EXIT_ERROR, store_C4) :=
  (C4_add_user_to_second_group_refused env_example (by decide) (by decide)).2.2.2
/-! ### The store after a grant -/

@[simp] theorem rights_setRights (st : Store) (k : Ledger) (rows : List RightRow) :
    (st.setRights k rows).rights k = rows := by
  cases k <;> rfl

@[simp] theorem setRights_last_id (st : Store) (k : Ledger) (rows : List RightRow) :
    (st.setRights k rows).last_id = st.last_id := by
  cases k <;> rfl

@[simp] theorem setRights_delete_faults (st : Store) (k : Ledger) (rows : List RightRow) :
    (st.setRights k rows).delete_faults = st.delete_faults := by
  cases k <;> rfl

@[simp] theorem setRights_AK_user (st : Store) (k : Ledger) (rows : List RightRow) :
    (st.setRights k rows).AK_user = st.AK_user := by
  cases k <;> rfl

@[simp] theorem setRights_AK_group (st : Store) (k : Ledger) (rows : List RightRow) :
    (st.setRights k rows).AK_group = st.AK_group := by
  cases k <;> rfl

@[simp] theorem setRights_AK_role (st : Store) (k : Ledger) (rows : List RightRow) :
    (st.setRights k rows).AK_role = st.AK_role := by
  cases k <;> rfl

@[simp] theorem setRights_catalog (st : Store) (k : Ledger) (rows : List RightRow) :
    (st.setRights k rows).catalog = st.catalog := by
  cases k <;> rfl

theorem setRights_setRights (st : Store) (k : Ledger) (r1 r2 : List RightRow) :
    (st.setRights k r1).setRights k r2 = st.setRights k r2 := by
  cases k <;> rfl

theorem setRights_rights (st : Store) (k : Ledger) : st.setRights k (st.rights k) = st := by
  cases k <;> rfl

/-- One grant step appends one row carrying the next identifier and moves the
sequence by one; nothing else changes. -/
theorem grant_row_eq (st : Store) (k : Ledger) (s t : Int) (right : String) :
    grant_row st k s t right =
      (st.last_id + 1,
        ({ st with last_id := st.last_id + 1 } : Store).setRights k
          (st.rights k ++ [⟨st.last_id + 1, s, t, right⟩])) := by
  cases k <;> rfl

theorem grant_row_rights (st : Store) (k : Ledger) (s t : Int) (right : String) :
    (grant_row st k s t right).2.rights k = st.rights k ++ [⟨st.last_id + 1, s, t, right⟩] := by
  rw [grant_row_eq]; simp

theorem grant_row_last_id (st : Store) (k : Ledger) (s t : Int) (right : String) :
    (grant_row st k s t right).2.last_id = st.last_id + 1 := by
  rw [grant_row_eq]; simp

/-- The ledger after `grant_privilege`: the rows of `spec_granted_rows` are
appended. -/
theorem grant_privilege_rights (st : Store) (k : Ledger) (s t : Int) (right : String) :
    (grant_privilege st k s t right).2.rights k =
      st.rights k ++ spec_granted_rows st.last_id s t right := by
  unfold grant_privilege spec_granted_rows
  by_cases h : right = "ALL"
  · simp only [if_pos h, grant_row_rights, grant_row_last_id, List.append_assoc,
      List.singleton_append, add_assoc]
    norm_num
  · simp only [if_neg h, grant_row_rights]

/-- A grant leaves the identity tables, the catalog and the pending delete
outcomes alone. -/
theorem grant_privilege_frame (st : Store) (k : Ledger) (s t : Int) (right : String) :
    (grant_privilege st k s t right).2.AK_user = st.AK_user ∧
    (grant_privilege st k s t right).2.AK_group = st.AK_group ∧
    (grant_privilege st k s t right).2.AK_role = st.AK_role ∧
    (grant_privilege st k s t right).2.catalog = st.catalog ∧
    (grant_privilege st k s t right).2.delete_faults = st.delete_faults := by
  unfold grant_privilege
  split <;> simp [grant_row_eq]

/-- The value `grant_privilege` hands back is the last identifier allocated. -/
theorem grant_privilege_last_id (st : Store) (k : Ledger) (s t : Int) (right : String) :
    (grant_privilege st k s t right).2.last_id =
      st.last_id + (spec_granted_rows st.last_id s t right).length := by
  unfold grant_privilege spec_granted_rows
  split <;> simp only [grant_row_eq, setRights_last_id, List.length_cons, List.length_nil,
    Nat.cast_ofNat, Nat.cast_add, Nat.cast_one, Nat.cast_zero] <;> omega
/-! ### The rows a grant appends -/

/-- The rows a grant appends, for each subject kind on its own: when the name
and the table resolve, the ledger of that kind becomes the old ledger followed
by the rows of `spec_granted_rows` for the id the name resolves to (with `"ALL"`
four rows `UPDATE`, `DELETE`, `INSERT`, `SELECT` in that order, with the next
four identifiers of the sequence; with another right one row).  For a user or a
group the resolved id is one byte of the id. -/
theorem grant_appends_rows_of_resolved_id (c : Env) (st : Store) (S T right : String)
    (ht : AK_get_table_obj_id c st T ≠ c.EXIT_ERROR) :
    (AK_user_get_id c st S ≠ c.EXIT_ERROR →
      (AK_grant_privilege_user c st S T right).2.AK_user_right =
        st.AK_user_right ++ spec_granted_rows st.last_id (AK_user_get_id c st S)
          (AK_get_table_obj_id c st T) right) ∧
    (AK_group_get_id c st S ≠ c.EXIT_ERROR →
      (AK_grant_privilege_group c st S T right).2.AK_group_right =
        st.AK_group_right ++ spec_granted_rows st.last_id (AK_group_get_id c st S)
          (AK_get_table_obj_id c st T) right) ∧
    (AK_role_get_id c st S ≠ c.EXIT_ERROR →
      (AK_grant_privilege_role c st S T right).2.AK_role_right =
        st.AK_role_right ++ spec_granted_rows st.last_id (AK_role_get_id c st S)
          (AK_get_table_obj_id c st T) right) ∧
    (∀ s t : Int, (spec_granted_rows st.last_id s t right).length =
        (if right = "ALL" then 4 else 1) ∧
      ((spec_granted_rows st.last_id s t right).map (fun row => row.obj_id)).Nodup) := by
  refine ⟨?_, ?_, ?_, ?_⟩
  · intro hU
    simp only [AK_grant_privilege_user, ht, hU, or_self, if_false]
    exact grant_privilege_rights st .user _ _ right
  · intro hG
    simp only [AK_grant_privilege_group, ht, hG, or_self, if_false]
    exact grant_privilege_rights st .group _ _ right
  · intro hR
    simp only [AK_grant_privilege_role, ht, hR, or_self, if_false]
    exact grant_privilege_rights st .role _ _ right
  · intro s t
    unfold spec_granted_rows
    split
    · refine ⟨rfl, ?_⟩
      simp
    · exact ⟨rfl, by simp⟩
/-! ### Grant and revoke of each subject kind -/

/-- The store after the grant function of a subject kind, when the names
resolve: the store after `grant_privilege` with the resolved ids. -/
theorem AK_grant_privilege_store (k : Ledger) (c : Env) (st : Store)
    (name table right : String)
    (hs : AK_subject_get_id k c st name ≠ c.EXIT_ERROR)
    (ht : AK_get_table_obj_id c st table ≠ c.EXIT_ERROR) :
    (AK_grant_privilege k c st name table right).2 =
      (grant_privilege st k (AK_subject_get_id k c st name)
        (AK_get_table_obj_id c st table) right).2 := by
  cases k <;>
    simp only [AK_subject_get_id] at hs <;>
    simp [AK_grant_privilege, AK_grant_privilege_user, AK_grant_privilege_group,
      AK_grant_privilege_role, AK_subject_get_id, hs, ht]

/-- The result of the revoke function of a subject kind, when the names
resolve. -/
theorem AK_revoke_privilege_eq (k : Ledger) (c : Env) (st : Store)
    (name table right : String)
    (hs : AK_subject_get_id k c st name ≠ c.EXIT_ERROR)
    (ht : AK_get_table_obj_id c st table ≠ c.EXIT_ERROR) :
    AK_revoke_privilege k c st name table right =
      revoke_privilege c st k (AK_subject_get_id k c st name)
        (AK_get_table_obj_id c st table) right := by
  cases k <;>
    simp only [AK_subject_get_id] at hs <;>
    simp [AK_revoke_privilege, AK_revoke_privilege_user, AK_revoke_privilege_group,
      AK_revoke_privilege_role, AK_subject_get_id, hs, ht]

/-- Name resolution reads the identity tables and the catalog only. -/
theorem AK_subject_get_id_congr (k : Ledger) (c : Env) (st st1 : Store) (name : String)
    (hu : st1.AK_user = st.AK_user) (hg : st1.AK_group = st.AK_group)
    (hr : st1.AK_role = st.AK_role) :
    AK_subject_get_id k c st1 name = AK_subject_get_id k c st name := by
  cases k <;>
    simp [AK_subject_get_id, AK_user_get_id, AK_group_get_id, AK_role_get_id, hu, hg, hr]

theorem AK_get_table_obj_id_congr (c : Env) (st st1 : Store) (table : String)
    (h : st1.catalog = st.catalog) :
    AK_get_table_obj_id c st1 table = AK_get_table_obj_id c st table := by
  simp [AK_get_table_obj_id, h]

/-! ### C8 -/

/-- C8 (counterexample).  In `store_held` the ledger `AK_user_right` holds one row
per `(subject, table, right)` triple; after `AK_grant_privilege_user("u", "t",
"SELECT")` it holds the triple `(1, 7, "SELECT")` twice. -/
theorem C8_grant_duplicates_triple :
    (triples store_held.AK_user_right).Nodup ∧
    (AK_grant_privilege_user env_example store_held "u" "t" "SELECT").2.AK_user_right =
      [⟨5, 1, 7, "SELECT"⟩, ⟨6, 1, 7, "SELECT"⟩] ∧
    ¬ (triples
      (AK_grant_privilege_user env_example store_held "u" "t" "SELECT").2.AK_user_right).Nodup := by
  decide

/-- The triples of the rows a grant appends are pairwise distinct. -/
theorem spec_granted_rows_triples_nodup (l s t : Int) (right : String) :
    (triples (spec_granted_rows l s t right)).Nodup := by
  unfold spec_granted_rows triples
  split
  · simp only [List.map_cons, List.map_nil, List.nodup_cons, List.mem_cons,
      List.mem_singleton, Prod.mk.injEq, true_and, List.not_mem_nil, not_false_eq_true,
      List.nodup_nil, and_true]
    decide
  · simp

/-- C8 (amended).  For the grant function of each subject kind (user, group,
role), a specific right or `"ALL"`: if the ledger holds at most one row for any
`(subject, table, right)` triple before the call and holds no row with the
triple of a row the call appends, it holds at most one row for any triple
afterwards. -/
theorem C8_grant_keeps_triples_distinct (k : Ledger) (c : Env) (st : Store)
    (name table right : String)
    (hs : AK_subject_get_id k c st name ≠ c.EXIT_ERROR)
    (ht : AK_get_table_obj_id c st table ≠ c.EXIT_ERROR)
    (hinv : (triples (st.rights k)).Nodup)
    (hnew : ∀ row ∈ spec_granted_rows st.last_id (AK_subject_get_id k c st name)
        (AK_get_table_obj_id c st table) right,
      (row.subject_id, row.artifact_id, row.right_type) ∉ triples (st.rights k)) :
    (triples ((AK_grant_privilege k c st name table right).2.rights k)).Nodup := by
  rw [AK_grant_privilege_store k c st name table right hs ht, grant_privilege_rights]
  unfold triples at *
  rw [List.map_append]
  refine List.Nodup.append hinv (spec_granted_rows_triples_nodup _ _ _ _) ?_
  intro x hx hx'
  obtain ⟨row, hrow, rfl⟩ := List.mem_map.1 hx'
  exact hnew row hrow hx

/-- Witness of `C8_grant_keeps_triples_distinct`: `"ALL"` granted to the user of
`store_ledgers`. -/
theorem C8_grant_keeps_triples_distinct_witness :
    (triples ((AK_grant_privilege .user env_example store_ledgers "u" "t" "ALL").2.rights
      .user)).Nodup :=
  C8_grant_keeps_triples_distinct .user env_example store_ledgers "u" "t" "ALL"
    (by decide) (by decide) (by decide) (by decide)
/-! ### The record store's deletion -/

theorem delete_outcome_rights (st : Store) (k : Ledger) :
    st.delete_outcome.2.rights k = st.rights k := by
  unfold Store.delete_outcome
  split <;> cases k <;> rfl

theorem delete_outcome_congr (st st1 : Store) (h : st1.delete_faults = st.delete_faults) :
    st1.delete_outcome.1 = st.delete_outcome.1 := by
  unfold Store.delete_outcome
  rw [h]
  split <;> rfl

/-- A deletion that succeeds returns `EXIT_SUCCESS` and removes from the ledger
exactly the rows that satisfy the condition. -/
theorem AK_delete_row_rights_ok (c : Env) (st : Store) (k : Ledger) (p : RightRow → Bool)
    (hok : st.delete_outcome.1 = true) :
    (AK_delete_row_rights c st k p).1 = c.EXIT_SUCCESS ∧
    (AK_delete_row_rights c st k p).2.rights k = (st.rights k).filter (fun r => !p r) := by
  simp [AK_delete_row_rights, hok, delete_outcome_rights]

/-- Deleting by an `obj_id` that only the last row carries removes that row. -/
theorem filter_obj_id_append (rows : List RightRow) (row : RightRow)
    (hfresh : ∀ r ∈ rows, r.obj_id ≠ row.obj_id) :
    (rows ++ [row]).filter (fun r => !decide (r.obj_id = row.obj_id)) = rows := by
  rw [List.filter_append]
  have h1 : rows.filter (fun r => !decide (r.obj_id = row.obj_id)) = rows := by
    apply List.filter_eq_self.2
    intro r hr
    simpa using hfresh r hr
  simp [h1]

/-! ### C5 -/

/-- C5 (counterexample).  In `store_held` the user already holds a `SELECT` row on
the table.  `AK_grant_privilege_user` followed by `AK_revoke_privilege_user` of
the same right returns `EXIT_SUCCESS` and deletes the OLD row (the first match):
the ledger is not its pre-grant state and a matching row remains. -/
theorem C5_grant_revoke_with_held_right :
    AK_user_get_id env_example store_held "u" = 1 ∧
    AK_get_table_obj_id env_example store_held "t" = 7 ∧
    store_held.AK_user_right = [⟨5, 1, 7, "SELECT"⟩] ∧
    (AK_revoke_privilege_user env_example
      (AK_grant_privilege_user env_example store_held "u" "t" "SELECT").2
      "u" "t" "SELECT").1 = env_example.EXIT_SUCCESS ∧
    (AK_revoke_privilege_user env_example
      (AK_grant_privilege_user env_example store_held "u" "t" "SELECT").2
      "u" "t" "SELECT").2.AK_user_right = [⟨6, 1, 7, "SELECT"⟩] ∧
    (AK_revoke_privilege_user env_example
      (AK_grant_privilege_user env_example store_held "u" "t" "SELECT").2
      "u" "t" "SELECT").2.AK_user_right ≠ store_held.AK_user_right := by
  decide

/-- C5 (amended).  For each subject kind (user, group, role), every existing
subject S and table T and every right r other than `"ALL"`: if before the grant
the ledger holds no row matching `(S, T, r)` and no row with the identifier the
grant allocates, and the record store carries out the deletion, then the revoke
that follows the grant returns `EXIT_SUCCESS`, the ledger equals its pre-grant
state and no row matching `(S, T, r)` remains. -/
theorem C5_grant_then_revoke (k : Ledger) (c : Env) (st : Store) (S T r : String)
    (hs : AK_subject_get_id k c st S ≠ c.EXIT_ERROR)
    (ht : AK_get_table_obj_id c st T ≠ c.EXIT_ERROR)
    (hr : r ≠ "ALL")
    (hnone : ∀ row ∈ st.rights k, ¬ (row.subject_id = AK_subject_get_id k c st S ∧
      row.artifact_id = AK_get_table_obj_id c st T ∧ row.right_type = r))
    (hfresh : ∀ row ∈ st.rights k, row.obj_id ≠ st.last_id + 1)
    (hok : st.delete_outcome.1 = true) :
    (AK_revoke_privilege k c (AK_grant_privilege k c st S T r).2 S T r).1 = c.EXIT_SUCCESS ∧
    (AK_revoke_privilege k c (AK_grant_privilege k c st S T r).2 S T r).2.rights k =
      st.rights k ∧
    ∀ row ∈ (AK_revoke_privilege k c (AK_grant_privilege k c st S T r).2 S T r).2.rights k,
      ¬ (row.subject_id = AK_subject_get_id k c st S ∧
        row.artifact_id = AK_get_table_obj_id c st T ∧ row.right_type = r) := by
  have hst := AK_grant_privilege_store k c st S T r hs ht
  obtain ⟨fu, fg, fr, fc, fd⟩ := grant_privilege_frame st k (AK_subject_get_id k c st S)
    (AK_get_table_obj_id c st T) r
  have hrights := grant_privilege_rights st k (AK_subject_get_id k c st S)
    (AK_get_table_obj_id c st T) r
  rw [← hst] at fu fg fr fc fd hrights
  generalize (AK_grant_privilege k c st S T r).2 = st1 at *
  have hs1 := AK_subject_get_id_congr k c st st1 S fu fg fr
  have ht1 := AK_get_table_obj_id_congr c st st1 T fc
  rw [AK_revoke_privilege_eq k c st1 S T r (by rw [hs1]; exact hs) (by rw [ht1]; exact ht),
    hs1, ht1]
  simp only [spec_granted_rows, if_neg hr] at hrights
  have hfind : (st1.rights k).find? (revoke_match (AK_subject_get_id k c st S)
      (AK_get_table_obj_id c st T) r) =
      some ⟨st.last_id + 1, AK_subject_get_id k c st S, AK_get_table_obj_id c st T, r⟩ := by
    rw [hrights, List.find?_append]
    have : (st.rights k).find? (revoke_match (AK_subject_get_id k c st S)
        (AK_get_table_obj_id c st T) r) = none := by
      rw [List.find?_eq_none]
      intro row hrow
      have := hnone row hrow
      simpa [revoke_match, and_assoc] using this
    rw [this]
    simp [revoke_match]
  have hok1 : st1.delete_outcome.1 = true := by
    rw [delete_outcome_congr st st1 fd]; exact hok
  have hdel := AK_delete_row_rights_ok c st1 k
    (fun x => decide (x.obj_id = st.last_id + 1)) hok1
  have hres : (revoke_privilege c st1 k (AK_subject_get_id k c st S)
      (AK_get_table_obj_id c st T) r).2.rights k = st.rights k := by
    simp only [revoke_privilege, if_neg hr, revoke_one, hfind]
    rw [hdel.2, hrights]
    exact filter_obj_id_append (st.rights k) ⟨st.last_id + 1, _, _, r⟩ hfresh
  refine ⟨?_, hres, ?_⟩
  · simp only [revoke_privilege, if_neg hr, revoke_one, hfind]
    exact hdel.1
  · rw [hres]; exact hnone

/-- Witness of `C5_grant_then_revoke`: `SELECT` granted to and revoked from the
role of `store_ledgers`. -/
theorem C5_grant_then_revoke_witness :
    (AK_revoke_privilege .role env_example
      (AK_grant_privilege .role env_example store_ledgers "r" "t" "SELECT").2
      "r" "t" "SELECT").2.rights .role = store_ledgers.rights .role :=
  (C5_grant_then_revoke .role env_example store_ledgers "r" "t" "SELECT"
    (by decide) (by decide) (by decide) (by decide) (by decide) (by decide)).2.1
/-! ### The deleting scan of revoke `"ALL"` -/

theorem length_delete_row_rights_le (c : Env) (st : Store) (k : Ledger) (p : RightRow → Bool) :
    ((AK_delete_row_rights c st k p).2.rights k).length ≤ (st.rights k).length := by
  simp only [AK_delete_row_rights]
  by_cases h : st.delete_outcome.1 = true
  · simp only [h, if_true, rights_setRights, delete_outcome_rights]
    exact List.length_filter_le _ _
  · simp [h, delete_outcome_rights]

/-- The bound on the iterations of `revoke_all_scan` does not cut the loop short:
from index `i_row`, any two bounds that reach the end of the ledger give the
same result, so the length of the ledger is enough. -/
theorem revoke_all_scan_fuel (c : Env) (k : Ledger) (s t : Int) (right : String)
    (n m i_row : Nat) (result : Int) (st : Store)
    (hn : (st.rights k).length ≤ i_row + n) (hm : (st.rights k).length ≤ i_row + m) :
    revoke_all_scan c k s t right n i_row result st =
      revoke_all_scan c k s t right m i_row result st := by
  induction n generalizing m i_row result st with
  | zero =>
    have hnone : (st.rights k)[i_row]? = none := List.getElem?_eq_none (by omega)
    cases m with
    | zero => rfl
    | succ m => simp [revoke_all_scan, hnone]
  | succ n ih =>
    cases m with
    | zero =>
      have hnone : (st.rights k)[i_row]? = none := List.getElem?_eq_none (by omega)
      simp [revoke_all_scan, hnone]
    | succ m =>
      simp only [revoke_all_scan]
      cases hrow : (st.rights k)[i_row]? with
      | none => rfl
      | some row =>
        simp only
        split
        · apply ih
          · have := length_delete_row_rights_le c st k
              (fun r => decide (r.obj_id = row.obj_id))
            omega
          · have := length_delete_row_rights_le c st k
              (fun r => decide (r.obj_id = row.obj_id))
            omega
        · apply ih <;> omega

/-- A scan that meets no matching row from `i_row` on changes nothing. -/
theorem revoke_all_scan_no_match (c : Env) (k : Ledger) (s t : Int) (right : String)
    (n i_row : Nat) (result : Int) (st : Store)
    (h : ∀ j row, i_row ≤ j → (st.rights k)[j]? = some row →
      revoke_match s t right row = false) :
    revoke_all_scan c k s t right n i_row result st = (result, st) := by
  induction n generalizing i_row with
  | zero => rfl
  | succ n ih =>
    simp only [revoke_all_scan]
    cases hrow : (st.rights k)[i_row]? with
    | none => rfl
    | some row =>
      simp only [h i_row row (le_refl _) hrow]
      exact ih (i_row + 1) (fun j r hj hr => h j r (by omega) hr)

/-- With no fault scheduled, the next deletion succeeds and no fault is
scheduled after it. -/
theorem delete_outcome_of_no_fault (st : Store) (h : ∀ b ∈ st.delete_faults, b = false) :
    st.delete_outcome.1 = true ∧ ∀ b ∈ st.delete_outcome.2.delete_faults, b = false := by
  unfold Store.delete_outcome
  cases hf : st.delete_faults with
  | nil => simp [hf]
  | cons f fs =>
    rw [hf] at h
    have h1 : f = false := h f (List.mem_cons_self _ _)
    exact ⟨by simp [h1], fun b hb => h b (List.mem_cons_of_mem _ hb)⟩

/-- C9 (code defect).  On the empty store the first add of a name inserts one row
and returns its id, 1.  The second add of the same name inserts nothing and
returns the converted string literal: `(int) "exists"` for `AK_user_add` and
`AK_role_add`, one byte of the address of `"taken"` for `AK_group_add`, where
the documentation of `AK_role_add` promises `EXIT_ERROR`. -/
theorem C9_second_add_returns_literal (c : Env) (h1 : c.EXIT_ERROR ≠ 1) :
    AK_user_add c store_empty "n" "p" 0 =
      (1, { AK_user := [⟨1, "n", c.hash_password "p"⟩], last_id := 1 }) ∧
    AK_user_add c { AK_user := [⟨1, "n", c.hash_password "p"⟩], last_id := 1 } "n" "p" 0 =
      (c.str_exists, { AK_user := [⟨1, "n", c.hash_password "p"⟩], last_id := 1 }) ∧
    AK_group_add c store_empty "n" 0 = (1, { AK_group := [⟨1, "n"⟩], last_id := 1 }) ∧
    AK_group_add c { AK_group := [⟨1, "n"⟩], last_id := 1 } "n" 0 =
      (AK_char c.str_taken, { AK_group := [⟨1, "n"⟩], last_id := 1 }) ∧
    AK_role_add c store_empty "n" 0 = (1, { AK_role := [⟨1, "n"⟩], last_id := 1 }) ∧
    AK_role_add c { AK_role := [⟨1, "n"⟩], last_id := 1 } "n" 0 =
      (c.str_exists_role, { AK_role := [⟨1, "n"⟩], last_id := 1 }) := by
  refine ⟨?_, ?_, ?_, ?_, ?_, ?_⟩
  · simp [AK_user_add, AK_user_get_id, AK_user_get_id_loop, AK_get_id, store_empty]
  · simp [AK_user_add, AK_user_get_id, AK_user_get_id_loop, AK_char, Ne.symm h1]
  · simp [AK_group_add, AK_group_get_id, AK_group_get_id_loop, AK_get_id, store_empty]
  · simp [AK_group_add, AK_group_get_id, AK_group_get_id_loop, AK_char, Ne.symm h1]
  · simp [AK_role_add, AK_role_get_id, AK_role_get_id_loop, AK_get_id, store_empty]
  · simp [AK_role_add, AK_role_get_id, AK_role_get_id_loop, Ne.symm h1]

/-- Witness of `C9_second_add_returns_literal`: in `env_example` the second
`AK_role_add` returns 4202503, which is not `EXIT_ERROR`. -/
theorem C9_second_add_returns_literal_witness :
    (AK_role_add env_example { AK_role := [⟨1, "n"⟩], last_id := 1 } "n" 0).1 = 4202503 ∧
    (AK_role_add env_example { AK_role := [⟨1, "n"⟩], last_id := 1 } "n" 0).1 ≠
      env_example.EXIT_ERROR := by
  have h := (C9_second_add_returns_literal env_example (by decide)).2.2.2.2.2
  rw [h]
  exact ⟨rfl, by decide⟩
/-! ### Lookups by name -/

theorem AK_user_get_id_loop_of_ne (c : Env) (n : String) (rows : List UserRow) (id : Int)
    (h : id ≠ c.EXIT_ERROR) : AK_user_get_id_loop c n rows id = id := by
  cases rows with
  | nil => rfl
  | cons row rest => simp [AK_user_get_id_loop, h]

theorem AK_user_get_id_loop_no_name (c : Env) (n : String) (rows : List UserRow) (id : Int)
    (h : ∀ r ∈ rows, r.username ≠ n) : AK_user_get_id_loop c n rows id = id := by
  induction rows with
  | nil => rfl
  | cons row rest ih =>
    have hrow : row.username ≠ n := h row (List.mem_cons_self _ _)
    simp only [AK_user_get_id_loop, if_neg hrow]
    split
    · exact ih (fun r hr => h r (List.mem_cons_of_mem _ hr))
    · rfl

theorem AK_user_get_id_loop_append (c : Env) (n : String) (l1 l2 : List UserRow) (id : Int) :
    AK_user_get_id_loop c n (l1 ++ l2) id =
      AK_user_get_id_loop c n l2 (AK_user_get_id_loop c n l1 id) := by
  induction l1 generalizing id with
  | nil => rfl
  | cons row rest ih =>
    simp only [List.cons_append, AK_user_get_id_loop]
    split
    · exact ih _
    · rename_i h
      exact (AK_user_get_id_loop_of_ne c n l2 id h).symm

/-- A user lookup that succeeds returns one byte of a stored id. -/
theorem AK_user_get_id_loop_char (c : Env) (n : String) (rows : List UserRow) (id : Int)
    (h : AK_user_get_id_loop c n rows id ≠ id) :
    ∃ v, AK_user_get_id_loop c n rows id = AK_char v := by
  induction rows generalizing id with
  | nil => exact absurd rfl h
  | cons row rest ih =>
    simp only [AK_user_get_id_loop] at h ⊢
    split at h
    · rename_i hid
      rw [if_pos hid]
      by_cases hn : row.username = n
      · simp only [if_pos hn] at h ⊢
        by_cases hc : AK_user_get_id_loop c n rest (AK_char row.obj_id) = AK_char row.obj_id
        · exact ⟨row.obj_id, hc⟩
        · exact ih _ hc
      · simp only [if_neg hn] at h ⊢
        exact ih _ h
    · exact absurd rfl h

theorem AK_group_get_id_loop_no_name (c : Env) (n : String) (rows : List GroupRow)
    (h : ∀ r ∈ rows, r.name ≠ n) : AK_group_get_id_loop c n rows = c.EXIT_ERROR := by
  induction rows with
  | nil => rfl
  | cons row rest ih =>
    have hrow : row.name ≠ n := h row (List.mem_cons_self _ _)
    simp only [AK_group_get_id_loop, if_neg hrow]
    exact ih (fun r hr => h r (List.mem_cons_of_mem _ hr))

theorem AK_group_get_id_loop_append (c : Env) (n : String) (l1 l2 : List GroupRow)
    (h : ∀ r ∈ l1, r.name ≠ n) :
    AK_group_get_id_loop c n (l1 ++ l2) = AK_group_get_id_loop c n l2 := by
  induction l1 with
  | nil => rfl
  | cons row rest ih =>
    have hrow : row.name ≠ n := h row (List.mem_cons_self _ _)
    simp only [List.cons_append, AK_group_get_id_loop, if_neg hrow]
    exact ih (fun r hr => h r (List.mem_cons_of_mem _ hr))

/-- A group lookup that succeeds returns one byte of the id of a row of that
name. -/
theorem AK_group_get_id_loop_char (c : Env) (n : String) (rows : List GroupRow)
    (h : AK_group_get_id_loop c n rows ≠ c.EXIT_ERROR) :
    ∃ r ∈ rows, r.name = n ∧ AK_group_get_id_loop c n rows = AK_char r.obj_id := by
  induction rows with
  | nil => exact absurd rfl h
  | cons row rest ih =>
    simp only [AK_group_get_id_loop] at h ⊢
    by_cases hn : row.name = n
    · simp only [if_pos hn]
      exact ⟨row, List.mem_cons_self _ _, hn, rfl⟩
    · simp only [if_neg hn] at h ⊢
      obtain ⟨r, hr, hrn, he⟩ := ih h
      exact ⟨r, List.mem_cons_of_mem _ hr, hrn, he⟩
/-! ### C10 -/

theorem delete_outcome_AK_user (st : Store) : st.delete_outcome.2.AK_user = st.AK_user := by
  unfold Store.delete_outcome
  split <;> rfl

theorem delete_outcome_AK_group (st : Store) :
    st.delete_outcome.2.AK_group = st.AK_group := by
  unfold Store.delete_outcome
  split <;> rfl

theorem AK_user_remove_by_name_ok (c : Env) (st : Store) (n : String)
    (hok : st.delete_outcome.1 = true) :
    (AK_user_remove_by_name c st n).1 = c.EXIT_SUCCESS ∧
    (AK_user_remove_by_name c st n).2.AK_user =
      st.AK_user.filter (fun r => !decide (r.username = n)) := by
  simp [AK_user_remove_by_name, hok, delete_outcome_AK_user]

theorem AK_user_remove_by_name_fail (c : Env) (st : Store) (n : String)
    (hok : ¬ st.delete_outcome.1 = true) :
    (AK_user_remove_by_name c st n).1 = c.EXIT_ERROR := by
  simp [AK_user_remove_by_name, hok]

theorem AK_group_remove_by_name_ok (c : Env) (st : Store) (n : String)
    (hok : st.delete_outcome.1 = true) :
    (AK_group_remove_by_name c st n).1 = c.EXIT_SUCCESS ∧
    (AK_group_remove_by_name c st n).2.AK_group =
      st.AK_group.filter (fun r => !decide (r.name = n)) := by
  simp [AK_group_remove_by_name, hok, delete_outcome_AK_group]

theorem AK_group_remove_by_name_fail (c : Env) (st : Store) (n : String)
    (hok : ¬ st.delete_outcome.1 = true) :
    (AK_group_remove_by_name c st n).1 = c.EXIT_ERROR := by
  simp [AK_group_remove_by_name, hok]

/-- An add of a name that does not resolve, with an explicit non-zero id, appends
one row carrying that id and returns it. -/
theorem AK_user_add_set_id (c : Env) (st : Store) (n pw : String) (set_id : Int)
    (hno : AK_user_get_id c st n = c.EXIT_ERROR) (h0 : set_id ≠ 0) :
    (AK_user_add c st n pw set_id).1 = set_id ∧
    (AK_user_add c st n pw set_id).2.AK_user =
      st.AK_user ++ [⟨set_id, n, c.hash_password pw⟩] := by
  simp [AK_user_add, hno, h0, AK_get_id]

theorem AK_group_add_set_id (c : Env) (st : Store) (n : String) (set_id : Int)
    (hno : AK_group_get_id c st n = c.EXIT_ERROR) (h0 : set_id ≠ 0) :
    (AK_group_add c st n set_id).1 = set_id ∧
    (AK_group_add c st n set_id).2.AK_group = st.AK_group ++ [⟨set_id, n⟩] := by
  simp [AK_group_add, hno, h0, AK_get_id]

/-- C10 (counterexample).  In `store_id_zero` the user `"old"` has identifier 0:
the rename succeeds, and looking up `"new"` returns the newly allocated 41, not
0.  In `store_shared_id` another user carries the identifier 5 of `"old"`: the
rename succeeds and two rows carry 5 afterwards. -/
theorem C10_rename_changes_id_or_shares_it :
    (AK_user_get_id env_example store_id_zero "old" = 0 ∧
      (AK_user_rename env_example store_id_zero "old" "new" "pw").1 ≠
        env_example.EXIT_ERROR ∧
      AK_user_get_id env_example
        (AK_user_rename env_example store_id_zero "old" "new" "pw").2 "new" = 41) ∧
    (AK_user_get_id env_example store_shared_id "old" = 5 ∧
      (AK_user_rename env_example store_shared_id "old" "new" "pw").1 ≠
        env_example.EXIT_ERROR ∧
      ((AK_user_rename env_example store_shared_id "old" "new" "pw").2.AK_user.filter
        (fun r => decide (r.obj_id = 5))).length = 2) := by
  decide

/-- The user half of C10 (amended). -/
theorem AK_user_rename_keeps_id (c : Env) (st : Store) (old new pw : String) (k : Int)
    (hk : AK_user_get_id c st old = k) (hk0 : k ≠ 0) (hkE : k ≠ c.EXIT_ERROR)
    (hnew : ∀ r ∈ st.AK_user, r.username ≠ new)
    (hother : ∀ r ∈ st.AK_user, r.username ≠ old → r.obj_id ≠ k)
    (hsucc : (AK_user_rename c st old new pw).1 ≠ c.EXIT_ERROR) :
    AK_user_get_id c (AK_user_rename c st old new pw).2 new = k ∧
    AK_user_get_id c (AK_user_rename c st old new pw).2 old = c.EXIT_ERROR ∧
    ((AK_user_rename c st old new pw).2.AK_user.filter
      (fun r => decide (r.obj_id = k))).length = 1 := by
  have hchar : AK_char k = k := by
    have hne : AK_user_get_id_loop c old st.AK_user c.EXIT_ERROR ≠ c.EXIT_ERROR := by
      have := hk; unfold AK_user_get_id at this; rw [this]; exact hkE
    obtain ⟨v, hv⟩ := AK_user_get_id_loop_char c old st.AK_user c.EXIT_ERROR hne
    have : k = AK_char v := by rw [← hk]; exact hv
    rw [this, AK_char_idem]
  have hon : old ≠ new := by
    intro heq
    apply hkE
    rw [← hk]
    unfold AK_user_get_id
    exact AK_user_get_id_loop_no_name c old st.AK_user _ (fun r hr => heq ▸ hnew r hr)
  have hfil_new : ∀ r ∈ st.AK_user.filter (fun r => !decide (r.username = old)),
      r.username ≠ new := fun r hr => hnew r (List.mem_filter.1 hr).1
  have hfil_old : ∀ r ∈ st.AK_user.filter (fun r => !decide (r.username = old)),
      r.username ≠ old := fun r hr => by simpa using (List.mem_filter.1 hr).2
  have hfil_k : (st.AK_user.filter (fun r => !decide (r.username = old))).filter
      (fun r => decide (r.obj_id = k)) = [] := by
    rw [List.filter_eq_nil_iff]
    intro r hr
    have := hother r (List.mem_filter.1 hr).1 (hfil_old r hr)
    simpa using this
  have hstore : (AK_user_rename c st old new pw).2.AK_user =
      st.AK_user.filter (fun r => !decide (r.username = old)) ++
        [⟨k, new, c.hash_password pw⟩] := by
    by_cases hok : st.delete_outcome.1 = true
    · obtain ⟨h1, h2⟩ := AK_user_remove_by_name_ok c st old hok
      have hse : ¬ (AK_user_remove_by_name c st old).1 = c.EXIT_ERROR := by
        intro he
        apply hsucc
        simp only [AK_user_rename, if_pos he]
        exact he
      have hlook : AK_user_get_id c (AK_user_remove_by_name c st old).2 new =
          c.EXIT_ERROR := by
        unfold AK_user_get_id
        rw [h2]
        exact AK_user_get_id_loop_no_name c new _ _ hfil_new
      simp only [AK_user_rename, if_neg hse, hk]
      rw [(AK_user_add_set_id c _ new pw k hlook hk0).2, h2]
    · exfalso
      apply hsucc
      have he := AK_user_remove_by_name_fail c st old hok
      simp only [AK_user_rename, if_pos he]
      exact he
  refine ⟨?_, ?_, ?_⟩
  · unfold AK_user_get_id
    rw [hstore, AK_user_get_id_loop_append, AK_user_get_id_loop_no_name c new _ _ hfil_new]
    simp [AK_user_get_id_loop, hchar]
  · unfold AK_user_get_id
    rw [hstore, AK_user_get_id_loop_append, AK_user_get_id_loop_no_name c old _ _ hfil_old]
    simp [AK_user_get_id_loop, Ne.symm hon]
  · rw [hstore, List.filter_append, hfil_k]
    simp

/-- The group half of C10 (amended). -/
theorem AK_group_rename_keeps_id (c : Env) (st : Store) (old new : String) (k : Int)
    (hk : AK_group_get_id c st old = k) (hk0 : k ≠ 0) (hkE : k ≠ c.EXIT_ERROR)
    (hnew : ∀ r ∈ st.AK_group, r.name ≠ new)
    (hother : ∀ r ∈ st.AK_group, r.name ≠ old → r.obj_id ≠ k)
    (hrem : (AK_group_remove_by_name c st old).1 ≠ c.EXIT_ERROR) :
    (AK_group_rename c st old new false).1 ≠ c.EXIT_ERROR ∧
    AK_group_get_id c (AK_group_rename c st old new false).2 new = k ∧
    AK_group_get_id c (AK_group_rename c st old new false).2 old = c.EXIT_ERROR ∧
    ((AK_group_rename c st old new false).2.AK_group.filter
      (fun r => decide (r.obj_id = k))).length = 1 := by
  have hchar : AK_char k = k := by
    have hne : AK_group_get_id_loop c old st.AK_group ≠ c.EXIT_ERROR := by
      have := hk; unfold AK_group_get_id at this; rw [this]; exact hkE
    obtain ⟨r, _, _, hv⟩ := AK_group_get_id_loop_char c old st.AK_group hne
    have : k = AK_char r.obj_id := by rw [← hk]; exact hv
    rw [this, AK_char_idem]
  have hon : old ≠ new := by
    intro heq
    apply hkE
    rw [← hk]
    unfold AK_group_get_id
    exact AK_group_get_id_loop_no_name c old st.AK_group (fun r hr => heq ▸ hnew r hr)
  have hfil_new : ∀ r ∈ st.AK_group.filter (fun r => !decide (r.name = old)),
      r.name ≠ new := fun r hr => hnew r (List.mem_filter.1 hr).1
  have hfil_old : ∀ r ∈ st.AK_group.filter (fun r => !decide (r.name = old)),
      r.name ≠ old := fun r hr => by simpa using (List.mem_filter.1 hr).2
  have hfil_k : (st.AK_group.filter (fun r => !decide (r.name = old))).filter
      (fun r => decide (r.obj_id = k)) = [] := by
    rw [List.filter_eq_nil_iff]
    intro r hr
    have := hother r (List.mem_filter.1 hr).1 (hfil_old r hr)
    simpa using this
  have hok : st.delete_outcome.1 = true := by
    by_contra hno
    exact hrem (AK_group_remove_by_name_fail c st old hno)
  obtain ⟨-, h2⟩ := AK_group_remove_by_name_ok c st old hok
  have hlook : AK_group_get_id c (AK_group_remove_by_name c st old).2 new =
      c.EXIT_ERROR := by
    unfold AK_group_get_id
    rw [h2]
    exact AK_group_get_id_loop_no_name c new _ hfil_new
  obtain ⟨a1, a2⟩ := AK_group_add_set_id c (AK_group_remove_by_name c st old).2 new k hlook hk0
  have hfst : (AK_group_rename c st old new false).1 = k := by
    simp only [AK_group_rename, hk, Bool.false_eq_true, if_false]
    exact a1
  have hstore : (AK_group_rename c st old new false).2.AK_group =
      st.AK_group.filter (fun r => !decide (r.name = old)) ++ [⟨k, new⟩] := by
    simp only [AK_group_rename, hk, Bool.false_eq_true, if_false]
    rw [a2, h2]
  refine ⟨by rw [hfst]; exact hkE, ?_, ?_, ?_⟩
  · unfold AK_group_get_id
    rw [hstore, AK_group_get_id_loop_append c new _ _ hfil_new]
    simp [AK_group_get_id_loop, hchar]
  · unfold AK_group_get_id
    rw [hstore, AK_group_get_id_loop_append c old _ _ hfil_old]
    simp [AK_group_get_id_loop, Ne.symm hon]
  · rw [hstore, List.filter_append, hfil_k]
    simp

/-- C10 (amended).  For every store in which looking up `old` returns an
identifier `k` other than 0 (the value that makes the add functions allocate a
new identifier), no row is named `new` and no row of another name carries `k`:
after an `AK_user_rename(old, new, pw)` that did not return `EXIT_ERROR`, and
after an `AK_group_rename(old, new)` (called with two distinct pointers) whose
removal of the old row did not return `EXIT_ERROR`, looking up `new` returns
`k`, looking up `old` returns `EXIT_ERROR`, and exactly one row of that kind
carries `k`. -/
theorem C10_rename_keeps_id (c : Env) (st : Store) (old new pw : String) (k : Int) :
    (AK_user_get_id c st old = k → k ≠ 0 → k ≠ c.EXIT_ERROR →
      (∀ r ∈ st.AK_user, r.username ≠ new) →
      (∀ r ∈ st.AK_user, r.username ≠ old → r.obj_id ≠ k) →
      (AK_user_rename c st old new pw).1 ≠ c.EXIT_ERROR →
      AK_user_get_id c (AK_user_rename c st old new pw).2 new = k ∧
      AK_user_get_id c (AK_user_rename c st old new pw).2 old = c.EXIT_ERROR ∧
      ((AK_user_rename c st old new pw).2.AK_user.filter
        (fun r => decide (r.obj_id = k))).length = 1) ∧
    (AK_group_get_id c st old = k → k ≠ 0 → k ≠ c.EXIT_ERROR →
      (∀ r ∈ st.AK_group, r.name ≠ new) →
      (∀ r ∈ st.AK_group, r.name ≠ old → r.obj_id ≠ k) →
      (AK_group_remove_by_name c st old).1 ≠ c.EXIT_ERROR →
      (AK_group_rename c st old new false).1 ≠ c.EXIT_ERROR ∧
      AK_group_get_id c (AK_group_rename c st old new false).2 new = k ∧
      AK_group_get_id c (AK_group_rename c st old new false).2 old = c.EXIT_ERROR ∧
      ((AK_group_rename c st old new false).2.AK_group.filter
        (fun r => decide (r.obj_id = k))).length = 1) :=
  ⟨AK_user_rename_keeps_id c st old new pw k, AK_group_rename_keeps_id c st old new k⟩

/-- Witness of `C10_rename_keeps_id`: `store_rename`, where `"old"` has
identifier 5. -/
theorem C10_rename_keeps_id_witness :
    (AK_user_get_id env_example
        (AK_user_rename env_example store_rename "old" "new" "pw").2 "new" = 5 ∧
      AK_user_get_id env_example
        (AK_user_rename env_example store_rename "old" "new" "pw").2 "old" =
        env_example.EXIT_ERROR ∧
      ((AK_user_rename env_example store_rename "old" "new" "pw").2.AK_user.filter
        (fun r => decide (r.obj_id = 5))).length = 1) ∧
    ((AK_group_rename env_example store_rename "old" "new" false).1 ≠
        env_example.EXIT_ERROR ∧
      AK_group_get_id env_example
        (AK_group_rename env_example store_rename "old" "new" false).2 "new" = 5 ∧
      AK_group_get_id env_example
        (AK_group_rename env_example store_rename "old" "new" false).2 "old" =
        env_example.EXIT_ERROR ∧
      ((AK_group_rename env_example store_rename "old" "new" false).2.AK_group.filter
        (fun r => decide (r.obj_id = 5))).length = 1) :=
  ⟨(C10_rename_keeps_id env_example store_rename "old" "new" "pw" 5).1
      (by decide) (by decide) (by decide) (by decide) (by decide) (by decide),
    (C10_rename_keeps_id env_example store_rename "old" "new" "pw" 5).2
      (by decide) (by decide) (by decide) (by decide) (by decide) (by decide)⟩
/-! ### C11 -/

/-- C11 (code defect).  When the removal of the old row fails, `AK_user_rename`
returns `EXIT_ERROR` and leaves `AK_user` as it was, but `AK_group_rename`
overwrites the result of the removal with the result of `AK_group_add`: for a
group `old` of id `k` (not 0) and a free name `new`, it returns `k` and appends
the row `(k, new)` next to the row of `old`, which is still there. -/
theorem C11_group_rename_adds_after_failed_removal (c : Env) (st : Store)
    (old new pw : String) (k : Int)
    (hfail : st.delete_outcome.1 = false)
    (hk : AK_group_get_id c st old = k) (hk0 : k ≠ 0) (hkE : k ≠ c.EXIT_ERROR)
    (hnew : AK_group_get_id c st new = c.EXIT_ERROR) :
    ((AK_user_remove_by_name c st old).1 = c.EXIT_ERROR ∧
      (AK_user_rename c st old new pw).1 = c.EXIT_ERROR ∧
      (AK_user_rename c st old new pw).2.AK_user = st.AK_user) ∧
    ((AK_group_remove_by_name c st old).1 = c.EXIT_ERROR ∧
      (AK_group_rename c st old new false).1 = k ∧
      (AK_group_rename c st old new false).1 ≠ c.EXIT_ERROR ∧
      (AK_group_rename c st old new false).2.AK_group = st.AK_group ++ [⟨k, new⟩]) := by
  have hu : AK_user_remove_by_name c st old = (c.EXIT_ERROR, st.delete_outcome.2) := by
    simp [AK_user_remove_by_name, hfail]
  have hg : AK_group_remove_by_name c st old = (c.EXIT_ERROR, st.delete_outcome.2) := by
    simp [AK_group_remove_by_name, hfail]
  have hnew1 : AK_group_get_id c st.delete_outcome.2 new = c.EXIT_ERROR := by
    rw [← hnew]
    simp only [AK_group_get_id, delete_outcome_AK_group]
  have hadd := AK_group_add_set_id c st.delete_outcome.2 new k hnew1 hk0
  refine ⟨⟨by rw [hu], ?_, ?_⟩, by rw [hg], ?_, ?_, ?_⟩
  · simp [AK_user_rename, hu]
  · simp [AK_user_rename, hu, delete_outcome_AK_user]
  · simp only [AK_group_rename, Bool.false_eq_true, if_false, hk, hg]
    exact hadd.1
  · simp only [AK_group_rename, Bool.false_eq_true, if_false, hk, hg]
    rw [hadd.1]
    exact hkE
  · simp only [AK_group_rename, Bool.false_eq_true, if_false, hk, hg]
    rw [hadd.2, delete_outcome_AK_group]

/-- Witness of `C11_group_rename_adds_after_failed_removal`: in
`store_rename_fault` the removal of the group `"old"` (id 5) fails, and the
rename to `"new"` returns 5 and leaves both rows in `AK_group`. -/
theorem C11_group_rename_adds_after_failed_removal_witness :
    (AK_group_remove_by_name env_example store_rename_fault "old").1 = -1 ∧
    (AK_group_rename env_example store_rename_fault "old" "new" false).1 = 5 ∧
    (AK_group_rename env_example store_rename_fault "old" "new" false).2.AK_group =
      [⟨5, "old"⟩, ⟨6, "x"⟩, ⟨5, "new"⟩] :=
  have h := C11_group_rename_adds_after_failed_removal env_example store_rename_fault
    "old" "new" "pw" 5 (by decide) (by decide) (by decide) (by decide) (by decide)
  ⟨h.2.1, h.2.2.1, h.2.2.2.2⟩
/-! ### Lookups after an add -/

/-- An add of a name no row carries appends one row, which carries the id the
call returns: `set_id` when it is not 0, else the next value of the identifier
sequence. -/
theorem AK_user_add_free (c : Env) (st : Store) (n pw : String) (set_id : Int)
    (hno : ∀ r ∈ st.AK_user, r.username ≠ n) :
    (AK_user_add c st n pw set_id).1 = (if set_id ≠ 0 then set_id else st.last_id + 1) ∧
    (AK_user_add c st n pw set_id).2.AK_user =
      st.AK_user ++ [⟨(AK_user_add c st n pw set_id).1, n, c.hash_password pw⟩] := by
  have h : AK_user_get_id c st n = c.EXIT_ERROR :=
    AK_user_get_id_loop_no_name c n st.AK_user c.EXIT_ERROR hno
  simp [AK_user_add, h, AK_get_id]

theorem AK_group_add_free (c : Env) (st : Store) (n : String) (set_id : Int)
    (hno : ∀ r ∈ st.AK_group, r.name ≠ n) :
    (AK_group_add c st n set_id).1 = (if set_id ≠ 0 then set_id else st.last_id + 1) ∧
    (AK_group_add c st n set_id).2.AK_group =
      st.AK_group ++ [⟨(AK_group_add c st n set_id).1, n⟩] := by
  have h : AK_group_get_id c st n = c.EXIT_ERROR :=
    AK_group_get_id_loop_no_name c n st.AK_group hno
  simp [AK_group_add, h, AK_get_id]

/-- After an add of a name no row carried, the lookup of the name returns one
byte of the id the add returned. -/
theorem AK_user_get_id_after_add (c : Env) (st : Store) (n pw : String) (set_id : Int)
    (hno : ∀ r ∈ st.AK_user, r.username ≠ n) :
    AK_user_get_id c (AK_user_add c st n pw set_id).2 n =
      AK_char (AK_user_add c st n pw set_id).1 := by
  unfold AK_user_get_id
  rw [(AK_user_add_free c st n pw set_id hno).2, AK_user_get_id_loop_append,
    AK_user_get_id_loop_no_name c n st.AK_user c.EXIT_ERROR hno]
  simp [AK_user_get_id_loop]

theorem AK_group_get_id_after_add (c : Env) (st : Store) (n : String) (set_id : Int)
    (hno : ∀ r ∈ st.AK_group, r.name ≠ n) :
    AK_group_get_id c (AK_group_add c st n set_id).2 n =
      AK_char (AK_group_add c st n set_id).1 := by
  unfold AK_group_get_id
  rw [(AK_group_add_free c st n set_id hno).2, AK_group_get_id_loop_append c n _ _ hno]
  simp [AK_group_get_id_loop]

/-- One byte read differs from the integer stored as soon as the integer is
outside the range of `char`. -/
theorem AK_char_ne_of_wide (v : Int) (h : v < -128 ∨ 127 < v) : AK_char v ≠ v := by
  unfold AK_char; omega

/-! ### C12 -/

/-- C12 (code defect).  `AK_user_add` stores the whole identifier and
`AK_user_get_id` returns one byte of it, which `AK_user_check_pass` compares
with the whole `obj_id` of the rows: when the identifier of the new user is
outside the range of `char` and no other row carries its low byte as
identifier, the verification returns 0 for every candidate password `q`, the
password `p` just stored included. -/
theorem C12_check_pass_wide_id (c : Env) (st : Store) (n p q : String) (set_id : Int)
    (hno : ∀ r ∈ st.AK_user, r.username ≠ n)
    (hwide : (AK_user_add c st n p set_id).1 < -128 ∨ 127 < (AK_user_add c st n p set_id).1)
    (hfree : ∀ r ∈ st.AK_user, r.obj_id ≠ AK_char (AK_user_add c st n p set_id).1) :
    (⟨(AK_user_add c st n p set_id).1, n, c.hash_password p⟩ : UserRow) ∈
      (AK_user_add c st n p set_id).2.AK_user ∧
    AK_user_check_pass c (AK_user_add c st n p set_id).2 n q = 0 ∧
    AK_user_check_pass c (AK_user_add c st n p set_id).2 n p = 0 := by
  have hrows := (AK_user_add_free c st n p set_id hno).2
  have hid := AK_user_get_id_after_add c st n p set_id hno
  have hne := AK_char_ne_of_wide _ hwide
  have hfind : (AK_user_add c st n p set_id).2.AK_user.find?
      (fun row => decide (row.obj_id = AK_char (AK_user_add c st n p set_id).1)) = none := by
    rw [hrows, List.find?_eq_none]
    intro r hr
    rcases List.mem_append.1 hr with h | h
    · simpa using hfree r h
    · rw [List.mem_singleton] at h
      subst h
      simpa using Ne.symm hne
  have key : ∀ x, AK_user_check_pass c (AK_user_add c st n p set_id).2 n x = 0 := by
    intro x
    simp only [AK_user_check_pass, hid, hfind]
    split <;> rfl
  exact ⟨by rw [hrows]; simp, key q, key p⟩

/-- Witness of `C12_check_pass_wide_id`: on the empty store, the user `"n"` is
added with password `"p"` and identifier 300; the row `(300, "n", hash "p")` is
stored, and the verification of `"p"` returns 0. -/
theorem C12_check_pass_wide_id_witness :
    (AK_user_add env_example store_empty "n" "p" 300).1 = 300 ∧
    AK_user_check_pass env_example (AK_user_add env_example store_empty "n" "p" 300).2
      "n" "p" = 0 :=
  ⟨by decide,
    (C12_check_pass_wide_id env_example store_empty "n" "p" "p" 300 (by decide) (by decide)
      (by decide)).2.2⟩
/-! ### The bulk revoke -/

theorem delete_outcome_AK_user_group (st : Store) :
    st.delete_outcome.2.AK_user_group = st.AK_user_group := by
  unfold Store.delete_outcome
  split <;> rfl

@[simp] theorem setRights_AK_user_group (st : Store) (k : Ledger) (rows : List RightRow) :
    (st.setRights k rows).AK_user_group = st.AK_user_group := by
  cases k <;> rfl

/-- A name that resolves resolves to a value of the range of `char`. -/
theorem AK_user_get_id_is_char (c : Env) (st : Store) (n : String)
    (h : AK_user_get_id c st n ≠ c.EXIT_ERROR) :
    AK_char (AK_user_get_id c st n) = AK_user_get_id c st n := by
  obtain ⟨v, hv⟩ := AK_user_get_id_loop_char c n st.AK_user c.EXIT_ERROR h
  unfold AK_user_get_id
  rw [hv, AK_char_idem]

theorem AK_group_get_id_is_char (c : Env) (st : Store) (n : String)
    (h : AK_group_get_id c st n ≠ c.EXIT_ERROR) :
    AK_char (AK_group_get_id c st n) = AK_group_get_id c st n := by
  obtain ⟨r, _, _, hv⟩ := AK_group_get_id_loop_char c n st.AK_group h
  unfold AK_group_get_id
  rw [hv, AK_char_idem]

/-- With no fault scheduled, a deletion on a ledger returns `EXIT_SUCCESS`,
removes exactly the rows that satisfy the condition, and no fault is scheduled
after it. -/
theorem AK_delete_row_rights_no_fault (c : Env) (st : Store) (k : Ledger)
    (p : RightRow → Bool) (hok : ∀ b ∈ st.delete_faults, b = false) :
    (AK_delete_row_rights c st k p).1 = c.EXIT_SUCCESS ∧
    (AK_delete_row_rights c st k p).2.rights k = (st.rights k).filter (fun r => !p r) ∧
    (∀ b ∈ (AK_delete_row_rights c st k p).2.delete_faults, b = false) := by
  obtain ⟨h1, h2⟩ := delete_outcome_of_no_fault st hok
  obtain ⟨h3, h4⟩ := AK_delete_row_rights_ok c st k p h1
  refine ⟨h3, h4, ?_⟩
  simpa [AK_delete_row_rights, h1] using h2

/-- A deletion on a ledger leaves the users, the groups and the memberships as
they were. -/
theorem AK_delete_row_rights_frame (c : Env) (st : Store) (k : Ledger) (p : RightRow → Bool) :
    (AK_delete_row_rights c st k p).2.AK_user = st.AK_user ∧
    (AK_delete_row_rights c st k p).2.AK_group = st.AK_group ∧
    (AK_delete_row_rights c st k p).2.AK_user_group = st.AK_user_group := by
  simp only [AK_delete_row_rights]
  split <;>
    simp [delete_outcome_AK_user, delete_outcome_AK_group, delete_outcome_AK_user_group]

/-- The bound on the iterations of `revoke_all_privileges_scan` does not cut the
loop short: from index `i`, any two bounds that reach the end of the ledger give
the same result. -/
theorem revoke_all_privileges_scan_fuel (c : Env) (k : Ledger) (id : Int)
    (n m i : Nat) (result : Option Int) (st : Store)
    (hn : (st.rights k).length ≤ i + n) (hm : (st.rights k).length ≤ i + m) :
    revoke_all_privileges_scan c k id n i result st =
      revoke_all_privileges_scan c k id m i result st := by
  induction n generalizing m i result st with
  | zero =>
    have hnone : (st.rights k)[i]? = none := List.getElem?_eq_none (by omega)
    cases m with
    | zero => rfl
    | succ m => simp [revoke_all_privileges_scan, hnone]
  | succ n ih =>
    cases m with
    | zero =>
      have hnone : (st.rights k)[i]? = none := List.getElem?_eq_none (by omega)
      simp [revoke_all_privileges_scan, hnone]
    | succ m =>
      simp only [revoke_all_privileges_scan]
      cases hrow : (st.rights k)[i]? with
      | none => rfl
      | some row =>
        simp only
        split
        · apply ih
          · have := length_delete_row_rights_le c st k (fun r => decide (r.subject_id = id))
            omega
          · have := length_delete_row_rights_le c st k (fun r => decide (r.subject_id = id))
            omega
        · apply ih <;> omega

/-- The scan leaves the users, the groups and the memberships as they were. -/
theorem revoke_all_privileges_scan_frame (c : Env) (k : Ledger) (id : Int)
    (n i : Nat) (result : Option Int) (st : Store) :
    (revoke_all_privileges_scan c k id n i result st).2.AK_user = st.AK_user ∧
    (revoke_all_privileges_scan c k id n i result st).2.AK_group = st.AK_group ∧
    (revoke_all_privileges_scan c k id n i result st).2.AK_user_group = st.AK_user_group := by
  induction n generalizing i result st with
  | zero => exact ⟨rfl, rfl, rfl⟩
  | succ n ih =>
    simp only [revoke_all_privileges_scan]
    cases (st.rights k)[i]? with
    | none => exact ⟨rfl, rfl, rfl⟩
    | some row =>
      simp only
      split
      · obtain ⟨h1, h2, h3⟩ := ih (i + 1)
          (some (AK_delete_row_rights c st k (fun r => decide (r.subject_id = id))).1)
          (AK_delete_row_rights c st k (fun r => decide (r.subject_id = id))).2
        obtain ⟨f1, f2, f3⟩ :=
          AK_delete_row_rights_frame c st k (fun r => decide (r.subject_id = id))
        exact ⟨h1.trans f1, h2.trans f2, h3.trans f3⟩
      · exact ih (i + 1) result st

/-- On a ledger that holds no row of the subject, with a deletion already
performed and no fault scheduled, the scan keeps the ledger and the result. -/
theorem revoke_all_privileges_scan_clean (c : Env) (k : Ledger) (id : Int)
    (n i : Nat) (st : Store)
    (hok : ∀ b ∈ st.delete_faults, b = false)
    (hclean : ∀ r ∈ st.rights k, r.subject_id ≠ id) :
    (revoke_all_privileges_scan c k id n i (some c.EXIT_SUCCESS) st).1 = some c.EXIT_SUCCESS ∧
    (revoke_all_privileges_scan c k id n i (some c.EXIT_SUCCESS) st).2.rights k =
      st.rights k := by
  induction n generalizing i st with
  | zero => exact ⟨rfl, rfl⟩
  | succ n ih =>
    simp only [revoke_all_privileges_scan]
    cases (st.rights k)[i]? with
    | none => exact ⟨rfl, rfl⟩
    | some row =>
      simp only
      obtain ⟨d1, d2, d3⟩ :=
        AK_delete_row_rights_no_fault c st k (fun r => decide (r.subject_id = id)) hok
      have hfil : (st.rights k).filter (fun r => !decide (r.subject_id = id)) = st.rights k :=
        List.filter_eq_self.2 (fun r hr => by simpa using hclean r hr)
      rw [hfil] at d2
      split
      · rw [d1]
        obtain ⟨h1, h2⟩ := ih (i + 1) _ d3 (by rw [d2]; exact hclean)
        exact ⟨h1, h2.trans d2⟩
      · exact ih (i + 1) st hok hclean

/-- When the ledger holds a row of the subject at index `i` or later and no
fault is scheduled, the scan from `i` ends with the result `EXIT_SUCCESS` and
the ledger without the rows of the subject. -/
theorem revoke_all_privileges_scan_found (c : Env) (k : Ledger) (id : Int)
    (n i : Nat) (result : Option Int) (st : Store)
    (hok : ∀ b ∈ st.delete_faults, b = false)
    (hid : AK_char id = id)
    (hrow : ∃ j row, i ≤ j ∧ (st.rights k)[j]? = some row ∧ row.subject_id = id)
    (hn : (st.rights k).length ≤ i + n) :
    (revoke_all_privileges_scan c k id n i result st).1 = some c.EXIT_SUCCESS ∧
    (revoke_all_privileges_scan c k id n i result st).2.rights k =
      (st.rights k).filter (fun r => !decide (r.subject_id = id)) := by
  induction n generalizing i result st with
  | zero =>
    obtain ⟨j, row, hj, hget, _⟩ := hrow
    have : (st.rights k)[j]? = none := List.getElem?_eq_none (by omega)
    rw [this] at hget
    cases hget
  | succ n ih =>
    simp only [revoke_all_privileges_scan]
    cases hi : (st.rights k)[i]? with
    | none =>
      obtain ⟨j, row, hj, hget, _⟩ := hrow
      have hlen : (st.rights k).length ≤ i := by
        by_contra hcon
        rw [List.getElem?_eq_getElem (by omega)] at hi
        cases hi
      have : (st.rights k)[j]? = none := List.getElem?_eq_none (by omega)
      rw [this] at hget
      cases hget
    | some r0 =>
      simp only
      split
      · obtain ⟨d1, d2, d3⟩ :=
          AK_delete_row_rights_no_fault c st k (fun r => decide (r.subject_id = id)) hok
        rw [d1]
        obtain ⟨h1, h2⟩ := revoke_all_privileges_scan_clean c k id n (i + 1) _ d3 (by
          rw [d2]
          intro r hr
          simpa using (List.mem_filter.1 hr).2)
        exact ⟨h1, h2.trans d2⟩
      · rename_i hne
        obtain ⟨j, row, hj, hget, hsub⟩ := hrow
        have hji : j ≠ i := by
          intro h
          subst h
          rw [hi] at hget
          cases hget
          exact hne (by rw [hsub]; exact hid)
        exact ih (i + 1) result st hok ⟨j, row, by omega, hget, hsub⟩ (by omega)

/-- The part of the bulk revoke after the name is resolved, when the subject
holds a row and no fault is scheduled: it returns `EXIT_SUCCESS` and the ledger
loses exactly the rows of the subject. -/
theorem revoke_all_privileges_ok (c : Env) (st : Store) (k : Ledger) (id : Int)
    (hok : ∀ b ∈ st.delete_faults, b = false)
    (hid : AK_char id = id)
    (hrow : ∃ row ∈ st.rights k, row.subject_id = id) :
    ∃ st1, revoke_all_privileges c st k id = some (c.EXIT_SUCCESS, st1) ∧
      st1.rights k = (st.rights k).filter (fun r => !decide (r.subject_id = id)) ∧
      st1.AK_user = st.AK_user ∧ st1.AK_group = st.AK_group ∧
      st1.AK_user_group = st.AK_user_group := by
  obtain ⟨row, hmem, hsub⟩ := hrow
  obtain ⟨j, hj, hget⟩ := List.getElem_of_mem hmem
  obtain ⟨h1, h2⟩ := revoke_all_privileges_scan_found c k id (st.rights k).length 0 none st
    hok hid ⟨j, row, by omega, by rw [List.getElem?_eq_getElem hj, hget], hsub⟩ (by omega)
  obtain ⟨f1, f2, f3⟩ :=
    revoke_all_privileges_scan_frame c k id (st.rights k).length 0 none st
  refine ⟨(revoke_all_privileges_scan c k id (st.rights k).length 0 none st).2, ?_, h2,
    f1, f2, f3⟩
  simp only [revoke_all_privileges, h1]
  split
  · rename_i h
    rw [← h]
  · rfl
/-! ### Bulk revoke by resolved id -/

/-- The bulk revoke in terms of the id the name resolves to, which is one byte
of the id of the user or group.  When the record store carries out the
deletions and at least one row of the ledger carries the resolved id, the call
returns `EXIT_SUCCESS` and the ledger afterwards is the old one without the rows
that carry the resolved id, whoever they were granted to. -/
theorem revoke_all_privileges_by_resolved_id (c : Env) (st : Store) (u g : String)
    (hok : ∀ b ∈ st.delete_faults, b = false) :
    (AK_user_get_id c st u ≠ c.EXIT_ERROR →
      (∃ row ∈ st.AK_user_right, row.subject_id = AK_user_get_id c st u) →
      ∃ st1, AK_revoke_all_privileges_user c st u = some (c.EXIT_SUCCESS, st1) ∧
        (∀ row ∈ st1.AK_user_right, row.subject_id ≠ AK_user_get_id c st u) ∧
        st1.AK_user_right =
          st.AK_user_right.filter (fun row => !decide (row.subject_id = AK_user_get_id c st u))) ∧
    (AK_group_get_id c st g ≠ c.EXIT_ERROR →
      (∃ row ∈ st.AK_group_right, row.subject_id = AK_group_get_id c st g) →
      ∃ st1, AK_revoke_all_privileges_group c st g = some (c.EXIT_SUCCESS, st1) ∧
        (∀ row ∈ st1.AK_group_right, row.subject_id ≠ AK_group_get_id c st g) ∧
        st1.AK_group_right =
          st.AK_group_right.filter
            (fun row => !decide (row.subject_id = AK_group_get_id c st g))) := by
  constructor
  · intro hu hrow
    obtain ⟨st1, h1, h2, _⟩ := revoke_all_privileges_ok c st .user (AK_user_get_id c st u) hok
      (AK_user_get_id_is_char c st u hu) hrow
    refine ⟨st1, by simp only [AK_revoke_all_privileges_user, if_neg hu, h1], ?_, h2⟩
    intro row hr
    have hr1 : row ∈ st1.rights .user := hr
    rw [h2] at hr1
    simpa using (List.mem_filter.1 hr1).2
  · intro hg hrow
    obtain ⟨st1, h1, h2, _⟩ := revoke_all_privileges_ok c st .group (AK_group_get_id c st g)
      hok (AK_group_get_id_is_char c st g hg) hrow
    refine ⟨st1, by simp only [AK_revoke_all_privileges_group, if_neg hg, h1], ?_, h2⟩
    intro row hr
    have hr1 : row ∈ st1.rights .group := hr
    rw [h2] at hr1
    simpa using (List.mem_filter.1 hr1).2
/-! ### The bulk removals of memberships -/

@[simp] theorem role_edges_setRoleEdges (st : Store) (k : RoleEdges) (rows : List RoleEdgeRow) :
    (st.setRoleEdges k rows).role_edges k = rows := by
  cases k <;> rfl

theorem delete_outcome_role_edges (st : Store) (k : RoleEdges) :
    st.delete_outcome.2.role_edges k = st.role_edges k := by
  unfold Store.delete_outcome
  split <;> cases k <;> rfl

theorem length_delete_row_user_group_le (c : Env) (st : Store) (p : UserGroupRow → Bool) :
    (AK_delete_row_user_group c st p).2.AK_user_group.length ≤ st.AK_user_group.length := by
  simp only [AK_delete_row_user_group]
  by_cases h : st.delete_outcome.1 = true
  · simp only [h, if_true, delete_outcome_AK_user_group]
    exact List.length_filter_le _ _
  · simp [h, delete_outcome_AK_user_group]

theorem length_delete_row_role_edges_le (c : Env) (st : Store) (k : RoleEdges)
    (p : RoleEdgeRow → Bool) :
    ((AK_delete_row_role_edges c st k p).2.role_edges k).length ≤
      (st.role_edges k).length := by
  simp only [AK_delete_row_role_edges]
  by_cases h : st.delete_outcome.1 = true
  · simp only [h, if_true, role_edges_setRoleEdges, delete_outcome_role_edges]
    exact List.length_filter_le _ _
  · simp [h, delete_outcome_role_edges]

/-- The bound on the iterations of `remove_user_from_all_groups_scan` does not
cut the loop short. -/
theorem remove_user_from_all_groups_scan_fuel (c : Env) (user_id : Int)
    (n m i : Nat) (st : Store)
    (hn : st.AK_user_group.length ≤ i + n) (hm : st.AK_user_group.length ≤ i + m) :
    remove_user_from_all_groups_scan c user_id n i st =
      remove_user_from_all_groups_scan c user_id m i st := by
  induction n generalizing m i st with
  | zero =>
    have hnone : st.AK_user_group[i]? = none := List.getElem?_eq_none (by omega)
    cases m with
    | zero => rfl
    | succ m => simp [remove_user_from_all_groups_scan, hnone]
  | succ n ih =>
    cases m with
    | zero =>
      have hnone : st.AK_user_group[i]? = none := List.getElem?_eq_none (by omega)
      simp [remove_user_from_all_groups_scan, hnone]
    | succ m =>
      simp only [remove_user_from_all_groups_scan]
      cases hrow : st.AK_user_group[i]? with
      | none => rfl
      | some row =>
        simp only
        have hlen := length_delete_row_user_group_le c st
          (fun r => decide (r.user_id = user_id))
        split
        · split
          · rfl
          · apply ih <;> omega
        · apply ih <;> omega

/-- The bound on the iterations of `remove_all_users_from_group_scan` does not
cut the loop short. -/
theorem remove_all_users_from_group_scan_fuel (c : Env) (group_id : Int)
    (n m i : Nat) (result : Option Int) (st : Store)
    (hn : st.AK_user_group.length ≤ i + n) (hm : st.AK_user_group.length ≤ i + m) :
    remove_all_users_from_group_scan c group_id n i result st =
      remove_all_users_from_group_scan c group_id m i result st := by
  induction n generalizing m i result st with
  | zero =>
    have hnone : st.AK_user_group[i]? = none := List.getElem?_eq_none (by omega)
    cases m with
    | zero => rfl
    | succ m => simp [remove_all_users_from_group_scan, hnone]
  | succ n ih =>
    cases m with
    | zero =>
      have hnone : st.AK_user_group[i]? = none := List.getElem?_eq_none (by omega)
      simp [remove_all_users_from_group_scan, hnone]
    | succ m =>
      simp only [remove_all_users_from_group_scan]
      cases hrow : st.AK_user_group[i]? with
      | none => rfl
      | some row =>
        simp only
        have hlen := length_delete_row_user_group_le c st
          (fun r => decide (r.group_id = group_id))
        by_cases hg : group_id = AK_char row.group_id
        · simp only [if_pos hg]
          split
          · rfl
          · apply ih <;> omega
        · simp only [if_neg hg]
          cases result with
          | none => rfl
          | some r =>
            simp only
            split
            · rfl
            · apply ih <;> omega

/-- The bound on the iterations of `remove_all_roles_scan` does not cut the loop
short. -/
theorem remove_all_roles_scan_fuel (c : Env) (k : RoleEdges) (id : Int)
    (n m i : Nat) (st : Store)
    (hn : (st.role_edges k).length ≤ i + n) (hm : (st.role_edges k).length ≤ i + m) :
    remove_all_roles_scan c k id n i st = remove_all_roles_scan c k id m i st := by
  induction n generalizing m i st with
  | zero =>
    have hnone : (st.role_edges k)[i]? = none := List.getElem?_eq_none (by omega)
    cases m with
    | zero => rfl
    | succ m => simp [remove_all_roles_scan, hnone]
  | succ n ih =>
    cases m with
    | zero =>
      have hnone : (st.role_edges k)[i]? = none := List.getElem?_eq_none (by omega)
      simp [remove_all_roles_scan, hnone]
    | succ m =>
      simp only [remove_all_roles_scan]
      cases hrow : (st.role_edges k)[i]? with
      | none => rfl
      | some row =>
        simp only
        have hlen := length_delete_row_role_edges_le c st k
          (fun r => decide (r.subject_id = id))
        split
        · split
          · rfl
          · apply ih <;> omega
        · apply ih <;> omega

/-- A scan of `AK_user_group` that meets no row of the user deletes nothing and
returns `EXIT_SUCCESS`. -/
theorem remove_user_from_all_groups_scan_no_match (c : Env) (user_id : Int) (n i : Nat)
    (st : Store) (h : ∀ row ∈ st.AK_user_group, user_id ≠ AK_char row.user_id) :
    remove_user_from_all_groups_scan c user_id n i st = (c.EXIT_SUCCESS, st) := by
  induction n generalizing i with
  | zero => rfl
  | succ n ih =>
    simp only [remove_user_from_all_groups_scan]
    cases hrow : st.AK_user_group[i]? with
    | none => rfl
    | some row =>
      simp only [if_neg (h row (List.getElem?_mem hrow))]
      exact ih (i + 1)

/-- A scan of a table of role edges that meets no row of the subject deletes
nothing and returns `EXIT_SUCCESS`. -/
theorem remove_all_roles_scan_no_match (c : Env) (k : RoleEdges) (id : Int) (n i : Nat)
    (st : Store) (h : ∀ row ∈ st.role_edges k, row.subject_id ≠ id) :
    remove_all_roles_scan c k id n i st = (c.EXIT_SUCCESS, st) := by
  induction n generalizing i with
  | zero => rfl
  | succ n ih =>
    simp only [remove_all_roles_scan]
    cases hrow : (st.role_edges k)[i]? with
    | none => rfl
    | some row =>
      simp only [if_neg (h row (List.getElem?_mem hrow))]
      exact ih (i + 1)
/-! ### Bulk removal without a matching edge -/

/-- What `AK_remove_user_from_all_groups`, `AK_remove_all_roles_from_user` and
`AK_remove_all_roles_from_group` do when the name resolves and no row of the
edge table carries the resolved id (the user ids of `AK_user_group` being in the
range of `char`): the call returns `EXIT_SUCCESS` and leaves the store as it
was. -/
theorem bulk_removal_no_edge_succeeds (c : Env) (st : Store) (u g : String) :
    (AK_user_get_id c st u ≠ c.EXIT_ERROR →
      (∀ row ∈ st.AK_user_group,
        AK_char row.user_id = row.user_id ∧ row.user_id ≠ AK_user_get_id c st u) →
      AK_remove_user_from_all_groups c st u = (c.EXIT_SUCCESS, st)) ∧
    (AK_user_get_id c st u ≠ c.EXIT_ERROR →
      (∀ row ∈ st.AK_user_role, row.subject_id ≠ AK_user_get_id c st u) →
      AK_remove_all_roles_from_user c st u = (c.EXIT_SUCCESS, st)) ∧
    (AK_group_get_id c st g ≠ c.EXIT_ERROR →
      (∀ row ∈ st.AK_group_role, row.subject_id ≠ AK_group_get_id c st g) →
      AK_remove_all_roles_from_group c st g = (c.EXIT_SUCCESS, st)) := by
  refine ⟨?_, ?_, ?_⟩
  · intro hu h
    simp only [AK_remove_user_from_all_groups, if_neg hu]
    apply remove_user_from_all_groups_scan_no_match
    intro row hr heq
    obtain ⟨h1, h2⟩ := h row hr
    exact h2 (by rw [heq, h1])
  · intro hu h
    simp only [AK_remove_all_roles_from_user, if_neg hu]
    exact remove_all_roles_scan_no_match c .user _ _ 0 st h
  · intro hg h
    simp only [AK_remove_all_roles_from_group, if_neg hg]
    exact remove_all_roles_scan_no_match c .group _ _ 0 st h
/-! ### C15 -/

/-- C15 (counterexample).  In `store_role_edge` the user `"u"` (id 1) and the
group `"g"` (id 2) already have the role `"r"` (id 3): assigning it again
returns `EXIT_SUCCESS`, not `EXIT_ERROR`, and the edge tables hold the pair
twice. -/
theorem C15_assign_role_twice :
    (⟨1, 3⟩ : RoleEdgeRow) ∈ store_role_edge.AK_user_role ∧
    (⟨2, 3⟩ : RoleEdgeRow) ∈ store_role_edge.AK_group_role ∧
    env_example.EXIT_SUCCESS = 0 ∧ env_example.EXIT_ERROR = -1 ∧
    (AK_assign_role_to_user env_example store_role_edge "u" "r").1 = 0 ∧
    (AK_assign_role_to_user env_example store_role_edge "u" "r").2.AK_user_role =
      [⟨1, 3⟩, ⟨1, 3⟩] ∧
    (AK_assign_role_to_group env_example store_role_edge "g" "r").1 = 0 ∧
    (AK_assign_role_to_group env_example store_role_edge "g" "r").2.AK_group_role =
      [⟨2, 3⟩, ⟨2, 3⟩] := by
  decide

/-- C15 (amended).  For a user `u` (or a group `g`) and a role `r` that resolve,
`AK_assign_role_to_user` (or `AK_assign_role_to_group`) returns `EXIT_SUCCESS`
and appends the edge to `r`, whether or not the table holds it; a table that
holds no pair twice holds none twice afterwards when the edge was not there. -/
theorem C15_assign_role_appends (c : Env) (st : Store) (u g r : String)
    (hr : AK_role_get_id c st r ≠ c.EXIT_ERROR) :
    (AK_user_get_id c st u ≠ c.EXIT_ERROR →
      (AK_assign_role_to_user c st u r).1 = c.EXIT_SUCCESS ∧
      (AK_assign_role_to_user c st u r).2.AK_user_role =
        st.AK_user_role ++ [⟨AK_user_get_id c st u, AK_role_get_id c st r⟩] ∧
      (st.AK_user_role.Nodup →
        (⟨AK_user_get_id c st u, AK_role_get_id c st r⟩ : RoleEdgeRow) ∉ st.AK_user_role →
        (AK_assign_role_to_user c st u r).2.AK_user_role.Nodup)) ∧
    (AK_group_get_id c st g ≠ c.EXIT_ERROR →
      (AK_assign_role_to_group c st g r).1 = c.EXIT_SUCCESS ∧
      (AK_assign_role_to_group c st g r).2.AK_group_role =
        st.AK_group_role ++ [⟨AK_group_get_id c st g, AK_role_get_id c st r⟩] ∧
      (st.AK_group_role.Nodup →
        (⟨AK_group_get_id c st g, AK_role_get_id c st r⟩ : RoleEdgeRow) ∉ st.AK_group_role →
        (AK_assign_role_to_group c st g r).2.AK_group_role.Nodup)) := by
  constructor
  · intro hu
    have h : (AK_assign_role_to_user c st u r).2.AK_user_role =
        st.AK_user_role ++ [⟨AK_user_get_id c st u, AK_role_get_id c st r⟩] := by
      simp [AK_assign_role_to_user, hu, hr]
    refine ⟨by simp [AK_assign_role_to_user, hu, hr], h, ?_⟩
    intro hnd hnew
    rw [h]
    exact List.Nodup.append hnd (List.nodup_singleton _) (by simpa using hnew)
  · intro hg
    have h : (AK_assign_role_to_group c st g r).2.AK_group_role =
        st.AK_group_role ++ [⟨AK_group_get_id c st g, AK_role_get_id c st r⟩] := by
      simp [AK_assign_role_to_group, hg, hr]
    refine ⟨by simp [AK_assign_role_to_group, hg, hr], h, ?_⟩
    intro hnd hnew
    rw [h]
    exact List.Nodup.append hnd (List.nodup_singleton _) (by simpa using hnew)

/-- Witness of `C15_assign_role_appends`: in `store_ledgers` nobody has a role;
the user `"u"` (id 1) and the group `"g"` (id 2) are given the role `"r"`
(id 3). -/
theorem C15_assign_role_appends_witness :
    (AK_assign_role_to_user env_example store_ledgers "u" "r").2.AK_user_role = [⟨1, 3⟩] ∧
    (AK_assign_role_to_group env_example store_ledgers "g" "r").2.AK_group_role =
      [⟨2, 3⟩] :=
  have h := C15_assign_role_appends env_example store_ledgers "u" "g" "r" (by decide)
  ⟨(h.1 (by decide)).2.1, (h.2 (by decide)).2.1⟩
/-! ### The checks through roles -/

/-- `AK_check_role_privilege` returns `EXIT_SUCCESS` exactly when `AK_role_right`
holds a row `(role, table, right)`, and `EXIT_ERROR` otherwise. -/
theorem AK_check_role_privilege_iff (c : Env) (st : Store) (role_id table_id : Int)
    (privilege : String) (hdist : c.EXIT_SUCCESS ≠ c.EXIT_ERROR) :
    (AK_check_role_privilege c st role_id table_id privilege = c.EXIT_SUCCESS ↔
      ∃ row ∈ st.AK_role_right, row.subject_id = role_id ∧ row.artifact_id = table_id ∧
        row.right_type = privilege) ∧
    (AK_check_role_privilege c st role_id table_id privilege = c.EXIT_SUCCESS ∨
      AK_check_role_privilege c st role_id table_id privilege = c.EXIT_ERROR) := by
  unfold AK_check_role_privilege
  split
  · rename_i h
    refine ⟨⟨fun _ => ?_, fun _ => rfl⟩, Or.inl rfl⟩
    obtain ⟨row, hr, hm⟩ := List.any_eq_true.1 h
    simp only [Bool.and_eq_true, decide_eq_true_eq] at hm
    exact ⟨row, hr, hm.1.1, hm.1.2, hm.2⟩
  · rename_i h
    refine ⟨⟨fun he => absurd he.symm hdist, fun hex => ?_⟩, Or.inr rfl⟩
    obtain ⟨row, hr, h1, h2, h3⟩ := hex
    exact absurd (List.any_eq_true.2 ⟨row, hr, by simp [h1, h2, h3]⟩) h

/-- The loop over the role edges returns `EXIT_SUCCESS` exactly when an edge of
the subject leads to a role that holds the row, and `EXIT_ERROR` otherwise. -/
theorem check_privilege_via_roles_iff (c : Env) (st : Store) (k : RoleEdges)
    (subject_id table_id : Int) (privilege : String)
    (hdist : c.EXIT_SUCCESS ≠ c.EXIT_ERROR) :
    (check_privilege_via_roles c st k subject_id table_id privilege = c.EXIT_SUCCESS ↔
      ∃ e ∈ st.role_edges k, e.subject_id = subject_id ∧
        ∃ row ∈ st.AK_role_right, row.subject_id = e.role_id ∧ row.artifact_id = table_id ∧
          row.right_type = privilege) ∧
    (check_privilege_via_roles c st k subject_id table_id privilege = c.EXIT_SUCCESS ∨
      check_privilege_via_roles c st k subject_id table_id privilege = c.EXIT_ERROR) := by
  unfold check_privilege_via_roles
  split
  · rename_i h
    refine ⟨⟨fun _ => ?_, fun _ => rfl⟩, Or.inl rfl⟩
    obtain ⟨e, he, hm⟩ := List.any_eq_true.1 h
    simp only [Bool.and_eq_true, decide_eq_true_eq] at hm
    exact ⟨e, he, hm.1, ((AK_check_role_privilege_iff c st _ _ _ hdist).1).1 hm.2⟩
  · rename_i h
    refine ⟨⟨fun he => absurd he.symm hdist, fun hex => ?_⟩, Or.inr rfl⟩
    obtain ⟨e, he, h1, hrow⟩ := hex
    have h2 := ((AK_check_role_privilege_iff c st e.role_id table_id privilege hdist).1).2 hrow
    exact absurd (List.any_eq_true.2 ⟨e, he, by simp [h1, h2]⟩) h

/-- The checks through roles in terms of the id the name resolves to, which is
one byte of the id of the user or group.  When the name and the table resolve,
`AK_check_user_privilege_via_roles(u, T, p)` returns `EXIT_SUCCESS` if and only
if `AK_user_role` holds an edge from the resolved id to a role `r` and
`AK_role_right` holds the row `(r, T, p)`, and it returns `EXIT_ERROR` otherwise;
`AK_check_group_privilege_via_roles` does the same over `AK_group_role`.  The
rows are typed, so the tests of the column types hold. -/
theorem check_via_roles_by_resolved_id (c : Env) (st : Store) (u g T p : String)
    (hdist : c.EXIT_SUCCESS ≠ c.EXIT_ERROR)
    (ht : AK_get_table_obj_id c st T ≠ c.EXIT_ERROR) :
    (AK_user_get_id c st u ≠ c.EXIT_ERROR →
      (AK_check_user_privilege_via_roles c st u T p = c.EXIT_SUCCESS ↔
        ∃ r : Int, (⟨AK_user_get_id c st u, r⟩ : RoleEdgeRow) ∈ st.AK_user_role ∧
          (⟨r, AK_get_table_obj_id c st T, p⟩ : Int × Int × String) ∈
            triples st.AK_role_right) ∧
      (AK_check_user_privilege_via_roles c st u T p = c.EXIT_SUCCESS ∨
        AK_check_user_privilege_via_roles c st u T p = c.EXIT_ERROR)) ∧
    (AK_group_get_id c st g ≠ c.EXIT_ERROR →
      (AK_check_group_privilege_via_roles c st g T p = c.EXIT_SUCCESS ↔
        ∃ r : Int, (⟨AK_group_get_id c st g, r⟩ : RoleEdgeRow) ∈ st.AK_group_role ∧
          (⟨r, AK_get_table_obj_id c st T, p⟩ : Int × Int × String) ∈
            triples st.AK_role_right) ∧
      (AK_check_group_privilege_via_roles c st g T p = c.EXIT_SUCCESS ∨
        AK_check_group_privilege_via_roles c st g T p = c.EXIT_ERROR)) := by
  have key : ∀ (k : RoleEdges) (s : Int),
      (∃ e ∈ st.role_edges k, e.subject_id = s ∧
        ∃ row ∈ st.AK_role_right, row.subject_id = e.role_id ∧
          row.artifact_id = AK_get_table_obj_id c st T ∧ row.right_type = p) ↔
      ∃ r : Int, (⟨s, r⟩ : RoleEdgeRow) ∈ st.role_edges k ∧
        (⟨r, AK_get_table_obj_id c st T, p⟩ : Int × Int × String) ∈
          triples st.AK_role_right := by
    intro k s
    constructor
    · rintro ⟨e, he, hs, row, hrow, h1, h2, h3⟩
      refine ⟨e.role_id, ?_, ?_⟩
      · have : (⟨s, e.role_id⟩ : RoleEdgeRow) = e := by rw [← hs]
        rw [this]
        exact he
      · exact List.mem_map.2 ⟨row, hrow, by rw [h1, h2, h3]⟩
    · rintro ⟨r, he, ht⟩
      obtain ⟨row, hrow, heq⟩ := List.mem_map.1 ht
      simp only [Prod.mk.injEq] at heq
      exact ⟨⟨s, r⟩, he, rfl, row, hrow, heq.1, heq.2.1, heq.2.2⟩
  constructor
  · intro hu
    have h := check_privilege_via_roles_iff c st .user (AK_user_get_id c st u)
      (AK_get_table_obj_id c st T) p hdist
    have hdef : AK_check_user_privilege_via_roles c st u T p =
        check_privilege_via_roles c st .user (AK_user_get_id c st u)
          (AK_get_table_obj_id c st T) p := by
      simp [AK_check_user_privilege_via_roles, hu, ht]
    rw [hdef]
    exact ⟨h.1.trans (key .user _), h.2⟩
  · intro hg
    have h := check_privilege_via_roles_iff c st .group (AK_group_get_id c st g)
      (AK_get_table_obj_id c st T) p hdist
    have hdef : AK_check_group_privilege_via_roles c st g T p =
        check_privilege_via_roles c st .group (AK_group_get_id c st g)
          (AK_get_table_obj_id c st T) p := by
      simp [AK_check_group_privilege_via_roles, hg, ht]
    rw [hdef]
    exact ⟨h.1.trans (key .group _), h.2⟩
/-! ### C17 -/

/-- C17.  For a role `R` and a table `T` that resolve, the role holding no row
on `T`: `AK_grant_privilege_role(R, T, "ALL")` returns `EXIT_SUCCESS`, the names
resolve as before, and afterwards `AK_check_role_privilege` returns
`EXIT_SUCCESS` for each of `SELECT`, `INSERT`, `UPDATE` and `DELETE` and
`EXIT_ERROR` for `"ALL"`, since it looks for a row whose right is the string
queried. -/
theorem C17_role_grant_all_then_check (c : Env) (st : Store) (R T : String)
    (hr : AK_role_get_id c st R ≠ c.EXIT_ERROR)
    (ht : AK_get_table_obj_id c st T ≠ c.EXIT_ERROR)
    (hnone : ∀ row ∈ st.AK_role_right,
      ¬ (row.subject_id = AK_role_get_id c st R ∧
        row.artifact_id = AK_get_table_obj_id c st T)) :
    (AK_grant_privilege_role c st R T "ALL").1 = c.EXIT_SUCCESS ∧
    AK_role_get_id c (AK_grant_privilege_role c st R T "ALL").2 R = AK_role_get_id c st R ∧
    AK_get_table_obj_id c (AK_grant_privilege_role c st R T "ALL").2 T =
      AK_get_table_obj_id c st T ∧
    AK_check_role_privilege c (AK_grant_privilege_role c st R T "ALL").2
      (AK_role_get_id c st R) (AK_get_table_obj_id c st T) "SELECT" = c.EXIT_SUCCESS ∧
    AK_check_role_privilege c (AK_grant_privilege_role c st R T "ALL").2
      (AK_role_get_id c st R) (AK_get_table_obj_id c st T) "INSERT" = c.EXIT_SUCCESS ∧
    AK_check_role_privilege c (AK_grant_privilege_role c st R T "ALL").2
      (AK_role_get_id c st R) (AK_get_table_obj_id c st T) "UPDATE" = c.EXIT_SUCCESS ∧
    AK_check_role_privilege c (AK_grant_privilege_role c st R T "ALL").2
      (AK_role_get_id c st R) (AK_get_table_obj_id c st T) "DELETE" = c.EXIT_SUCCESS ∧
    AK_check_role_privilege c (AK_grant_privilege_role c st R T "ALL").2
      (AK_role_get_id c st R) (AK_get_table_obj_id c st T) "ALL" = c.EXIT_ERROR := by
  have hst : (AK_grant_privilege_role c st R T "ALL").2 =
      (grant_privilege st .role (AK_role_get_id c st R) (AK_get_table_obj_id c st T) "ALL").2 :=
    AK_grant_privilege_store .role c st R T "ALL" hr ht
  have hrows : (AK_grant_privilege_role c st R T "ALL").2.AK_role_right =
      st.AK_role_right ++ spec_granted_rows st.last_id (AK_role_get_id c st R)
        (AK_get_table_obj_id c st T) "ALL" := by
    rw [hst]
    exact grant_privilege_rights st .role _ _ "ALL"
  obtain ⟨f1, f2, f3, f4, _⟩ := grant_privilege_frame st .role (AK_role_get_id c st R)
    (AK_get_table_obj_id c st T) "ALL"
  have hold : st.AK_role_right.any (fun row =>
      decide (row.subject_id = AK_role_get_id c st R) &&
      decide (row.artifact_id = AK_get_table_obj_id c st T) &&
      decide (row.right_type = "ALL")) = false := by
    rw [List.any_eq_false]
    intro row hrow
    have := hnone row hrow
    simp only [Bool.and_eq_true, decide_eq_true_eq, not_and]
    intro h
    exact absurd h this
  refine ⟨by simp [AK_grant_privilege_role, hr, ht], ?_, ?_, ?_, ?_, ?_, ?_, ?_⟩
  · rw [hst]
    exact AK_subject_get_id_congr .role c st _ R f1 f2 f3
  · rw [hst]
    exact AK_get_table_obj_id_congr c st _ T f4
  · simp [AK_check_role_privilege, hrows, spec_granted_rows]
  · simp [AK_check_role_privilege, hrows, spec_granted_rows]
  · simp [AK_check_role_privilege, hrows, spec_granted_rows]
  · simp [AK_check_role_privilege, hrows, spec_granted_rows]
  · simp only [AK_check_role_privilege, hrows, List.any_append, hold, spec_granted_rows]
    simp

/-- Witness of `C17_role_grant_all_then_check`: in `store_ledgers` the role
`"r"` (id 3) holds no row; after the grant of `"ALL"` on `"t"` (object id 7)
the check of `SELECT` returns `EXIT_SUCCESS` and the check of `"ALL"` returns
`EXIT_ERROR`. -/
theorem C17_role_grant_all_then_check_witness :
    AK_check_role_privilege env_example
      (AK_grant_privilege_role env_example store_ledgers "r" "t" "ALL").2 3 7 "SELECT" = 0 ∧
    AK_check_role_privilege env_example
      (AK_grant_privilege_role env_example store_ledgers "r" "t" "ALL").2 3 7 "ALL" = -1 :=
  have h := C17_role_grant_all_then_check env_example store_ledgers "r" "t"
    (by decide) (by decide) (by decide)
  ⟨h.2.2.2.1, h.2.2.2.2.2.2.2⟩
/-! ### The ids written to the ledgers and the memberships -/

/-- The empty store holds no id at all. -/
theorem store_empty_subject_ids_are_chars : store_empty.subject_ids_are_chars := by
  decide

/-- The grants to a user and to a group write a resolved id, one byte of an
id, as subject. -/
theorem grant_keeps_subject_ids_chars (c : Env) (st : Store) (name table right : String)
    (h : st.subject_ids_are_chars) :
    (AK_grant_privilege_user c st name table right).2.subject_ids_are_chars ∧
    (AK_grant_privilege_group c st name table right).2.subject_ids_are_chars := by
  obtain ⟨h1, h2, h3⟩ := h
  have hin : ∀ (l s t : Int) (row : RightRow), AK_char s = s →
      row ∈ spec_granted_rows l s t right → AK_char row.subject_id = row.subject_id := by
    intro l s t row hs hrow
    unfold spec_granted_rows at hrow
    split at hrow
    · simp only [List.mem_cons, List.mem_singleton, List.not_mem_nil, or_false] at hrow
      rcases hrow with h | h | h | h <;> (subst h; exact hs)
    · simp only [List.mem_singleton] at hrow
      subst hrow
      exact hs
  constructor
  · by_cases hr : AK_get_table_obj_id c st table = c.EXIT_ERROR ∨
        AK_user_get_id c st name = c.EXIT_ERROR
    · simp only [AK_grant_privilege_user, if_pos hr]
      exact ⟨h1, h2, h3⟩
    · have hu : AK_user_get_id c st name ≠ c.EXIT_ERROR := fun e => hr (Or.inr e)
      simp only [AK_grant_privilege_user, if_neg hr]
      have hrows := grant_privilege_rights st .user (AK_user_get_id c st name)
        (AK_get_table_obj_id c st table) right
      have hfr : ∀ k : Ledger, k ≠ .user →
          (grant_privilege st .user (AK_user_get_id c st name)
            (AK_get_table_obj_id c st table) right).2.rights k = st.rights k := by
        intro k hk
        unfold grant_privilege
        cases k <;> first
          | exact absurd rfl hk
          | (split <;> simp [grant_row_eq, Store.rights, Store.setRights])
      have hug : (grant_privilege st .user (AK_user_get_id c st name)
            (AK_get_table_obj_id c st table) right).2.AK_user_group = st.AK_user_group := by
        unfold grant_privilege
        split <;> simp [grant_row_eq]
      refine ⟨?_, ?_, ?_⟩
      · intro row hrow
        have hrow1 : row ∈ (grant_privilege st .user (AK_user_get_id c st name)
            (AK_get_table_obj_id c st table) right).2.rights .user := hrow
        rw [hrows] at hrow1
        rcases List.mem_append.1 hrow1 with h | h
        · exact h1 row h
        · exact hin _ _ _ row (AK_user_get_id_is_char c st name hu) h
      · intro row hrow
        have hrow1 : row ∈ (grant_privilege st .user (AK_user_get_id c st name)
            (AK_get_table_obj_id c st table) right).2.rights .group := hrow
        rw [hfr .group (by decide)] at hrow1
        exact h2 row hrow1
      · rw [hug]
        exact h3
  · by_cases hr : AK_get_table_obj_id c st table = c.EXIT_ERROR ∨
        AK_group_get_id c st name = c.EXIT_ERROR
    · simp only [AK_grant_privilege_group, if_pos hr]
      exact ⟨h1, h2, h3⟩
    · have hg : AK_group_get_id c st name ≠ c.EXIT_ERROR := fun e => hr (Or.inr e)
      simp only [AK_grant_privilege_group, if_neg hr]
      have hrows := grant_privilege_rights st .group (AK_group_get_id c st name)
        (AK_get_table_obj_id c st table) right
      have hfr : ∀ k : Ledger, k ≠ .group →
          (grant_privilege st .group (AK_group_get_id c st name)
            (AK_get_table_obj_id c st table) right).2.rights k = st.rights k := by
        intro k hk
        unfold grant_privilege
        cases k <;> first
          | exact absurd rfl hk
          | (split <;> simp [grant_row_eq, Store.rights, Store.setRights])
      have hug : (grant_privilege st .group (AK_group_get_id c st name)
            (AK_get_table_obj_id c st table) right).2.AK_user_group = st.AK_user_group := by
        unfold grant_privilege
        split <;> simp [grant_row_eq]
      refine ⟨?_, ?_, ?_⟩
      · intro row hrow
        have hrow1 : row ∈ (grant_privilege st .group (AK_group_get_id c st name)
            (AK_get_table_obj_id c st table) right).2.rights .user := hrow
        rw [hfr .user (by decide)] at hrow1
        exact h1 row hrow1
      · intro row hrow
        have hrow1 : row ∈ (grant_privilege st .group (AK_group_get_id c st name)
            (AK_get_table_obj_id c st table) right).2.rights .group := hrow
        rw [hrows] at hrow1
        rcases List.mem_append.1 hrow1 with h | h
        · exact h2 row h
        · exact hin _ _ _ row (AK_group_get_id_is_char c st name hg) h
      · rw [hug]
        exact h3

/-- `AK_add_user_to_group` writes two resolved ids. -/
theorem add_user_to_group_keeps_subject_ids_chars (c : Env) (st : Store) (user group : String)
    (h : st.subject_ids_are_chars) :
    (AK_add_user_to_group c st user group).2.subject_ids_are_chars := by
  obtain ⟨h1, h2, h3⟩ := h
  unfold AK_add_user_to_group
  simp only
  split
  · exact ⟨h1, h2, h3⟩
  · rename_i hr
    have hu : AK_user_get_id c st user ≠ c.EXIT_ERROR := fun e => hr (Or.inr e)
    have hg : AK_group_get_id c st group ≠ c.EXIT_ERROR := fun e => hr (Or.inl e)
    split
    · exact ⟨h1, h2, h3⟩
    · refine ⟨h1, h2, ?_⟩
      intro row hrow
      rcases List.mem_append.1 hrow with h | h
      · exact h3 row h
      · rw [List.mem_singleton] at h
        subst h
        exact ⟨AK_user_get_id_is_char c st user hu, AK_group_get_id_is_char c st group hg⟩
/-! ### Any privilege, by resolved id -/

/-- The test of the scans of `AK_check_user_privilege` and
`AK_check_group_privilege`: on a column of values of the range of `char`, one
byte of a row equals the id exactly when the column does. -/
theorem any_char_eq_iff {α : Type} (rows : List α) (col : α → Int) (id : Int)
    (hchar : ∀ row ∈ rows, AK_char (col row) = col row) :
    rows.any (fun row => decide (AK_char (col row) = id)) = true ↔
      ∃ row ∈ rows, col row = id := by
  rw [List.any_eq_true]
  constructor
  · rintro ⟨row, hr, h⟩
    rw [decide_eq_true_eq, hchar row hr] at h
    exact ⟨row, hr, h⟩
  · rintro ⟨row, hr, h⟩
    exact ⟨row, hr, by rw [decide_eq_true_eq, hchar row hr]; exact h⟩

/-- The checks for any privilege in terms of the id the name resolves to, which
is one byte of the id of the user or group.  On a store whose ledgers and
memberships hold resolved ids, for a name that resolves
`AK_check_user_privilege` returns `EXIT_SUCCESS` if and only if `AK_user_right`
holds a row that carries the resolved id as subject or `AK_user_group` holds a
row that carries it as user, and `EXIT_ERROR` otherwise; `AK_check_group_privilege`
returns `EXIT_SUCCESS` if and only if `AK_group_right` holds a row that carries
the resolved id.  When rows carry the resolved id and no membership does, the
bulk revoke (its deletions carried out) succeeds and `AK_check_user_privilege`
returns `EXIT_ERROR` right after it. -/
theorem check_any_privilege_by_resolved_id (c : Env) (st : Store) (u g : String)
    (hdist : c.EXIT_SUCCESS ≠ c.EXIT_ERROR)
    (hchars : st.subject_ids_are_chars) :
    (AK_user_get_id c st u ≠ c.EXIT_ERROR →
      (AK_check_user_privilege c st u = c.EXIT_SUCCESS ↔
        (∃ row ∈ st.AK_user_right, row.subject_id = AK_user_get_id c st u) ∨
        (∃ row ∈ st.AK_user_group, row.user_id = AK_user_get_id c st u)) ∧
      (AK_check_user_privilege c st u = c.EXIT_SUCCESS ∨
        AK_check_user_privilege c st u = c.EXIT_ERROR)) ∧
    (AK_group_get_id c st g ≠ c.EXIT_ERROR →
      (AK_check_group_privilege c st g = c.EXIT_SUCCESS ↔
        ∃ row ∈ st.AK_group_right, row.subject_id = AK_group_get_id c st g) ∧
      (AK_check_group_privilege c st g = c.EXIT_SUCCESS ∨
        AK_check_group_privilege c st g = c.EXIT_ERROR)) ∧
    (AK_user_get_id c st u ≠ c.EXIT_ERROR →
      (∀ b ∈ st.delete_faults, b = false) →
      (∃ row ∈ st.AK_user_right, row.subject_id = AK_user_get_id c st u) →
      (∀ row ∈ st.AK_user_group, row.user_id ≠ AK_user_get_id c st u) →
      ∃ st1, AK_revoke_all_privileges_user c st u = some (c.EXIT_SUCCESS, st1) ∧
        AK_check_user_privilege c st1 u = c.EXIT_ERROR) := by
  obtain ⟨h1, h2, h3⟩ := hchars
  have user_iff : ∀ st0 : Store, AK_user_get_id c st0 u ≠ c.EXIT_ERROR →
      (∀ row ∈ st0.AK_user_right, AK_char row.subject_id = row.subject_id) →
      (∀ row ∈ st0.AK_user_group, AK_char row.user_id = row.user_id) →
      (AK_check_user_privilege c st0 u = c.EXIT_SUCCESS ↔
        (∃ row ∈ st0.AK_user_right, row.subject_id = AK_user_get_id c st0 u) ∨
        (∃ row ∈ st0.AK_user_group, row.user_id = AK_user_get_id c st0 u)) ∧
      (AK_check_user_privilege c st0 u = c.EXIT_SUCCESS ∨
        AK_check_user_privilege c st0 u = c.EXIT_ERROR) := by
    intro st0 hu k1 k3
    have a1 := any_char_eq_iff st0.AK_user_right (fun r => r.subject_id)
      (AK_user_get_id c st0 u) k1
    have a2 := any_char_eq_iff st0.AK_user_group (fun r => r.user_id)
      (AK_user_get_id c st0 u) k3
    simp only [AK_check_user_privilege, if_neg hu]
    split
    · rename_i h
      exact ⟨⟨fun _ => Or.inl (a1.1 h), fun _ => rfl⟩, Or.inl rfl⟩
    · rename_i h
      split
      · rename_i h'
        exact ⟨⟨fun _ => Or.inr (a2.1 h'), fun _ => rfl⟩, Or.inl rfl⟩
      · rename_i h'
        refine ⟨⟨fun he => absurd he.symm hdist, fun hex => ?_⟩, Or.inr rfl⟩
        rcases hex with hex | hex
        · exact absurd (a1.2 hex) h
        · exact absurd (a2.2 hex) h'
  refine ⟨fun hu => user_iff st hu h1 (fun row hr => (h3 row hr).1), ?_, ?_⟩
  · intro hg
    have a1 := any_char_eq_iff st.AK_group_right (fun r => r.subject_id)
      (AK_group_get_id c st g) h2
    simp only [AK_check_group_privilege, if_neg hg]
    split
    · rename_i h
      exact ⟨⟨fun _ => a1.1 h, fun _ => rfl⟩, Or.inl rfl⟩
    · rename_i h
      exact ⟨⟨fun he => absurd he.symm hdist, fun hex => absurd (a1.2 hex) h⟩, Or.inr rfl⟩
  · intro hu hok hrow hnog
    obtain ⟨st1, e1, e2, e3, _, e5⟩ := revoke_all_privileges_ok c st .user
      (AK_user_get_id c st u) hok (AK_user_get_id_is_char c st u hu) hrow
    have hid : AK_user_get_id c st1 u = AK_user_get_id c st u := by
      simp only [AK_user_get_id, e3]
    have hrights : st1.AK_user_right =
        st.AK_user_right.filter (fun r => !decide (r.subject_id = AK_user_get_id c st u)) :=
      e2
    refine ⟨st1, by simp only [AK_revoke_all_privileges_user, if_neg hu, e1], ?_⟩
    have hu1 : AK_user_get_id c st1 u ≠ c.EXIT_ERROR := by rw [hid]; exact hu
    obtain ⟨hiff, hor⟩ := user_iff st1 hu1
      (fun row hr => h1 row (by rw [hrights] at hr; exact (List.mem_filter.1 hr).1))
      (fun row hr => (h3 row (by rw [e5] at hr; exact hr)).1)
    rcases hor with hs | he
    · rcases hiff.1 hs with ⟨row, hr, hsub⟩ | ⟨row, hr, hsub⟩
      · rw [hrights] at hr
        have := (List.mem_filter.1 hr).2
        rw [hid] at hsub
        simp [hsub] at this
      · rw [e5] at hr
        rw [hid] at hsub
        exact absurd hsub (hnog row hr)
    · exact he
/-! ### The result of revoke `"ALL"` -/

/-- With no fault scheduled, a scan that starts with the result `EXIT_SUCCESS`
ends with it, and no fault is scheduled afterwards. -/
theorem revoke_all_scan_success_stays (c : Env) (k : Ledger) (s t : Int) (right : String)
    (n i : Nat) (st : Store) (hok : ∀ b ∈ st.delete_faults, b = false) :
    (revoke_all_scan c k s t right n i c.EXIT_SUCCESS st).1 = c.EXIT_SUCCESS ∧
    (∀ b ∈ (revoke_all_scan c k s t right n i c.EXIT_SUCCESS st).2.delete_faults,
      b = false) := by
  induction n generalizing i st with
  | zero => exact ⟨rfl, hok⟩
  | succ n ih =>
    simp only [revoke_all_scan]
    cases (st.rights k)[i]? with
    | none => exact ⟨rfl, hok⟩
    | some row =>
      simp only
      split
      · obtain ⟨d1, _, d3⟩ :=
          AK_delete_row_rights_no_fault c st k (fun r => decide (r.obj_id = row.obj_id)) hok
        rw [d1]
        exact ih (i + 1) _ d3
      · exact ih (i + 1) st hok

/-- With no fault scheduled, a scan that meets a matching row at index `i` or
later ends with the result `EXIT_SUCCESS`. -/
theorem revoke_all_scan_found (c : Env) (k : Ledger) (s t : Int) (right : String)
    (n i : Nat) (result : Int) (st : Store)
    (hok : ∀ b ∈ st.delete_faults, b = false)
    (hrow : ∃ j row, i ≤ j ∧ (st.rights k)[j]? = some row ∧
      revoke_match s t right row = true)
    (hn : (st.rights k).length ≤ i + n) :
    (revoke_all_scan c k s t right n i result st).1 = c.EXIT_SUCCESS ∧
    (∀ b ∈ (revoke_all_scan c k s t right n i result st).2.delete_faults, b = false) := by
  induction n generalizing i with
  | zero =>
    obtain ⟨j, row, hj, hget, _⟩ := hrow
    have : (st.rights k)[j]? = none := List.getElem?_eq_none (by omega)
    rw [this] at hget
    cases hget
  | succ n ih =>
    simp only [revoke_all_scan]
    cases hi : (st.rights k)[i]? with
    | none =>
      obtain ⟨j, row, hj, hget, _⟩ := hrow
      have hlen : (st.rights k).length ≤ i := by
        by_contra hcon
        rw [List.getElem?_eq_getElem (by omega)] at hi
        cases hi
      have : (st.rights k)[j]? = none := List.getElem?_eq_none (by omega)
      rw [this] at hget
      cases hget
    | some r0 =>
      simp only
      split
      · obtain ⟨d1, _, d3⟩ :=
          AK_delete_row_rights_no_fault c st k (fun r => decide (r.obj_id = r0.obj_id)) hok
        rw [d1]
        exact revoke_all_scan_success_stays c k s t right n (i + 1) _ d3
      · rename_i hne
        obtain ⟨j, row, hj, hget, hm⟩ := hrow
        have hji : j ≠ i := by
          intro h
          subst h
          rw [hi] at hget
          cases hget
          exact hne hm
        exact ih (i + 1) ⟨j, row, by omega, hget, hm⟩ (by omega)

/-- One right of revoke `"ALL"` on a ledger without a matching row keeps the
result of the rights before it and the store. -/
theorem revoke_all_right_none (c : Env) (k : Ledger) (s t : Int) (right : String)
    (p : Int × Store) (h : ∀ row ∈ p.2.rights k, revoke_match s t right row = false) :
    revoke_all_right c k s t right p = p := by
  unfold revoke_all_right
  exact revoke_all_scan_no_match c k s t right _ 0 p.1 p.2
    (fun j row _ hrow => h row (List.getElem?_mem hrow))

/-- One right of revoke `"ALL"` that starts with the result `EXIT_SUCCESS` ends
with it when no fault is scheduled. -/
theorem revoke_all_right_stays (c : Env) (k : Ledger) (s t : Int) (right : String)
    (p : Int × Store) (h1 : p.1 = c.EXIT_SUCCESS) (hok : ∀ b ∈ p.2.delete_faults, b = false) :
    (revoke_all_right c k s t right p).1 = c.EXIT_SUCCESS ∧
    (∀ b ∈ (revoke_all_right c k s t right p).2.delete_faults, b = false) := by
  unfold revoke_all_right
  rw [h1]
  exact revoke_all_scan_success_stays c k s t right _ 0 p.2 hok

/-- One right of revoke `"ALL"` on a ledger with a matching row ends with the
result `EXIT_SUCCESS` when no fault is scheduled. -/
theorem revoke_all_right_found (c : Env) (k : Ledger) (s t : Int) (right : String)
    (p : Int × Store) (hok : ∀ b ∈ p.2.delete_faults, b = false)
    (h : ∃ row ∈ p.2.rights k, revoke_match s t right row = true) :
    (revoke_all_right c k s t right p).1 = c.EXIT_SUCCESS ∧
    (∀ b ∈ (revoke_all_right c k s t right p).2.delete_faults, b = false) := by
  obtain ⟨row, hmem, hm⟩ := h
  obtain ⟨j, hj, hget⟩ := List.getElem_of_mem hmem
  unfold revoke_all_right
  exact revoke_all_scan_found c k s t right _ 0 p.1 p.2 hok
    ⟨j, row, by omega, by rw [List.getElem?_eq_getElem hj, hget], hm⟩ (by omega)

/-! ### The calls of revoke `"ALL"` -/

/-- The scan with the list of calls and `revoke_all_scan` run side by side: when
`result` is the value of the last call made so far, or `e` if none was made,
the two scans end with the same store, and the result of `revoke_all_scan` is
the value of the last call of the list, or `e`. -/
theorem revoke_all_scan_eq_calls (c : Env) (k : Ledger) (s t : Int) (right : String)
    (e : Int) (n i : Nat) (calls : List Int) (st : Store) :
    revoke_all_scan c k s t right n i (calls.getLast?.getD e) st =
      (((revoke_all_scan_calls c k s t right n i calls st).1.getLast?).getD e,
        (revoke_all_scan_calls c k s t right n i calls st).2) := by
  induction n generalizing i calls st with
  | zero => rfl
  | succ n ih =>
    simp only [revoke_all_scan, revoke_all_scan_calls]
    cases (st.rights k)[i]? with
    | none => rfl
    | some row =>
      simp only
      split
      · have h := ih (i + 1)
          (calls ++ [(AK_delete_row_rights c st k (fun r => decide (r.obj_id = row.obj_id))).1])
          (AK_delete_row_rights c st k (fun r => decide (r.obj_id = row.obj_id))).2
        simpa using h
      · exact ih (i + 1) calls st

/-- One right of revoke `"ALL"` and its list of calls. -/
theorem revoke_all_right_eq_calls (c : Env) (k : Ledger) (s t : Int) (right : String)
    (e : Int) (p : List Int × Store) :
    revoke_all_right c k s t right (p.1.getLast?.getD e, p.2) =
      (((revoke_all_right_calls c k s t right p).1.getLast?).getD e,
        (revoke_all_right_calls c k s t right p).2) := by
  unfold revoke_all_right revoke_all_right_calls
  exact revoke_all_scan_eq_calls c k s t right e _ 0 p.1 p.2

/-- The `"ALL"` branch of `revoke_privilege` returns the value of the last
`AK_delete_row` call it made, `EXIT_ERROR` if it made none, and ends in the
store of `revoke_all_calls`. -/
theorem revoke_privilege_all_eq_calls (c : Env) (st : Store) (k : Ledger) (s t : Int) :
    revoke_privilege c st k s t "ALL" =
      (((revoke_all_calls c st k s t).1.getLast?).getD c.EXIT_ERROR,
        (revoke_all_calls c st k s t).2) := by
  have h0 : (c.EXIT_ERROR, st) =
      ((([] : List Int), st).1.getLast?.getD c.EXIT_ERROR, (([] : List Int), st).2) := rfl
  simp only [revoke_privilege, if_true, revoke_all_calls]
  rw [h0, revoke_all_right_eq_calls, revoke_all_right_eq_calls, revoke_all_right_eq_calls,
    revoke_all_right_eq_calls]

/-- The value and the schedule after one `AK_delete_row` call on a ledger. -/
theorem AK_delete_row_rights_schedule (c : Env) (st : Store) (k : Ledger)
    (p : RightRow → Bool) :
    (AK_delete_row_rights c st k p).1 =
      (if st.delete_faults.head?.getD false then c.EXIT_ERROR else c.EXIT_SUCCESS) ∧
    (AK_delete_row_rights c st k p).2.delete_faults = st.delete_faults.tail := by
  unfold AK_delete_row_rights Store.delete_outcome
  cases hf : st.delete_faults with
  | nil => cases k <;> simp [Store.setRights, hf]
  | cons f fs => cases f <;> cases k <;> simp [Store.setRights]

/-- The calls listed by the scan are answered by the schedule in order: when the
list holds the scheduled results of the calls `0` to `calls.length - 1` of the
schedule `fs` and the store holds the rest of `fs`, so it is at the end of the
scan. -/
theorem revoke_all_scan_calls_schedule (c : Env) (k : Ledger) (s t : Int)
    (right : String) (fs : List Bool) (n i : Nat) (calls : List Int) (st : Store)
    (h1 : st.delete_faults = fs.drop calls.length)
    (h2 : calls = (List.range calls.length).map
      (fun j => if fs.getD j false then c.EXIT_ERROR else c.EXIT_SUCCESS)) :
    (revoke_all_scan_calls c k s t right n i calls st).2.delete_faults =
      fs.drop (revoke_all_scan_calls c k s t right n i calls st).1.length ∧
    (revoke_all_scan_calls c k s t right n i calls st).1 =
      (List.range (revoke_all_scan_calls c k s t right n i calls st).1.length).map
        (fun j => if fs.getD j false then c.EXIT_ERROR else c.EXIT_SUCCESS) := by
  induction n generalizing i calls st with
  | zero => exact ⟨h1, h2⟩
  | succ n ih =>
    simp only [revoke_all_scan_calls]
    cases (st.rights k)[i]? with
    | none => exact ⟨h1, h2⟩
    | some row =>
      simp only
      split
      · obtain ⟨d1, d2⟩ :=
          AK_delete_row_rights_schedule c st k (fun r => decide (r.obj_id = row.obj_id))
        apply ih
        · rw [d2, h1, List.tail_drop, List.length_append, List.length_singleton]
        · rw [List.length_append, List.length_singleton, List.range_succ, List.map_append,
            ← h2, d1, h1, List.head?_drop]
          simp [List.getD_eq_getElem?_getD]
      · exact ih (i + 1) calls st h1 h2

/-- The calls of a revoke of `"ALL"` are answered by the schedule of the store in
order, and the store afterwards holds the rest of the schedule. -/
theorem revoke_all_calls_schedule (c : Env) (st : Store) (k : Ledger) (s t : Int) :
    (revoke_all_calls c st k s t).1 =
      (List.range (revoke_all_calls c st k s t).1.length).map (scheduled_result c st) ∧
    (revoke_all_calls c st k s t).2.delete_faults =
      st.delete_faults.drop (revoke_all_calls c st k s t).1.length := by
  have step : ∀ (right : String) (p : List Int × Store),
      (p.2.delete_faults = st.delete_faults.drop p.1.length ∧
        p.1 = (List.range p.1.length).map
          (fun j => if st.delete_faults.getD j false then c.EXIT_ERROR else c.EXIT_SUCCESS)) →
      ((revoke_all_right_calls c k s t right p).2.delete_faults =
          st.delete_faults.drop (revoke_all_right_calls c k s t right p).1.length ∧
        (revoke_all_right_calls c k s t right p).1 =
          (List.range (revoke_all_right_calls c k s t right p).1.length).map
            (fun j => if st.delete_faults.getD j false then c.EXIT_ERROR
              else c.EXIT_SUCCESS)) := by
    intro right p hp
    unfold revoke_all_right_calls
    exact revoke_all_scan_calls_schedule c k s t right st.delete_faults _ 0 p.1 p.2 hp.1 hp.2
  have h0 : (([] : List Int), st).2.delete_faults =
        st.delete_faults.drop (([] : List Int), st).1.length ∧
      (([] : List Int), st).1 = (List.range (([] : List Int), st).1.length).map
        (fun j => if st.delete_faults.getD j false then c.EXIT_ERROR else c.EXIT_SUCCESS) := by
    simp
  have h4 := step "SELECT" _ (step "INSERT" _ (step "DELETE" _ (step "UPDATE" _ h0)))
  exact ⟨h4.2, h4.1⟩
/-! ### C19 -/

/-- C19 (counterexample).  In `store_update_only` the user `"u"` and the role
`"r"` hold an `UPDATE` row on `"t"` and no `SELECT` row: the revoke of `"ALL"`
deletes the `UPDATE` row and returns `EXIT_SUCCESS`, although no `SELECT` row
was found. -/
theorem C19_revoke_all_success_without_select :
    (∀ row ∈ store_update_only.AK_user_right, row.right_type ≠ "SELECT") ∧
    (∀ row ∈ store_update_only.AK_role_right, row.right_type ≠ "SELECT") ∧
    env_example.EXIT_SUCCESS = 0 ∧ env_example.EXIT_ERROR = -1 ∧
    (AK_revoke_privilege_user env_example store_update_only "u" "t" "ALL").1 = 0 ∧
    (AK_revoke_privilege_user env_example store_update_only "u" "t" "ALL").2.AK_user_right =
      [] ∧
    (AK_revoke_privilege_role env_example store_update_only "r" "t" "ALL").1 = 0 ∧
    (AK_revoke_privilege_role env_example store_update_only "r" "t" "ALL").2.AK_role_right =
      [] := by
  decide

/-- C19 (amended).  `result` is set by every `AK_delete_row` call and never
reset between the rights, so the revoke of `"ALL"` returns the value of the last
`AK_delete_row` call it made, for whichever right, and `EXIT_ERROR` when it made
none.  For the three ledgers, subject and table resolving: the call returns the
last element of the list of the values of its `AK_delete_row` calls
(`revoke_all_calls`), or `EXIT_ERROR` when the list is empty, and ends in the
store of `revoke_all_calls`; the calls are answered by the schedule of the store
in order, the `j`-th call by `scheduled_result c st j`, and the rest of the
schedule is left in the store.  Hence: when the ledger holds no row of the
subject on the table with one of the four rights, the call returns `EXIT_ERROR`
and changes nothing; when no deletion fails, it returns `EXIT_SUCCESS` if and
only if the ledger holds such a row. -/
theorem C19_revoke_all_result (k : Ledger) (c : Env) (st : Store) (S T : String)
    (hdist : c.EXIT_SUCCESS ≠ c.EXIT_ERROR)
    (hs : AK_subject_get_id k c st S ≠ c.EXIT_ERROR)
    (ht : AK_get_table_obj_id c st T ≠ c.EXIT_ERROR) :
    (AK_revoke_privilege k c st S T "ALL" =
      (((revoke_all_calls c st k (AK_subject_get_id k c st S)
          (AK_get_table_obj_id c st T)).1.getLast?).getD c.EXIT_ERROR,
        (revoke_all_calls c st k (AK_subject_get_id k c st S)
          (AK_get_table_obj_id c st T)).2)) ∧
    ((revoke_all_calls c st k (AK_subject_get_id k c st S) (AK_get_table_obj_id c st T)).1 =
      (List.range (revoke_all_calls c st k (AK_subject_get_id k c st S)
        (AK_get_table_obj_id c st T)).1.length).map (scheduled_result c st)) ∧
    ((revoke_all_calls c st k (AK_subject_get_id k c st S)
        (AK_get_table_obj_id c st T)).2.delete_faults =
      st.delete_faults.drop (revoke_all_calls c st k (AK_subject_get_id k c st S)
        (AK_get_table_obj_id c st T)).1.length) ∧
    ((∀ row ∈ st.rights k, ¬ (row.subject_id = AK_subject_get_id k c st S ∧
        row.artifact_id = AK_get_table_obj_id c st T ∧ row.right_type ∈ all_rights)) →
      AK_revoke_privilege k c st S T "ALL" = (c.EXIT_ERROR, st)) ∧
    ((∀ b ∈ st.delete_faults, b = false) →
      ((AK_revoke_privilege k c st S T "ALL").1 = c.EXIT_SUCCESS ↔
        ∃ row ∈ st.rights k, row.subject_id = AK_subject_get_id k c st S ∧
          row.artifact_id = AK_get_table_obj_id c st T ∧ row.right_type ∈ all_rights)) := by
  refine ⟨?_, (revoke_all_calls_schedule c st k _ _).1,
    (revoke_all_calls_schedule c st k _ _).2, ?_⟩
  · rw [AK_revoke_privilege_eq k c st S T "ALL" hs ht]
    exact revoke_privilege_all_eq_calls c st k _ _
  rw [AK_revoke_privilege_eq k c st S T "ALL" hs ht]
  generalize AK_subject_get_id k c st S = s
  generalize AK_get_table_obj_id c st T = t
  have hm : ∀ (right : String) (row : RightRow), revoke_match s t right row = true ↔
      (row.subject_id = s ∧ row.artifact_id = t ∧ row.right_type = right) := by
    intro right row
    simp [revoke_match, and_assoc]
  have hdef : revoke_privilege c st k s t "ALL" =
      revoke_all_right c k s t "SELECT" (revoke_all_right c k s t "INSERT"
        (revoke_all_right c k s t "DELETE"
          (revoke_all_right c k s t "UPDATE" (c.EXIT_ERROR, st)))) := by
    simp [revoke_privilege]
  have hnone : (∀ row ∈ st.rights k, ¬ (row.subject_id = s ∧ row.artifact_id = t ∧
      row.right_type ∈ all_rights)) →
      revoke_privilege c st k s t "ALL" = (c.EXIT_ERROR, st) := by
    intro h
    have hno : ∀ right ∈ all_rights, ∀ row ∈ st.rights k,
        revoke_match s t right row = false := by
      intro right hright row hrow
      cases hx : revoke_match s t right row with
      | false => rfl
      | true =>
        obtain ⟨h1, h2, h3⟩ := (hm right row).1 hx
        exact absurd ⟨h1, h2, by rw [h3]; exact hright⟩ (h row hrow)
    rw [hdef, revoke_all_right_none c k s t "UPDATE" _ (hno "UPDATE" (by decide)),
      revoke_all_right_none c k s t "DELETE" _ (hno "DELETE" (by decide)),
      revoke_all_right_none c k s t "INSERT" _ (hno "INSERT" (by decide)),
      revoke_all_right_none c k s t "SELECT" _ (hno "SELECT" (by decide))]
  refine ⟨hnone, fun hok => ⟨fun hres => ?_, fun hex => ?_⟩⟩
  · by_contra hcon
    have := hnone (fun row hrow hrow3 => hcon ⟨row, hrow, hrow3⟩)
    rw [this] at hres
    exact hdist hres.symm
  · rw [hdef]
    by_cases hU : ∃ row ∈ st.rights k, revoke_match s t "UPDATE" row = true
    · obtain ⟨a1, a2⟩ := revoke_all_right_found c k s t "UPDATE" (c.EXIT_ERROR, st) hok hU
      obtain ⟨b1, b2⟩ := revoke_all_right_stays c k s t "DELETE" _ a1 a2
      obtain ⟨c1, c2⟩ := revoke_all_right_stays c k s t "INSERT" _ b1 b2
      exact (revoke_all_right_stays c k s t "SELECT" _ c1 c2).1
    · have hU1 : ∀ row ∈ st.rights k, revoke_match s t "UPDATE" row = false := by
        intro row hrow
        cases hx : revoke_match s t "UPDATE" row with
        | false => rfl
        | true => exact absurd ⟨row, hrow, hx⟩ hU
      rw [revoke_all_right_none c k s t "UPDATE" _ hU1]
      by_cases hD : ∃ row ∈ st.rights k, revoke_match s t "DELETE" row = true
      · obtain ⟨b1, b2⟩ := revoke_all_right_found c k s t "DELETE" (c.EXIT_ERROR, st) hok hD
        obtain ⟨c1, c2⟩ := revoke_all_right_stays c k s t "INSERT" _ b1 b2
        exact (revoke_all_right_stays c k s t "SELECT" _ c1 c2).1
      · have hD1 : ∀ row ∈ st.rights k, revoke_match s t "DELETE" row = false := by
          intro row hrow
          cases hx : revoke_match s t "DELETE" row with
          | false => rfl
          | true => exact absurd ⟨row, hrow, hx⟩ hD
        rw [revoke_all_right_none c k s t "DELETE" _ hD1]
        by_cases hI : ∃ row ∈ st.rights k, revoke_match s t "INSERT" row = true
        · obtain ⟨c1, c2⟩ :=
            revoke_all_right_found c k s t "INSERT" (c.EXIT_ERROR, st) hok hI
          exact (revoke_all_right_stays c k s t "SELECT" _ c1 c2).1
        · have hI1 : ∀ row ∈ st.rights k, revoke_match s t "INSERT" row = false := by
            intro row hrow
            cases hx : revoke_match s t "INSERT" row with
            | false => rfl
            | true => exact absurd ⟨row, hrow, hx⟩ hI
          rw [revoke_all_right_none c k s t "INSERT" _ hI1]
          obtain ⟨row, hrow, h1, h2, h3⟩ := hex
          have hS : ∃ row ∈ st.rights k, revoke_match s t "SELECT" row = true := by
            simp only [all_rights, List.mem_cons, List.mem_singleton, List.not_mem_nil,
              or_false] at h3
            rcases h3 with h3 | h3 | h3 | h3
            · exact absurd ⟨row, hrow, (hm _ row).2 ⟨h1, h2, h3⟩⟩ hU
            · exact absurd ⟨row, hrow, (hm _ row).2 ⟨h1, h2, h3⟩⟩ hD
            · exact absurd ⟨row, hrow, (hm _ row).2 ⟨h1, h2, h3⟩⟩ hI
            · exact ⟨row, hrow, (hm _ row).2 ⟨h1, h2, h3⟩⟩
          exact (revoke_all_right_found c k s t "SELECT" (c.EXIT_ERROR, st) hok hS).1

/-- Witness of `C19_revoke_all_result`: in `store_update_select_fault` the user
holds an `UPDATE` row and a `SELECT` row, the deletion of the first succeeds and
the deletion of the second fails: the values of the two calls are
`EXIT_SUCCESS` and `EXIT_ERROR`, and the revoke of `"ALL"` returns `EXIT_ERROR`,
the value of the last call, and leaves the `SELECT` row. -/
theorem C19_revoke_all_result_witness :
    (revoke_all_calls env_example store_update_select_fault .user 1 7).1 = [0, -1] ∧
    AK_revoke_privilege .user env_example store_update_select_fault "u" "t" "ALL" =
      (-1, { store_update_select_fault with
        AK_user_right := [⟨6, 1, 7, "SELECT"⟩], delete_faults := [] }) :=
  ⟨by decide,
    (C19_revoke_all_result .user env_example store_update_select_fault "u" "t" (by decide)
      (by decide) (by decide)).1.trans (by decide)⟩
/-! ### C20 -/

/-- C20 (code defect).  `AK_user_add` and `AK_group_add` store the whole
identifier supplied, and `AK_user_get_id` and `AK_group_get_id` return one byte
of it: for an identifier outside the range of `char`, added under a name no row
carries, the add returns the identifier and the lookup of the name returns its
low byte, a different value. -/
theorem C20_get_id_after_add_wide (c : Env) (st : Store) (n p : String) (id : Int)
    (hwide : id < -128 ∨ 127 < id) :
    ((∀ r ∈ st.AK_user, r.username ≠ n) →
      (AK_user_add c st n p id).1 = id ∧
      (⟨id, n, c.hash_password p⟩ : UserRow) ∈ (AK_user_add c st n p id).2.AK_user ∧
      AK_user_get_id c (AK_user_add c st n p id).2 n = AK_char id ∧
      AK_user_get_id c (AK_user_add c st n p id).2 n ≠ id) ∧
    ((∀ r ∈ st.AK_group, r.name ≠ n) →
      (AK_group_add c st n id).1 = id ∧
      (⟨id, n⟩ : GroupRow) ∈ (AK_group_add c st n id).2.AK_group ∧
      AK_group_get_id c (AK_group_add c st n id).2 n = AK_char id ∧
      AK_group_get_id c (AK_group_add c st n id).2 n ≠ id) := by
  have h0 : id ≠ 0 := by omega
  have hne := AK_char_ne_of_wide id hwide
  constructor
  · intro hno
    obtain ⟨a1, a2⟩ := AK_user_add_free c st n p id hno
    rw [if_pos h0] at a1
    have hget := AK_user_get_id_after_add c st n p id hno
    rw [a1] at hget a2
    exact ⟨a1, by rw [a2]; simp, hget, by rw [hget]; exact hne⟩
  · intro hno
    obtain ⟨a1, a2⟩ := AK_group_add_free c st n id hno
    rw [if_pos h0] at a1
    have hget := AK_group_get_id_after_add c st n id hno
    rw [a1] at hget a2
    exact ⟨a1, by rw [a2]; simp, hget, by rw [hget]; exact hne⟩

/-- Witness of `C20_get_id_after_add_wide`: on the empty store, the user and the
group `"n"` are added with identifier 300, and the lookups return 44. -/
theorem C20_get_id_after_add_wide_witness :
    AK_user_get_id env_example (AK_user_add env_example store_empty "n" "p" 300).2 "n" = 44 ∧
    AK_group_get_id env_example (AK_group_add env_example store_empty "n" 300).2 "n" = 44 :=
  have h := C20_get_id_after_add_wide env_example store_empty "n" "p" 300 (by decide)
  ⟨(h.1 (by decide)).2.2.1, (h.2 (by decide)).2.2.1⟩
/-! ### C21 -/

/-- The revoke of one right on a ledger without a matching row returns
`EXIT_ERROR` and changes nothing. -/
theorem revoke_one_none (c : Env) (st : Store) (k : Ledger) (s t : Int) (right : String)
    (h : ∀ row ∈ st.rights k,
      ¬ (row.subject_id = s ∧ row.artifact_id = t ∧ row.right_type = right)) :
    revoke_one c st k s t right = (c.EXIT_ERROR, st) := by
  have hfind : (st.rights k).find? (revoke_match s t right) = none := by
    rw [List.find?_eq_none]
    intro row hrow hm
    simp only [revoke_match, Bool.and_eq_true, decide_eq_true_eq] at hm
    exact h row hrow ⟨hm.1.1, hm.1.2, hm.2⟩
  simp only [revoke_one, hfind]

/-- C21.  For the three ledgers: when the subject name or the table name does
not resolve, whatever the right, and when the right is not `"ALL"` and no row of
the ledger matches (subject, table, right), the revoke returns `EXIT_ERROR` and
leaves the store, hence the ledger, as it was. -/
theorem C21_revoke_unresolved_or_absent (k : Ledger) (c : Env) (st : Store)
    (S T right : String) :
    ((AK_subject_get_id k c st S = c.EXIT_ERROR ∨
        AK_get_table_obj_id c st T = c.EXIT_ERROR) →
      AK_revoke_privilege k c st S T right = (c.EXIT_ERROR, st)) ∧
    (right ≠ "ALL" →
      (∀ row ∈ st.rights k, ¬ (row.subject_id = AK_subject_get_id k c st S ∧
        row.artifact_id = AK_get_table_obj_id c st T ∧ row.right_type = right)) →
      AK_revoke_privilege k c st S T right = (c.EXIT_ERROR, st)) := by
  have hbad : (AK_subject_get_id k c st S = c.EXIT_ERROR ∨
      AK_get_table_obj_id c st T = c.EXIT_ERROR) →
      AK_revoke_privilege k c st S T right = (c.EXIT_ERROR, st) := by
    intro h
    cases k
    · have h1 : AK_get_table_obj_id c st T = c.EXIT_ERROR ∨
          AK_user_get_id c st S = c.EXIT_ERROR := h.symm
      simp only [AK_revoke_privilege, AK_revoke_privilege_user, if_pos h1]
    · have h1 : AK_group_get_id c st S = c.EXIT_ERROR ∨
          AK_get_table_obj_id c st T = c.EXIT_ERROR := h
      simp only [AK_revoke_privilege, AK_revoke_privilege_group, if_pos h1]
    · have h1 : AK_role_get_id c st S = c.EXIT_ERROR ∨
          AK_get_table_obj_id c st T = c.EXIT_ERROR := h
      simp only [AK_revoke_privilege, AK_revoke_privilege_role, if_pos h1]
  refine ⟨hbad, fun hall hnone => ?_⟩
  by_cases hres : AK_subject_get_id k c st S = c.EXIT_ERROR ∨
      AK_get_table_obj_id c st T = c.EXIT_ERROR
  · exact hbad hres
  · rw [AK_revoke_privilege_eq k c st S T right (fun e => hres (Or.inl e))
      (fun e => hres (Or.inr e))]
    simp only [revoke_privilege, if_neg hall]
    exact revoke_one_none c st k _ _ right hnone

/-- Witness of `C21_revoke_unresolved_or_absent`: in `store_held` the user `"u"`
holds `SELECT` on `"t"` and nothing else; the revoke of `UPDATE` returns
`EXIT_ERROR`, and so does a revoke on the unknown table `"nope"`. -/
theorem C21_revoke_unresolved_or_absent_witness :
    AK_revoke_privilege .user env_example store_held "u" "t" "UPDATE" = (-1, store_held) ∧
    AK_revoke_privilege .user env_example store_held "u" "nope" "SELECT" = (-1, store_held) :=
  ⟨(C21_revoke_unresolved_or_absent .user env_example store_held "u" "t" "UPDATE").2
      (by decide) (by decide),
    (C21_revoke_unresolved_or_absent .user env_example store_held "u" "nope" "SELECT").1
      (by decide)⟩
/-! ### The defined runs of `AK_check_privilege` -/

/-- A scan of the `"ALL"` branch that ends adds to the flags the rights found. -/
theorem check_all_scan_some (subject table_id : Int) (rows : List RightRow)
    (f f1 : CheckingPrivileges) (h : check_all_scan subject table_id rows f = some f1) :
    f1 =
      { p0 := f.p0 || check_right_scan subject table_id "UPDATE" rows
        p1 := f.p1 || check_right_scan subject table_id "DELETE" rows
        p2 := f.p2 || check_right_scan subject table_id "INSERT" rows
        p3 := f.p3 || check_right_scan subject table_id "SELECT" rows } := by
  induction rows generalizing f with
  | nil =>
    simp only [check_all_scan, Option.some.injEq] at h
    subst h
    simp [check_right_scan]
  | cons row rest ih =>
    by_cases hm : AK_char row.subject_id = subject ∧ table_id = AK_char row.artifact_id
    · rw [check_all_scan, if_pos hm] at h
      by_cases hrow : row.right_type.utf8ByteSize < 10
      · rw [if_pos hrow] at h
        rw [ih _ h]
        obtain ⟨h1, h2⟩ := hm
        simp only [check_right_scan] at *
        simp only [mark_found_privilege, List.any_cons, h1, ← h2, decide_True, Bool.true_and]
        congr 1 <;> (split <;> rename_i hr <;> simp [hr])
      · rw [if_neg hrow] at h
        cases h
    · rw [check_all_scan, if_neg hm] at h
      rw [ih _ h]
      have : (decide (AK_char row.subject_id = subject) &&
          decide (table_id = AK_char row.artifact_id)) = false := by
        simpa using hm
      simp [check_right_scan, List.any_cons, this]

/-- A collection of groups that ends has appended the groups of the user. -/
theorem collect_groups_some (user_id : Int) (rows : List UserGroupRow) (groups g1 : List Int)
    (h : collect_groups user_id rows groups = some g1) :
    g1 = groups ++ groups_of user_id rows := by
  induction rows generalizing groups with
  | nil =>
    simp only [collect_groups, Option.some.injEq] at h
    subst h
    simp [groups_of]
  | cons row rest ih =>
    by_cases hm : user_id = AK_char row.user_id
    · rw [collect_groups, if_pos hm] at h
      by_cases hlt : groups.length < 100
      · rw [if_pos hlt] at h
        rw [ih _ h]
        simp [groups_of, List.filter_cons, hm]
      · rw [if_neg hlt] at h
        cases h
    · rw [collect_groups, if_neg hm] at h
      rw [ih _ h]
      simp [groups_of, List.filter_cons, hm]

/-- A loop over the collected groups that ends adds to the flags the rights
found for any of the groups. -/
theorem check_all_groups_some (table_id : Int) (rights : List RightRow) (groups : List Int)
    (f f1 : CheckingPrivileges) (h : check_all_groups table_id rights groups f = some f1) :
    f1 =
      { p0 := f.p0 || groups.any (fun g => check_right_scan g table_id "UPDATE" rights)
        p1 := f.p1 || groups.any (fun g => check_right_scan g table_id "DELETE" rights)
        p2 := f.p2 || groups.any (fun g => check_right_scan g table_id "INSERT" rights)
        p3 := f.p3 || groups.any (fun g => check_right_scan g table_id "SELECT" rights) } := by
  induction groups generalizing f with
  | nil =>
    simp only [check_all_groups, Option.some.injEq] at h
    subst h
    simp
  | cons g gs ih =>
    rw [check_all_groups] at h
    cases hs : check_all_scan g table_id rights f with
    | none => rw [hs] at h; cases h
    | some f2 =>
      rw [hs] at h
      simp only at h
      rw [ih _ h, check_all_scan_some g table_id rights f f2 hs]
      simp only [List.any_cons, Bool.or_assoc]

/-- The flags of the `"ALL"` branch cover the four rights exactly when each of
the four is found. -/
theorem has_right_of_eq (a b c d : Bool) :
    has_right_of ⟨false || a, false || b, false || c, false || d⟩ =
      (a && (b && (c && (d && true)))) := by
  cases a <;> cases b <;> cases c <;> cases d <;> rfl

/-- A run of `AK_check_privilege` that ends, the names resolving, returns
`EXIT_SUCCESS` or `EXIT_ERROR` as `check_decision` says; when the direct rows
did not decide, the groups were collected without overrunning `groups[100]`. -/
theorem AK_check_privilege_some (c : Env) (st : Store) (u T p : String) (x : Int)
    (hu : AK_user_get_id c st u ≠ c.EXIT_ERROR)
    (ht : AK_get_table_obj_id c st T ≠ c.EXIT_ERROR)
    (h : AK_check_privilege c st u T p = some x) :
    x = (if check_decision st (AK_user_get_id c st u) (AK_get_table_obj_id c st T) p = true
      then c.EXIT_SUCCESS else c.EXIT_ERROR) := by
  have hres : ¬ (AK_get_table_obj_id c st T = c.EXIT_ERROR ∨
      AK_user_get_id c st u = c.EXIT_ERROR) := fun e => e.elim ht hu
  simp only [AK_check_privilege, if_neg hres] at h
  by_cases hp : p = "ALL"
  · simp only [if_pos hp] at h
    simp only [check_decision, if_pos hp, all_rights, List.all_cons, List.all_nil]
    cases hd : check_all_scan (AK_user_get_id c st u) (AK_get_table_obj_id c st T)
        st.AK_user_right ⟨false, false, false, false⟩ with
    | none => rw [hd] at h; cases h
    | some f =>
      rw [hd] at h
      simp only at h
      have hf := check_all_scan_some _ _ _ _ _ hd
      rw [hf, has_right_of_eq] at h
      by_cases hD : (check_right_scan (AK_user_get_id c st u) (AK_get_table_obj_id c st T)
          "UPDATE" st.AK_user_right &&
          (check_right_scan (AK_user_get_id c st u) (AK_get_table_obj_id c st T)
            "DELETE" st.AK_user_right &&
          (check_right_scan (AK_user_get_id c st u) (AK_get_table_obj_id c st T)
            "INSERT" st.AK_user_right &&
          (check_right_scan (AK_user_get_id c st u) (AK_get_table_obj_id c st T)
            "SELECT" st.AK_user_right && true)))) = true
      · rw [if_pos hD] at h
        rw [hD]
        simpa using (Option.some.inj h).symm
      · rw [if_neg hD] at h
        rw [Bool.not_eq_true] at hD
        rw [hD, Bool.false_or]
        cases hg : collect_groups (AK_user_get_id c st u) st.AK_user_group [] with
        | none => rw [hg] at h; cases h
        | some groups =>
          rw [hg] at h
          simp only at h
          have hgr := collect_groups_some _ _ _ _ hg
          rw [List.nil_append] at hgr
          cases hs : check_all_groups (AK_get_table_obj_id c st T) st.AK_group_right groups
              ⟨false, false, false, false⟩ with
          | none => rw [hs] at h; cases h
          | some f1 =>
            rw [hs] at h
            simp only at h
            have hf1 := check_all_groups_some _ _ _ _ _ hs
            rw [hf1, has_right_of_eq, hgr] at h
            split at h
            · rename_i hG
              rw [hG]
              simpa using (Option.some.inj h).symm
            · rename_i hG
              rw [Bool.not_eq_true] at hG
              rw [hG]
              simpa using (Option.some.inj h).symm
  · simp only [if_neg hp] at h
    simp only [check_decision, if_neg hp]
    by_cases hD : check_right_scan (AK_user_get_id c st u) (AK_get_table_obj_id c st T) p
        st.AK_user_right = true
    · rw [if_pos hD] at h
      rw [hD]
      simpa using (Option.some.inj h).symm
    · rw [if_neg hD] at h
      rw [Bool.not_eq_true] at hD
      rw [hD, Bool.false_or]
      cases hg : collect_groups (AK_user_get_id c st u) st.AK_user_group [] with
      | none => rw [hg] at h; cases h
      | some groups =>
        rw [hg] at h
        simp only at h
        have hgr := collect_groups_some _ _ _ _ hg
        rw [List.nil_append] at hgr
        rw [hgr] at h
        split at h
        · rename_i hG
          rw [hG]
          simpa using (Option.some.inj h).symm
        · rename_i hG
          rw [Bool.not_eq_true] at hG
          rw [hG]
          simpa using (Option.some.inj h).symm
/-! ### The decision in terms of the rows -/

/-- What `check_decision` says of a specific right. -/
theorem check_decision_right_iff (st : Store) (uid tid : Int) (p : String) (hp : p ≠ "ALL") :
    check_decision st uid tid p = true ↔
      (∃ row ∈ st.AK_user_right, AK_char row.subject_id = uid ∧
        tid = AK_char row.artifact_id ∧ row.right_type = p) ∨
      (∃ e ∈ st.AK_user_group, uid = AK_char e.user_id ∧ ∃ row ∈ st.AK_group_right,
        AK_char row.subject_id = AK_char e.group_id ∧ tid = AK_char row.artifact_id ∧
          row.right_type = p) := by
  simp only [check_decision, if_neg hp, Bool.or_eq_true, groups_of, check_right_scan_iff,
    groups_any_iff]

/-- What `check_decision` says of `"ALL"`. -/
theorem check_decision_all_iff (st : Store) (uid tid : Int) :
    check_decision st uid tid "ALL" = true ↔
      (∀ r ∈ all_rights, ∃ row ∈ st.AK_user_right, AK_char row.subject_id = uid ∧
        tid = AK_char row.artifact_id ∧ row.right_type = r) ∨
      (∀ r ∈ all_rights, ∃ e ∈ st.AK_user_group, uid = AK_char e.user_id ∧
        ∃ row ∈ st.AK_group_right, AK_char row.subject_id = AK_char e.group_id ∧
          tid = AK_char row.artifact_id ∧ row.right_type = r) := by
  simp only [check_decision, if_true, Bool.or_eq_true, List.all_eq_true, groups_of,
    check_right_scan_iff, groups_any_iff]

/-- The decision is monotone in the rows of the three tables it reads. -/
theorem check_decision_mono (st st1 : Store) (uid tid : Int) (p : String)
    (h1 : ∀ row ∈ st.AK_user_right, row ∈ st1.AK_user_right)
    (h2 : ∀ row ∈ st.AK_group_right, row ∈ st1.AK_group_right)
    (h3 : ∀ e ∈ st.AK_user_group, e ∈ st1.AK_user_group)
    (h : check_decision st uid tid p = true) : check_decision st1 uid tid p = true := by
  by_cases hp : p = "ALL"
  · subst hp
    rw [check_decision_all_iff] at h ⊢
    rcases h with h | h
    · left
      intro r hr
      obtain ⟨row, hrow, hm⟩ := h r hr
      exact ⟨row, h1 row hrow, hm⟩
    · right
      intro r hr
      obtain ⟨e, he, hu, row, hrow, hm⟩ := h r hr
      exact ⟨e, h3 e he, hu, row, h2 row hrow, hm⟩
  · rw [check_decision_right_iff _ _ _ _ hp] at h ⊢
    rcases h with ⟨row, hrow, hm⟩ | ⟨e, he, hu, row, hrow, hm⟩
    · exact Or.inl ⟨row, h1 row hrow, hm⟩
    · exact Or.inr ⟨e, h3 e he, hu, row, h2 row hrow, hm⟩

/-- `AK_check_privilege` reads the users, the catalog, the two ledgers of users
and groups and the memberships, and nothing else. -/
theorem AK_check_privilege_congr (c : Env) (st st1 : Store) (u T p : String)
    (h1 : st1.AK_user = st.AK_user) (h2 : st1.catalog = st.catalog)
    (h3 : st1.AK_user_right = st.AK_user_right) (h4 : st1.AK_user_group = st.AK_user_group)
    (h5 : st1.AK_group_right = st.AK_group_right) :
    AK_check_privilege c st1 u T p = AK_check_privilege c st u T p := by
  simp only [AK_check_privilege, AK_user_get_id, AK_get_table_obj_id, h1, h2, h3, h4, h5]

/-- When a name does not resolve, `AK_check_privilege` returns `EXIT_ERROR`. -/
theorem AK_check_privilege_unresolved (c : Env) (st : Store) (u T p : String)
    (h : AK_get_table_obj_id c st T = c.EXIT_ERROR ∨ AK_user_get_id c st u = c.EXIT_ERROR) :
    AK_check_privilege c st u T p = some c.EXIT_ERROR := by
  simp only [AK_check_privilege, if_pos h]

/-- A run that returns `EXIT_SUCCESS` has resolved the names and decided as
`check_decision` says. -/
theorem AK_check_privilege_success (c : Env) (st : Store) (u T p : String)
    (hdist : c.EXIT_SUCCESS ≠ c.EXIT_ERROR)
    (h : AK_check_privilege c st u T p = some c.EXIT_SUCCESS) :
    AK_user_get_id c st u ≠ c.EXIT_ERROR ∧ AK_get_table_obj_id c st T ≠ c.EXIT_ERROR ∧
    check_decision st (AK_user_get_id c st u) (AK_get_table_obj_id c st T) p = true := by
  have hres : ¬ (AK_get_table_obj_id c st T = c.EXIT_ERROR ∨
      AK_user_get_id c st u = c.EXIT_ERROR) := by
    intro e
    rw [AK_check_privilege_unresolved c st u T p e] at h
    exact hdist (Option.some.inj h).symm
  have hu : AK_user_get_id c st u ≠ c.EXIT_ERROR := fun e => hres (Or.inr e)
  have ht : AK_get_table_obj_id c st T ≠ c.EXIT_ERROR := fun e => hres (Or.inl e)
  refine ⟨hu, ht, ?_⟩
  have hx := AK_check_privilege_some c st u T p _ hu ht h
  by_contra hcd
  rw [if_neg hcd] at hx
  exact hdist hx

/-- A run that ends after `check_decision` said yes returns `EXIT_SUCCESS`. -/
theorem AK_check_privilege_of_decision (c : Env) (st : Store) (u T p : String)
    (hu : AK_user_get_id c st u ≠ c.EXIT_ERROR)
    (ht : AK_get_table_obj_id c st T ≠ c.EXIT_ERROR)
    (hcd : check_decision st (AK_user_get_id c st u) (AK_get_table_obj_id c st T) p = true)
    (hdef : AK_check_privilege c st u T p ≠ none) :
    AK_check_privilege c st u T p = some c.EXIT_SUCCESS := by
  cases hx : AK_check_privilege c st u T p with
  | none => exact absurd hx hdef
  | some x =>
    have := AK_check_privilege_some c st u T p x hu ht hx
    rw [if_pos hcd] at this
    rw [this]

/-- A run of `AK_check_privilege` is defined as soon as every stored right is
shorter than 10 bytes and the user has at most 100 membership rows. -/
theorem AK_check_privilege_defined (c : Env) (st : Store) (u T p : String)
    (hlen_user : ∀ row ∈ st.AK_user_right, row.right_type.utf8ByteSize < 10)
    (hlen_group : ∀ row ∈ st.AK_group_right, row.right_type.utf8ByteSize < 10)
    (hcap : (st.AK_user_group.filter
      (fun e => decide (AK_user_get_id c st u = AK_char e.user_id))).length ≤ 100) :
    AK_check_privilege c st u T p ≠ none := by
  by_cases hres : AK_get_table_obj_id c st T = c.EXIT_ERROR ∨
      AK_user_get_id c st u = c.EXIT_ERROR
  · rw [AK_check_privilege_unresolved c st u T p hres]
    exact Option.some_ne_none _
  · have hu : AK_user_get_id c st u ≠ c.EXIT_ERROR := fun e => hres (Or.inr e)
    have ht : AK_get_table_obj_id c st T ≠ c.EXIT_ERROR := fun e => hres (Or.inl e)
    by_cases hp : p = "ALL"
    · subst hp
      rw [AK_check_privilege_all_eq c st u T hu ht hlen_user hlen_group hcap]
      exact Option.some_ne_none _
    · have hg := collect_groups_eq (AK_user_get_id c st u) st.AK_user_group []
        (by simpa using hcap)
      simp only [AK_check_privilege, if_neg hres, if_neg hp, hg]
      split
      · exact Option.some_ne_none _
      · split <;> exact Option.some_ne_none _
/-! ### C22 -/

/-- C22.  `AK_check_privilege` returns the same result on two stores that agree
on `AK_user`, the catalog, `AK_user_right`, `AK_user_group` and `AK_group_right`,
whatever the role tables hold.  Hence, for a right `p` other than `"ALL"`, when
no direct row of the user and no row of a group of the user gives `p` on the
table (ids compared as the code reads them) and a role of the user holds the
row `(r, T, p)`, every defined run of `AK_check_privilege` returns `EXIT_ERROR`
while `AK_check_user_privilege_via_roles` returns `EXIT_SUCCESS`. -/
theorem C22_check_privilege_ignores_roles (c : Env) (st st1 : Store) (u T p : String)
    (h1 : st1.AK_user = st.AK_user) (h2 : st1.catalog = st.catalog)
    (h3 : st1.AK_user_right = st.AK_user_right) (h4 : st1.AK_user_group = st.AK_user_group)
    (h5 : st1.AK_group_right = st.AK_group_right) :
    AK_check_privilege c st1 u T p = AK_check_privilege c st u T p ∧
    (c.EXIT_SUCCESS ≠ c.EXIT_ERROR → p ≠ "ALL" →
      AK_user_get_id c st u ≠ c.EXIT_ERROR → AK_get_table_obj_id c st T ≠ c.EXIT_ERROR →
      (∀ row ∈ st.AK_user_right, ¬ (AK_char row.subject_id = AK_user_get_id c st u ∧
        AK_get_table_obj_id c st T = AK_char row.artifact_id ∧ row.right_type = p)) →
      (∀ e ∈ st.AK_user_group, AK_user_get_id c st u = AK_char e.user_id →
        ∀ row ∈ st.AK_group_right, ¬ (AK_char row.subject_id = AK_char e.group_id ∧
          AK_get_table_obj_id c st T = AK_char row.artifact_id ∧ row.right_type = p)) →
      (∃ r : Int, (⟨AK_user_get_id c st u, r⟩ : RoleEdgeRow) ∈ st.AK_user_role ∧
        (⟨r, AK_get_table_obj_id c st T, p⟩ : Int × Int × String) ∈
          triples st.AK_role_right) →
      AK_check_privilege c st u T p ≠ none →
      AK_check_privilege c st u T p = some c.EXIT_ERROR ∧
      AK_check_user_privilege_via_roles c st u T p = c.EXIT_SUCCESS) := by
  refine ⟨AK_check_privilege_congr c st st1 u T p h1 h2 h3 h4 h5, ?_⟩
  intro hdist hp hu ht hdirect hgroup hrole hdef
  constructor
  · cases hx : AK_check_privilege c st u T p with
    | none => exact absurd hx hdef
    | some x =>
      have hval := AK_check_privilege_some c st u T p x hu ht hx
      have hcd : ¬ check_decision st (AK_user_get_id c st u) (AK_get_table_obj_id c st T) p =
          true := by
        rw [check_decision_right_iff _ _ _ _ hp]
        rintro (⟨row, hrow, hm⟩ | ⟨e, he, hue, row, hrow, hm⟩)
        · exact hdirect row hrow hm
        · exact hgroup e he hue row hrow hm
      rw [if_neg hcd] at hval
      rw [hval]
  · obtain ⟨r, hedge, htriple⟩ := hrole
    obtain ⟨row, hrow, heq⟩ := List.mem_map.1 htriple
    simp only [Prod.mk.injEq] at heq
    have hvia := (check_privilege_via_roles_iff c st .user (AK_user_get_id c st u)
      (AK_get_table_obj_id c st T) p hdist).1
    have hdefv : AK_check_user_privilege_via_roles c st u T p =
        check_privilege_via_roles c st .user (AK_user_get_id c st u)
          (AK_get_table_obj_id c st T) p := by
      simp [AK_check_user_privilege_via_roles, hu, ht]
    rw [hdefv]
    exact hvia.2 ⟨⟨AK_user_get_id c st u, r⟩, hedge, rfl, row, hrow, heq.1, heq.2.1, heq.2.2⟩

/-- Witness of `C22_check_privilege_ignores_roles`: `store_role_edge_no_roles`
and `store_role_edge` agree on all that `AK_check_privilege` reads and differ in
the role tables; the check gives the same result on both.  In `store_role_edge`
the user `"u"` has `SELECT` on `"t"` through the role 3 only, and the check
returns `EXIT_ERROR` while the check through the roles returns
`EXIT_SUCCESS`. -/
theorem C22_check_privilege_ignores_roles_witness :
    AK_check_privilege env_example store_role_edge_no_roles "u" "t" "SELECT" =
      AK_check_privilege env_example store_role_edge "u" "t" "SELECT" ∧
    AK_check_privilege env_example store_role_edge "u" "t" "SELECT" = some (-1) ∧
    AK_check_user_privilege_via_roles env_example store_role_edge "u" "t" "SELECT" = 0 :=
  have h := C22_check_privilege_ignores_roles env_example store_role_edge
    store_role_edge_no_roles "u" "t" "SELECT" rfl rfl rfl rfl rfl
  ⟨h.1, h.2 (by decide) (by decide) (by decide) (by decide) (by decide) (by decide)
    ⟨3, by decide, by decide⟩ (by decide)⟩

/-! ### The union of the groups, on defined runs -/

/-- For a user `U` and a table `T` that resolve, `U` holding no direct row on
`T`, every defined run of `AK_check_privilege(U, T, "ALL")` returns
`EXIT_SUCCESS` if and only if each of the four rights is held on `T` by some
group `U` belongs to, not necessarily the same group for the four; ids are
compared through one byte, as the code reads them.  A run is defined as soon as
no stored right has 10 bytes or more and `U` has at most 100 memberships
(`AK_check_privilege_defined`). -/
theorem check_all_union_of_groups_of_defined (c : Env) (st : Store) (U T : String)
    (hdist : c.EXIT_SUCCESS ≠ c.EXIT_ERROR)
    (hu : AK_user_get_id c st U ≠ c.EXIT_ERROR)
    (ht : AK_get_table_obj_id c st T ≠ c.EXIT_ERROR)
    (hdirect : ∀ row ∈ st.AK_user_right, ¬ (AK_char row.subject_id = AK_user_get_id c st U ∧
      AK_get_table_obj_id c st T = AK_char row.artifact_id))
    (hdef : AK_check_privilege c st U T "ALL" ≠ none) :
    AK_check_privilege c st U T "ALL" = some c.EXIT_SUCCESS ↔
      ∀ r ∈ all_rights, ∃ e ∈ st.AK_user_group, AK_user_get_id c st U = AK_char e.user_id ∧
        ∃ row ∈ st.AK_group_right, AK_char row.subject_id = AK_char e.group_id ∧
          AK_get_table_obj_id c st T = AK_char row.artifact_id ∧ row.right_type = r := by
  constructor
  · intro h
    obtain ⟨_, _, hcd⟩ := AK_check_privilege_success c st U T "ALL" hdist h
    rw [check_decision_all_iff] at hcd
    rcases hcd with hD | hG
    · obtain ⟨row, hrow, hm⟩ := hD "UPDATE" (by decide)
      exact absurd ⟨hm.1, hm.2.1⟩ (hdirect row hrow)
    · exact hG
  · intro hG
    exact AK_check_privilege_of_decision c st U T "ALL" hu ht
      ((check_decision_all_iff _ _ _).2 (Or.inr hG)) hdef

/-- In `store_two_groups` the group 2 holds no `INSERT` row and the group 3 no
`UPDATE` row, so neither holds the four rights, and the check of `"ALL"` returns
`EXIT_SUCCESS`. -/
theorem check_all_two_groups :
    (∀ row ∈ store_two_groups.AK_group_right,
      ¬ (row.subject_id = 2 ∧ row.right_type = "INSERT")) ∧
    (∀ row ∈ store_two_groups.AK_group_right,
      ¬ (row.subject_id = 3 ∧ row.right_type = "UPDATE")) ∧
    AK_check_privilege env_example store_two_groups "u" "t" "ALL" = some 0 := by
  decide
/-! ### Appended rows, on defined runs -/

/-- The check is monotone from a store to a store with more rows in the three
tables it reads, as long as the run on the larger store is defined. -/
theorem AK_check_privilege_mono (c : Env) (st st1 : Store) (u T p : String)
    (hdist : c.EXIT_SUCCESS ≠ c.EXIT_ERROR)
    (hU : st1.AK_user = st.AK_user) (hC : st1.catalog = st.catalog)
    (h1 : ∀ row ∈ st.AK_user_right, row ∈ st1.AK_user_right)
    (h2 : ∀ row ∈ st.AK_group_right, row ∈ st1.AK_group_right)
    (h3 : ∀ e ∈ st.AK_user_group, e ∈ st1.AK_user_group)
    (hb : AK_check_privilege c st u T p = some c.EXIT_SUCCESS)
    (hdef : AK_check_privilege c st1 u T p ≠ none) :
    AK_check_privilege c st1 u T p = some c.EXIT_SUCCESS := by
  obtain ⟨hu, ht, hcd⟩ := AK_check_privilege_success c st u T p hdist hb
  have hu1 : AK_user_get_id c st1 u = AK_user_get_id c st u := by
    simp only [AK_user_get_id, hU]
  have ht1 : AK_get_table_obj_id c st1 T = AK_get_table_obj_id c st T :=
    AK_get_table_obj_id_congr c st st1 T hC
  apply AK_check_privilege_of_decision c st1 u T p (by rw [hu1]; exact hu)
    (by rw [ht1]; exact ht) _ hdef
  rw [hu1, ht1]
  exact check_decision_mono st st1 _ _ p h1 h2 h3 hcd

/-- When `AK_check_privilege(u, T, p)` returns `EXIT_SUCCESS`, for a specific
right or `"ALL"`, every defined run of the same call after a row is appended to
`AK_user_right`, to `AK_group_right` or to `AK_user_group` returns
`EXIT_SUCCESS`.  A run is undefined when it copies a right of 10 bytes or more
into `found_privilege[10]` or writes a 101st group into `groups[100]`, and
defined when neither can happen (`AK_check_privilege_defined`). -/
theorem check_privilege_monotone_of_defined (c : Env) (st : Store) (u T p : String)
    (hdist : c.EXIT_SUCCESS ≠ c.EXIT_ERROR)
    (hb : AK_check_privilege c st u T p = some c.EXIT_SUCCESS) :
    (∀ row : RightRow,
      AK_check_privilege c { st with AK_user_right := st.AK_user_right ++ [row] } u T p ≠
        none →
      AK_check_privilege c { st with AK_user_right := st.AK_user_right ++ [row] } u T p =
        some c.EXIT_SUCCESS) ∧
    (∀ row : RightRow,
      AK_check_privilege c { st with AK_group_right := st.AK_group_right ++ [row] } u T p ≠
        none →
      AK_check_privilege c { st with AK_group_right := st.AK_group_right ++ [row] } u T p =
        some c.EXIT_SUCCESS) ∧
    (∀ e : UserGroupRow,
      AK_check_privilege c { st with AK_user_group := st.AK_user_group ++ [e] } u T p ≠
        none →
      AK_check_privilege c { st with AK_user_group := st.AK_user_group ++ [e] } u T p =
        some c.EXIT_SUCCESS) := by
  refine ⟨fun row hdef => ?_, fun row hdef => ?_, fun e hdef => ?_⟩
  · exact AK_check_privilege_mono c st _ u T p hdist rfl rfl
      (fun r hr => List.mem_append_left _ hr) (fun r hr => hr) (fun r hr => hr) hb hdef
  · exact AK_check_privilege_mono c st _ u T p hdist rfl rfl
      (fun r hr => hr) (fun r hr => List.mem_append_left _ hr) (fun r hr => hr) hb hdef
  · exact AK_check_privilege_mono c st _ u T p hdist rfl rfl
      (fun r hr => hr) (fun r hr => hr) (fun r hr => List.mem_append_left _ hr) hb hdef

/-! ### C26 -/

/-- A run of the `"ALL"` branch that ends without the direct rows covering the
four rights has collected the groups of the user. -/
theorem AK_check_privilege_all_collects (c : Env) (st : Store) (u T : String) (x : Int)
    (hu : AK_user_get_id c st u ≠ c.EXIT_ERROR)
    (ht : AK_get_table_obj_id c st T ≠ c.EXIT_ERROR)
    (h : AK_check_privilege c st u T "ALL" = some x)
    (hD : all_rights.all (fun r => check_right_scan (AK_user_get_id c st u)
      (AK_get_table_obj_id c st T) r st.AK_user_right) = false) :
    collect_groups (AK_user_get_id c st u) st.AK_user_group [] =
      some (groups_of (AK_user_get_id c st u) st.AK_user_group) := by
  have hres : ¬ (AK_get_table_obj_id c st T = c.EXIT_ERROR ∨
      AK_user_get_id c st u = c.EXIT_ERROR) := fun e => e.elim ht hu
  simp only [AK_check_privilege, if_neg hres, if_true] at h
  simp only [all_rights, List.all_cons, List.all_nil] at hD
  cases hd : check_all_scan (AK_user_get_id c st u) (AK_get_table_obj_id c st T)
      st.AK_user_right ⟨false, false, false, false⟩ with
  | none => rw [hd] at h; cases h
  | some f =>
    rw [hd] at h
    simp only at h
    have hf := check_all_scan_some _ _ _ _ _ hd
    rw [hf, has_right_of_eq, hD] at h
    simp only [Bool.false_eq_true, if_false] at h
    cases hg : collect_groups (AK_user_get_id c st u) st.AK_user_group [] with
    | none => rw [hg] at h; cases h
    | some groups =>
      have hgr := collect_groups_some _ _ _ _ hg
      rw [List.nil_append] at hgr
      rw [hgr]

/-- C26.  When `AK_check_privilege(U, T, "ALL")` returns `EXIT_SUCCESS`,
`AK_check_privilege(U, T, r)` returns `EXIT_SUCCESS` for each `r` of `SELECT`,
`INSERT`, `UPDATE` and `DELETE`. -/
theorem C26_all_implies_each_right (c : Env) (st : Store) (U T : String)
    (hdist : c.EXIT_SUCCESS ≠ c.EXIT_ERROR)
    (hall : AK_check_privilege c st U T "ALL" = some c.EXIT_SUCCESS) :
    ∀ r ∈ ["SELECT", "INSERT", "UPDATE", "DELETE"],
      AK_check_privilege c st U T r = some c.EXIT_SUCCESS := by
  obtain ⟨hu, ht, hcd⟩ := AK_check_privilege_success c st U T "ALL" hdist hall
  have hres : ¬ (AK_get_table_obj_id c st T = c.EXIT_ERROR ∨
      AK_user_get_id c st U = c.EXIT_ERROR) := fun e => e.elim ht hu
  intro r hr
  have hr4 : r ∈ all_rights := by
    simp only [List.mem_cons, List.mem_singleton, List.not_mem_nil, or_false] at hr
    rcases hr with h | h | h | h <;> (subst h; decide)
  have hrne : r ≠ "ALL" := by
    simp only [List.mem_cons, List.mem_singleton, List.not_mem_nil, or_false] at hr
    rcases hr with h | h | h | h <;> (subst h; decide)
  simp only [AK_check_privilege, if_neg hres, if_neg hrne]
  by_cases hdir : check_right_scan (AK_user_get_id c st U) (AK_get_table_obj_id c st T) r
      st.AK_user_right = true
  · rw [if_pos hdir]
  · rw [if_neg hdir]
    have hD : all_rights.all (fun r => check_right_scan (AK_user_get_id c st U)
        (AK_get_table_obj_id c st T) r st.AK_user_right) = false := by
      rw [← Bool.not_eq_true, List.all_eq_true]
      intro hcon
      exact hdir (hcon r hr4)
    rw [AK_check_privilege_all_collects c st U T _ hu ht hall hD]
    simp only [check_decision, if_true, hD, Bool.false_or, List.all_eq_true] at hcd
    simp only [hcd r hr4, if_true]

/-- Witness of `C26_all_implies_each_right`: in `store_two_groups` the check of
`"ALL"` returns `EXIT_SUCCESS`, and so does the check of `INSERT`. -/
theorem C26_all_implies_each_right_witness :
    AK_check_privilege env_example store_two_groups "u" "t" "ALL" = some 0 ∧
    AK_check_privilege env_example store_two_groups "u" "t" "INSERT" = some 0 :=
  ⟨by decide,
    C26_all_implies_each_right env_example store_two_groups "u" "t" (by decide) (by decide)
      "INSERT" (by decide)⟩
/-! ### C23 -/

/-- Deleting by the `obj_id` of a row of a ledger whose ids are pairwise
distinct removes that row and no other. -/
theorem filter_obj_id_of_nodup (pre post : List RightRow) (x : RightRow)
    (hids : ((pre ++ x :: post).map (fun r => r.obj_id)).Nodup) :
    (pre ++ x :: post).filter (fun r => !decide (r.obj_id = x.obj_id)) = pre ++ post := by
  rw [List.map_append, List.map_cons, List.nodup_append] at hids
  obtain ⟨_, hxpost, hdisj⟩ := hids
  rw [List.nodup_cons] at hxpost
  have h1 : pre.filter (fun r => !decide (r.obj_id = x.obj_id)) = pre := by
    apply List.filter_eq_self.2
    intro r hr
    have hne : r.obj_id ≠ x.obj_id := by
      intro e
      exact hdisj (List.mem_map.2 ⟨r, hr, rfl⟩) (by rw [e]; exact List.mem_cons_self _ _)
    simpa using hne
  have h2 : post.filter (fun r => !decide (r.obj_id = x.obj_id)) = post := by
    apply List.filter_eq_self.2
    intro r hr
    have hne : r.obj_id ≠ x.obj_id := by
      intro e
      exact hxpost.1 (List.mem_map.2 ⟨r, hr, e⟩)
    simpa using hne
  rw [List.filter_append, List.filter_cons, h1, h2]
  simp

/-- C23.  For the three ledgers, the names resolving, the right not `"ALL"` and
the grant ids of the ledger pairwise distinct: a revoke that returns
`EXIT_SUCCESS` has removed the first row, in scan order, that matches (subject,
table, right) and no other row; the rows before and after it keep their order,
and one matching row fewer is left. -/
theorem C23_revoke_removes_first_match (k : Ledger) (c : Env) (st : Store)
    (S T right : String)
    (hdist : c.EXIT_SUCCESS ≠ c.EXIT_ERROR)
    (hs : AK_subject_get_id k c st S ≠ c.EXIT_ERROR)
    (ht : AK_get_table_obj_id c st T ≠ c.EXIT_ERROR)
    (hr : right ≠ "ALL")
    (hids : ((st.rights k).map (fun r => r.obj_id)).Nodup)
    (hsucc : (AK_revoke_privilege k c st S T right).1 = c.EXIT_SUCCESS) :
    ∃ pre x post, st.rights k = pre ++ x :: post ∧
      (∀ row ∈ pre, ¬ (row.subject_id = AK_subject_get_id k c st S ∧
        row.artifact_id = AK_get_table_obj_id c st T ∧ row.right_type = right)) ∧
      (x.subject_id = AK_subject_get_id k c st S ∧
        x.artifact_id = AK_get_table_obj_id c st T ∧ x.right_type = right) ∧
      (AK_revoke_privilege k c st S T right).2.rights k = pre ++ post ∧
      (((AK_revoke_privilege k c st S T right).2.rights k).filter
        (revoke_match (AK_subject_get_id k c st S) (AK_get_table_obj_id c st T) right)).length
        + 1 =
      ((st.rights k).filter
        (revoke_match (AK_subject_get_id k c st S) (AK_get_table_obj_id c st T)
          right)).length := by
  rw [AK_revoke_privilege_eq k c st S T right hs ht] at hsucc ⊢
  generalize AK_subject_get_id k c st S = s at *
  generalize AK_get_table_obj_id c st T = t at *
  simp only [revoke_privilege, if_neg hr, revoke_one] at hsucc ⊢
  cases hfind : (st.rights k).find? (revoke_match s t right) with
  | none =>
    rw [hfind] at hsucc
    exact absurd hsucc.symm hdist
  | some x =>
    rw [hfind] at hsucc
    simp only at hsucc ⊢
    obtain ⟨hx, pre, post, hrows, hpre⟩ := List.find?_eq_some.1 hfind
    have hok : st.delete_outcome.1 = true := by
      by_contra hcon
      simp only [AK_delete_row_rights, hcon] at hsucc
      exact hdist hsucc.symm
    obtain ⟨_, hafter⟩ :=
      AK_delete_row_rights_ok c st k (fun r => decide (r.obj_id = x.obj_id)) hok
    rw [hrows] at hids
    rw [hrows, filter_obj_id_of_nodup pre post x hids] at hafter
    have hpre1 : ∀ row ∈ pre, revoke_match s t right row = false := by
      intro row hrow
      simpa using hpre row hrow
    have hfpre : pre.filter (revoke_match s t right) = [] := by
      rw [List.filter_eq_nil_iff]
      intro row hrow
      rw [hpre1 row hrow]
      exact Bool.false_ne_true
    refine ⟨pre, x, post, hrows, ?_, ?_, hafter, ?_⟩
    · intro row hrow hm
      have := hpre1 row hrow
      simp [revoke_match, hm.1, hm.2.1, hm.2.2] at this
    · simp only [revoke_match, Bool.and_eq_true, decide_eq_true_eq] at hx
      exact ⟨hx.1.1, hx.1.2, hx.2⟩
    · rw [hafter, hrows, List.filter_append, List.filter_append, List.filter_cons, hfpre,
        if_pos hx]
      simp

/-- Witness of `C23_revoke_removes_first_match`: in `store_direct_all` the user
`"u"` holds four rows on `"t"`; the revoke of `DELETE` removes the second row and
leaves the three others in order. -/
theorem C23_revoke_removes_first_match_witness :
    ∃ pre x post, store_direct_all.AK_user_right = pre ++ x :: post ∧
      x = ⟨11, 1, 7, "DELETE"⟩ ∧
      (AK_revoke_privilege .user env_example store_direct_all "u" "t" "DELETE").2.AK_user_right
        = pre ++ post := by
  obtain ⟨pre, x, post, h1, _, h3, h4, _⟩ := C23_revoke_removes_first_match .user env_example
    store_direct_all "u" "t" "DELETE" (by decide) (by decide) (by decide) (by decide)
    (by decide) (by decide)
  refine ⟨pre, x, post, h1, ?_, h4⟩
  have hmem : x ∈ store_direct_all.AK_user_right := by
    have h1' : store_direct_all.AK_user_right = pre ++ x :: post := h1
    rw [h1']
    simp
  have hx : x.right_type = "DELETE" := h3.2.2
  simp only [store_direct_all, List.mem_cons, List.mem_singleton, List.not_mem_nil,
    or_false] at hmem
  rcases hmem with h | h | h | h <;> subst h <;> first | rfl | (exact absurd hx (by decide))
/-! ### C27 -/

/-- The table after `AK_add_user_to_group`: unchanged, or the old table followed
by the row of the two resolved ids, the user id being met in no row. -/
theorem AK_add_user_to_group_rows (c : Env) (st : Store) (user group : String) :
    (AK_add_user_to_group c st user group).2.AK_user_group = st.AK_user_group ∨
    ((AK_add_user_to_group c st user group).2.AK_user_group =
        st.AK_user_group ++ [⟨AK_user_get_id c st user, AK_group_get_id c st group⟩] ∧
      AK_user_get_id c st user ≠ c.EXIT_ERROR ∧
      ∀ row ∈ st.AK_user_group, AK_user_get_id c st user ≠ AK_char row.user_id) := by
  unfold AK_add_user_to_group
  simp only
  split
  · exact Or.inl rfl
  · rename_i hres
    split
    · exact Or.inl rfl
    · rename_i hany
      refine Or.inr ⟨rfl, fun e => hres (Or.inr e), ?_⟩
      intro row hrow heq
      exact hany (List.any_eq_true.2 ⟨row, hrow, by simpa using heq⟩)

/-- In a table whose user ids are pairwise distinct, at most one row carries a
given user id. -/
theorem filter_user_id_length_le_one (rows : List UserGroupRow) (uid : Int)
    (hnd : (rows.map (fun e => e.user_id)).Nodup) :
    (rows.filter (fun e => decide (uid = e.user_id))).length ≤ 1 := by
  induction rows with
  | nil => simp
  | cons e rest ih =>
    rw [List.map_cons, List.nodup_cons] at hnd
    by_cases he : uid = e.user_id
    · have hrest : rest.filter (fun e => decide (uid = e.user_id)) = [] := by
        rw [List.filter_eq_nil_iff]
        intro a ha hdec
        rw [decide_eq_true_eq] at hdec
        exact hnd.1 (List.mem_map.2 ⟨a, ha, by rw [← hdec, he]⟩)
      rw [List.filter_cons, if_pos (by rw [decide_eq_true_eq]; exact he), hrest]
      simp
    · simp only [List.filter_cons, he, decide_False, Bool.false_eq_true, if_false]
      exact ih hnd.2

/-- A table built by `AK_add_user_to_group` holds pairwise distinct user ids,
each of the range of `char`. -/
theorem built_by_add_user_to_group_inv (c : Env) (rows : List UserGroupRow)
    (h : built_by_add_user_to_group c rows) :
    (rows.map (fun e => e.user_id)).Nodup ∧ ∀ e ∈ rows, AK_char e.user_id = e.user_id := by
  induction h with
  | empty => exact ⟨List.nodup_nil, fun e he => absurd he (List.not_mem_nil e)⟩
  | add st user group _ ih =>
    obtain ⟨hnd, hch⟩ := ih
    rcases AK_add_user_to_group_rows c st user group with h | ⟨h, hu, hnew⟩
    · rw [h]
      exact ⟨hnd, hch⟩
    · rw [h]
      have huc := AK_user_get_id_is_char c st user hu
      constructor
      · rw [List.map_append, List.map_singleton]
        refine List.Nodup.append hnd (List.nodup_singleton _) ?_
        intro a ha hb
        rw [List.mem_singleton] at hb
        obtain ⟨row, hrow, hra⟩ := List.mem_map.1 ha
        exact hnew row hrow (by rw [hch row hrow, hra, hb])
      · intro e he
        rcases List.mem_append.1 he with h1 | h1
        · exact hch e h1
        · rw [List.mem_singleton] at h1
          subst h1
          exact huc

/-- C27.  `AK_add_user_to_group` keeps the user ids of `AK_user_group` pairwise
distinct, and returns `EXIT_ERROR` without inserting for a user whose id a row
already carries.  Hence, on every store whose `AK_user_group` was built by this
function alone, the loop of `AK_check_privilege` that fills `groups[100]` ends
with at most one group collected, for whatever user: the index never reaches
100. -/
theorem C27_add_user_to_group_one_membership (c : Env) :
    (∀ (st : Store) (user group : String),
      (st.AK_user_group.map (fun e => e.user_id)).Nodup →
      ((AK_add_user_to_group c st user group).2.AK_user_group.map
        (fun e => e.user_id)).Nodup) ∧
    (∀ (st : Store) (user group : String),
      AK_user_get_id c st user ≠ c.EXIT_ERROR →
      (∃ e ∈ st.AK_user_group, e.user_id = AK_user_get_id c st user) →
      AK_add_user_to_group c st user group = (c.EXIT_ERROR, st)) ∧
    (∀ (st : Store) (U : String),
      built_by_add_user_to_group c st.AK_user_group →
      ∃ groups, collect_groups (AK_user_get_id c st U) st.AK_user_group [] = some groups ∧
        groups.length ≤ 1) := by
  refine ⟨?_, ?_, ?_⟩
  · intro st user group hnd
    rcases AK_add_user_to_group_rows c st user group with h | ⟨h, hu, hnew⟩
    · rw [h]
      exact hnd
    · rw [h, List.map_append, List.map_singleton]
      refine List.Nodup.append hnd (List.nodup_singleton _) ?_
      intro a ha hb
      rw [List.mem_singleton] at hb
      obtain ⟨row, hrow, hra⟩ := List.mem_map.1 ha
      refine hnew row hrow ?_
      rw [hra, hb]
      exact (AK_user_get_id_is_char c st user hu).symm
  · intro st user group hu hex
    obtain ⟨e, he, heq⟩ := hex
    unfold AK_add_user_to_group
    simp only
    split
    · rfl
    · have hany : st.AK_user_group.any
          (fun row => decide (AK_user_get_id c st user = AK_char row.user_id)) = true := by
        refine List.any_eq_true.2 ⟨e, he, ?_⟩
        rw [decide_eq_true_eq, heq]
        exact (AK_user_get_id_is_char c st user hu).symm
      rw [if_pos hany]
  · intro st U hbuilt
    obtain ⟨hnd, hch⟩ := built_by_add_user_to_group_inv c st.AK_user_group hbuilt
    have hfil : st.AK_user_group.filter
        (fun e => decide (AK_user_get_id c st U = AK_char e.user_id)) =
        st.AK_user_group.filter (fun e => decide (AK_user_get_id c st U = e.user_id)) := by
      apply List.filter_congr
      intro e he
      rw [hch e he]
    have hlen := filter_user_id_length_le_one st.AK_user_group (AK_user_get_id c st U) hnd
    rw [← hfil] at hlen
    refine ⟨_, collect_groups_eq (AK_user_get_id c st U) st.AK_user_group [] ?_, ?_⟩
    · simp only [List.length_nil, Nat.zero_add]
      omega
    · simpa using hlen

/-- Witness of `C27_add_user_to_group_one_membership`: the table of
`store_C3_member` is the one `AK_add_user_to_group("u", "g")` builds from the
empty table of `store_C3`; one group is collected for `"u"`, and a second
membership of `"u"` is refused. -/
theorem C27_add_user_to_group_one_membership_witness :
    (∃ groups, collect_groups (AK_user_get_id env_example store_C3_member "u")
      store_C3_member.AK_user_group [] = some groups ∧ groups.length ≤ 1) ∧
    AK_add_user_to_group env_example store_C3_member "u" "g" = (-1, store_C3_member) := by
  have h := C27_add_user_to_group_one_membership env_example
  have e : (AK_add_user_to_group env_example store_C3 "u" "g").2.AK_user_group =
      store_C3_member.AK_user_group := by decide
  have hb : built_by_add_user_to_group env_example store_C3_member.AK_user_group := by
    rw [← e]
    exact built_by_add_user_to_group.add store_C3 "u" "g" built_by_add_user_to_group.empty
  exact ⟨h.2.2 store_C3_member "u" hb,
    h.2.1 store_C3_member "u" "g" (by decide) ⟨⟨1, 2⟩, by decide, by decide⟩⟩
/-! ### C28 -/

/-- The removal of one role, once the names are resolved, the edge being there
and the deletion carried out: every edge of the subject is deleted. -/
theorem remove_role_ok (c : Env) (st : Store) (k : RoleEdges) (s r : Int)
    (hok : st.delete_outcome.1 = true)
    (hedge : (⟨s, r⟩ : RoleEdgeRow) ∈ st.role_edges k) :
    (remove_role c st k s r).1 = c.EXIT_SUCCESS ∧
    (remove_role c st k s r).2.role_edges k =
      (st.role_edges k).filter (fun e => !decide (e.subject_id = s)) := by
  have hany : (st.role_edges k).any (fun row => decide (row.subject_id = s) &&
      decide (row.role_id = r)) = true :=
    List.any_eq_true.2 ⟨⟨s, r⟩, hedge, by simp⟩
  simp only [remove_role, if_pos hany, AK_delete_row_role_edges, hok, if_true,
    role_edges_setRoleEdges, delete_outcome_role_edges, and_self]

/-- C28 (code defect).  `AK_remove_role_from_user(u, R)` finds the edge `(u, R)`
and then deletes by the user id alone: when the deletion is carried out, the
call returns `EXIT_SUCCESS` and `AK_user_role` loses every edge of `u`, so no
edge `(u, r2)` to another role is left; the edges of the other users stay.
`AK_remove_role_from_group` does the same on `AK_group_role`. -/
theorem C28_remove_role_removes_every_role (c : Env) (st : Store) (u g R : String)
    (hok : st.delete_outcome.1 = true)
    (hR : AK_role_get_id c st R ≠ c.EXIT_ERROR) :
    (AK_user_get_id c st u ≠ c.EXIT_ERROR →
      (⟨AK_user_get_id c st u, AK_role_get_id c st R⟩ : RoleEdgeRow) ∈ st.AK_user_role →
      (AK_remove_role_from_user c st u R).1 = c.EXIT_SUCCESS ∧
      (AK_remove_role_from_user c st u R).2.AK_user_role =
        st.AK_user_role.filter (fun e => !decide (e.subject_id = AK_user_get_id c st u)) ∧
      ∀ r2 : Int, (⟨AK_user_get_id c st u, r2⟩ : RoleEdgeRow) ∉
        (AK_remove_role_from_user c st u R).2.AK_user_role) ∧
    (AK_group_get_id c st g ≠ c.EXIT_ERROR →
      (⟨AK_group_get_id c st g, AK_role_get_id c st R⟩ : RoleEdgeRow) ∈ st.AK_group_role →
      (AK_remove_role_from_group c st g R).1 = c.EXIT_SUCCESS ∧
      (AK_remove_role_from_group c st g R).2.AK_group_role =
        st.AK_group_role.filter (fun e => !decide (e.subject_id = AK_group_get_id c st g)) ∧
      ∀ r2 : Int, (⟨AK_group_get_id c st g, r2⟩ : RoleEdgeRow) ∉
        (AK_remove_role_from_group c st g R).2.AK_group_role) := by
  constructor
  · intro hu hedge
    have hdef : AK_remove_role_from_user c st u R =
        remove_role c st .user (AK_user_get_id c st u) (AK_role_get_id c st R) := by
      simp [AK_remove_role_from_user, hu, hR]
    obtain ⟨h1, h2⟩ := remove_role_ok c st .user _ _ hok hedge
    rw [hdef]
    have h2' : (remove_role c st .user (AK_user_get_id c st u)
        (AK_role_get_id c st R)).2.AK_user_role =
        st.AK_user_role.filter (fun e => !decide (e.subject_id = AK_user_get_id c st u)) := h2
    refine ⟨h1, h2', ?_⟩
    intro r2 hmem
    rw [h2'] at hmem
    simpa using (List.mem_filter.1 hmem).2
  · intro hg hedge
    have hdef : AK_remove_role_from_group c st g R =
        remove_role c st .group (AK_group_get_id c st g) (AK_role_get_id c st R) := by
      simp [AK_remove_role_from_group, hg, hR]
    obtain ⟨h1, h2⟩ := remove_role_ok c st .group _ _ hok hedge
    rw [hdef]
    have h2' : (remove_role c st .group (AK_group_get_id c st g)
        (AK_role_get_id c st R)).2.AK_group_role =
        st.AK_group_role.filter (fun e => !decide (e.subject_id = AK_group_get_id c st g)) :=
      h2
    refine ⟨h1, h2', ?_⟩
    intro r2 hmem
    rw [h2'] at hmem
    simpa using (List.mem_filter.1 hmem).2

/-- Witness of `C28_remove_role_removes_every_role`: in `store_two_roles` the
user `"u"` (id 1) has the roles 3 and 4; the removal of the role `"r"` (id 3)
succeeds and leaves the edge of user 2 only, the edge `(1, 4)` being deleted
too.  The same happens to the group `"g"` (id 5). -/
theorem C28_remove_role_removes_every_role_witness :
    (⟨1, 4⟩ : RoleEdgeRow) ∈ store_two_roles.AK_user_role ∧
    (AK_remove_role_from_user env_example store_two_roles "u" "r").1 = 0 ∧
    (AK_remove_role_from_user env_example store_two_roles "u" "r").2.AK_user_role =
      [⟨2, 3⟩] ∧
    (⟨5, 4⟩ : RoleEdgeRow) ∈ store_two_roles.AK_group_role ∧
    (AK_remove_role_from_group env_example store_two_roles "g" "r").1 = 0 ∧
    (AK_remove_role_from_group env_example store_two_roles "g" "r").2.AK_group_role =
      [⟨6, 3⟩] := by
  have h := C28_remove_role_removes_every_role env_example store_two_roles "u" "g" "r"
    (by decide) (by decide)
  obtain ⟨a1, a2, _⟩ := h.1 (by decide) (by decide)
  obtain ⟨b1, b2, _⟩ := h.2 (by decide) (by decide)
  exact ⟨by decide, a1, by rw [a2]; decide, by decide, b1, by rw [b2]; decide⟩
/-! ### C29 -/

/-- The lookup of a name is not affected by the removal of the rows of another
name. -/
theorem AK_user_get_id_loop_filter (c : Env) (old new : String) (hne : old ≠ new)
    (rows : List UserRow) (id : Int) :
    AK_user_get_id_loop c new (rows.filter (fun r => !decide (r.username = old))) id =
      AK_user_get_id_loop c new rows id := by
  induction rows generalizing id with
  | nil => rfl
  | cons row rest ih =>
    by_cases ho : row.username = old
    · have hn : row.username ≠ new := fun e => hne (ho.symm.trans e)
      simp only [List.filter_cons, ho, decide_True, Bool.not_true, Bool.false_eq_true,
        if_false]
      rw [ih]
      conv_rhs => rw [AK_user_get_id_loop]
      by_cases hid : id = c.EXIT_ERROR
      · rw [if_pos hid, if_neg hn]
      · rw [if_neg hid]
        exact AK_user_get_id_loop_of_ne c new rest id hid
    · simp only [List.filter_cons, ho, decide_False, Bool.not_false, if_true]
      simp only [AK_user_get_id_loop]
      split
      · exact ih _
      · rfl

theorem AK_group_get_id_loop_filter (c : Env) (old new : String) (hne : old ≠ new)
    (rows : List GroupRow) :
    AK_group_get_id_loop c new (rows.filter (fun r => !decide (r.name = old))) =
      AK_group_get_id_loop c new rows := by
  induction rows with
  | nil => rfl
  | cons row rest ih =>
    by_cases ho : row.name = old
    · have hn : row.name ≠ new := fun e => hne (ho.symm.trans e)
      simp only [List.filter_cons, ho, decide_True, Bool.not_true, Bool.false_eq_true,
        if_false]
      rw [ih]
      conv_rhs => rw [AK_group_get_id_loop]
      rw [if_neg hn]
    · simp only [List.filter_cons, ho, decide_False, Bool.not_false, if_true]
      simp only [AK_group_get_id_loop]
      split
      · rfl
      · exact ih

/-- C29 (counterexample).  In `store_rename` the users `"old"` (id 5) and `"x"`
(id 6) exist, and so do two groups of these names.  `AK_user_rename("old",
"x")` removes the row of `"old"`, adds nothing, and returns the value of the
literal `"exists"`, not `EXIT_ERROR`; `AK_group_rename("old", "x")` removes the
group `"old"` likewise.  The entity `"old"` is lost. -/
theorem C29_rename_onto_existing_loses_old :
    store_rename.AK_user = [⟨5, "old", "h"⟩, ⟨6, "x", "h"⟩] ∧
    (AK_user_rename env_example store_rename "old" "x" "pw").2.AK_user = [⟨6, "x", "h"⟩] ∧
    (AK_user_rename env_example store_rename "old" "x" "pw").1 = env_example.str_exists ∧
    env_example.str_exists ≠ env_example.EXIT_ERROR ∧
    store_rename.AK_group = [⟨5, "old"⟩, ⟨6, "x"⟩] ∧
    (AK_group_rename env_example store_rename "old" "x" false).2.AK_group = [⟨6, "x"⟩] := by
  decide

/-- C29 (amended).  For two distinct names `old` and `new`, `new` resolving, and
a removal the record store carries out: `AK_user_rename(old, new, pw)` removes
every row named `old` from `AK_user` and adds none, so afterwards no user is
named `old` and the users of other names, `new` included, are as before;
`AK_group_rename(old, new)` does the same on `AK_group`. -/
theorem C29_rename_onto_existing_name (c : Env) (st : Store) (old new pw : String)
    (hdist : c.EXIT_SUCCESS ≠ c.EXIT_ERROR) (hne : old ≠ new)
    (hok : st.delete_outcome.1 = true) :
    (AK_user_get_id c st new ≠ c.EXIT_ERROR →
      (AK_user_rename c st old new pw).2.AK_user =
        st.AK_user.filter (fun r => !decide (r.username = old)) ∧
      (∀ r ∈ (AK_user_rename c st old new pw).2.AK_user, r.username ≠ old) ∧
      (∀ r ∈ st.AK_user, r.username ≠ old →
        r ∈ (AK_user_rename c st old new pw).2.AK_user)) ∧
    (AK_group_get_id c st new ≠ c.EXIT_ERROR →
      (AK_group_rename c st old new false).2.AK_group =
        st.AK_group.filter (fun r => !decide (r.name = old)) ∧
      (∀ r ∈ (AK_group_rename c st old new false).2.AK_group, r.name ≠ old) ∧
      (∀ r ∈ st.AK_group, r.name ≠ old →
        r ∈ (AK_group_rename c st old new false).2.AK_group)) := by
  constructor
  · intro hnew
    obtain ⟨r1, r2⟩ := AK_user_remove_by_name_ok c st old hok
    have hnew1 : AK_user_get_id c (AK_user_remove_by_name c st old).2 new ≠ c.EXIT_ERROR := by
      unfold AK_user_get_id
      rw [r2, AK_user_get_id_loop_filter c old new hne]
      exact hnew
    have hrows : (AK_user_rename c st old new pw).2.AK_user =
        st.AK_user.filter (fun r => !decide (r.username = old)) := by
      have hcont : ¬ (AK_user_remove_by_name c st old).1 = c.EXIT_ERROR := by
        rw [r1]
        exact hdist
      simp only [AK_user_rename, if_neg hcont, AK_user_add, hnew1, ne_eq, not_false_eq_true,
        if_true]
      exact r2
    refine ⟨hrows, ?_, ?_⟩
    · intro r hr
      rw [hrows] at hr
      simpa using (List.mem_filter.1 hr).2
    · intro r hr hro
      rw [hrows]
      exact List.mem_filter.2 ⟨hr, by simpa using hro⟩
  · intro hnew
    obtain ⟨_, r2⟩ := AK_group_remove_by_name_ok c st old hok
    have hnew1 : AK_group_get_id c (AK_group_remove_by_name c st old).2 new ≠ c.EXIT_ERROR := by
      unfold AK_group_get_id
      rw [r2, AK_group_get_id_loop_filter c old new hne]
      exact hnew
    have hrows : (AK_group_rename c st old new false).2.AK_group =
        st.AK_group.filter (fun r => !decide (r.name = old)) := by
      simp only [AK_group_rename, Bool.false_eq_true, if_false, AK_group_add, hnew1, ne_eq,
        not_false_eq_true, if_true]
      exact r2
    refine ⟨hrows, ?_, ?_⟩
    · intro r hr
      rw [hrows] at hr
      simpa using (List.mem_filter.1 hr).2
    · intro r hr hro
      rw [hrows]
      exact List.mem_filter.2 ⟨hr, by simpa using hro⟩

/-- Witness of `C29_rename_onto_existing_name`: in `store_rename`, renaming the
user and the group `"old"` to the existing name `"x"` leaves the row of `"x"`
alone in each table. -/
theorem C29_rename_onto_existing_name_witness :
    (AK_user_rename env_example store_rename "old" "x" "pw").2.AK_user =
      store_rename.AK_user.filter (fun r => !decide (r.username = "old")) ∧
    (AK_group_rename env_example store_rename "old" "x" false).2.AK_group =
      store_rename.AK_group.filter (fun r => !decide (r.name = "old")) :=
  have h := C29_rename_onto_existing_name env_example store_rename "old" "x" "pw"
    (by decide) (by decide) (by decide)
  ⟨(h.1 (by decide)).1, (h.2 (by decide)).1⟩
/-! ### C30 -/

/-- C30 (code defect).  In `store_adjacent` the user `"u"` and the group `"g"`
hold two adjacent `SELECT` rows on `"t"`.  The revoke of `"ALL"` deletes the
first one, which moves the second one to the index just read, and then
advances the index: the scan ends, the call returns `EXIT_SUCCESS`, and the
second `SELECT` row is still in the ledger. -/
theorem C30_revoke_all_skips_adjacent_row (c : Env)
    (h1 : c.EXIT_ERROR ≠ 1) (h2 : c.EXIT_ERROR ≠ 2) (h7 : c.EXIT_ERROR ≠ 7) :
    AK_revoke_privilege_user c store_adjacent "u" "t" "ALL" =
      (c.EXIT_SUCCESS, { store_adjacent with AK_user_right := [⟨6, 1, 7, "SELECT"⟩] }) ∧
    AK_revoke_privilege_group c store_adjacent "g" "t" "ALL" =
      (c.EXIT_SUCCESS, { store_adjacent with AK_group_right := [⟨9, 2, 7, "SELECT"⟩] }) := by
  have hu : AK_user_get_id c store_adjacent "u" = 1 := by
    simp [AK_user_get_id, AK_user_get_id_loop, store_adjacent, AK_char]
  have hg : AK_group_get_id c store_adjacent "g" = 2 := by
    simp [AK_group_get_id, AK_group_get_id_loop, store_adjacent, AK_char]
  have ht : AK_get_table_obj_id c store_adjacent "t" = 7 := by
    simp [AK_get_table_obj_id, store_adjacent]
  constructor
  · simp only [AK_revoke_privilege_user, hu, ht]
    simp [Ne.symm h1, Ne.symm h7, revoke_privilege, revoke_all_right, revoke_all_scan,
      revoke_match, AK_delete_row_rights, Store.delete_outcome, Store.rights, Store.setRights,
      store_adjacent]
  · simp only [AK_revoke_privilege_group, hg, ht]
    simp [Ne.symm h2, Ne.symm h7, revoke_privilege, revoke_all_right, revoke_all_scan,
      revoke_match, AK_delete_row_rights, Store.delete_outcome, Store.rights, Store.setRights,
      store_adjacent]

/-- Witness of `C30_revoke_all_skips_adjacent_row`: the environment
`env_example`. -/
theorem C30_revoke_all_skips_adjacent_row_witness :
    (AK_revoke_privilege_user env_example store_adjacent "u" "t" "ALL").1 = 0 ∧
    (AK_revoke_privilege_user env_example store_adjacent "u" "t" "ALL").2.AK_user_right =
      [⟨6, 1, 7, "SELECT"⟩] ∧
    (AK_revoke_privilege_group env_example store_adjacent "g" "t" "ALL").2.AK_group_right =
      [⟨9, 2, 7, "SELECT"⟩] := by
  have h := C30_revoke_all_skips_adjacent_row env_example (by decide) (by decide) (by decide)
  exact ⟨by rw [h.1]; rfl, by rw [h.1], by rw [h.2]⟩
/-! ### C6 -/

/-- An add of a user leaves the catalog and `AK_user_right` alone, and takes one
value of the identifier sequence when the name is free. -/
theorem AK_user_add_frame (c : Env) (st : Store) (n pw : String) (set_id : Int) :
    (AK_user_add c st n pw set_id).2.catalog = st.catalog ∧
    (AK_user_add c st n pw set_id).2.AK_user_right = st.AK_user_right ∧
    ((∀ r ∈ st.AK_user, r.username ≠ n) →
      (AK_user_add c st n pw set_id).2.last_id = st.last_id + 1) := by
  refine ⟨?_, ?_, ?_⟩
  · unfold AK_user_add
    split <;> simp [AK_get_id]
  · unfold AK_user_add
    split <;> simp [AK_get_id]
  · intro hno
    have h : AK_user_get_id c st n = c.EXIT_ERROR :=
      AK_user_get_id_loop_no_name c n st.AK_user c.EXIT_ERROR hno
    simp [AK_user_add, h, AK_get_id]

/-- C6 (code defect).  A user added under a free name with an identifier `id`
outside the range of `char` is stored with `id`, and a grant to that user on an
existing table appends the right number of rows, in the order `UPDATE`,
`DELETE`, `INSERT`, `SELECT` and with fresh grant ids, but the rows carry the
subject `AK_char id`, one byte of `id` and a different value, where the rows of
`spec_granted_rows` for that user carry `id`. -/
theorem C6_grant_rows_carry_low_byte (c : Env) (st : Store) (n pw T right : String)
    (id : Int)
    (hwide : id < -128 ∨ 127 < id)
    (hno : ∀ r ∈ st.AK_user, r.username ≠ n)
    (hres : AK_char id ≠ c.EXIT_ERROR)
    (ht : AK_get_table_obj_id c st T ≠ c.EXIT_ERROR) :
    (AK_user_add c st n pw id).1 = id ∧
    (⟨id, n, c.hash_password pw⟩ : UserRow) ∈ (AK_user_add c st n pw id).2.AK_user ∧
    (AK_grant_privilege_user c (AK_user_add c st n pw id).2 n T right).2.AK_user_right =
      st.AK_user_right ++
        spec_granted_rows (st.last_id + 1) (AK_char id) (AK_get_table_obj_id c st T) right ∧
    spec_granted_rows (st.last_id + 1) (AK_char id) (AK_get_table_obj_id c st T) right ≠
      spec_granted_rows (st.last_id + 1) id (AK_get_table_obj_id c st T) right := by
  have h0 : id ≠ 0 := by omega
  have hne := AK_char_ne_of_wide id hwide
  obtain ⟨a1, a2⟩ := AK_user_add_free c st n pw id hno
  rw [if_pos h0] at a1
  obtain ⟨f1, f2, f3⟩ := AK_user_add_frame c st n pw id
  have hget := AK_user_get_id_after_add c st n pw id hno
  rw [a1] at hget
  have ht1 : AK_get_table_obj_id c (AK_user_add c st n pw id).2 T =
      AK_get_table_obj_id c st T := by
    simp only [AK_get_table_obj_id, f1]
  have hg := (grant_appends_rows_of_resolved_id c (AK_user_add c st n pw id).2 n T right
    (by rw [ht1]; exact ht)).1 (by rw [hget]; exact hres)
  rw [hget, ht1, f2, f3 hno] at hg
  refine ⟨a1, by rw [a2, a1]; simp, hg, ?_⟩
  unfold spec_granted_rows
  split
  · intro h
    have := (List.cons.inj h).1
    exact hne (congrArg RightRow.subject_id this)
  · intro h
    have := (List.cons.inj h).1
    exact hne (congrArg RightRow.subject_id this)

/-- Witness of `C6_grant_rows_carry_low_byte`: `store_alias` is the store with
the table `"t"` (object id 7) after the adds of the users `"v"` (id 44) and
`"u"` (id 300); the four rows of a grant of `"ALL"` to `"u"` carry the subject
44, the id of `"v"`. -/
theorem C6_grant_rows_carry_low_byte_witness :
    store_alias.AK_user = [⟨44, "v", "p"⟩, ⟨300, "u", "p"⟩] ∧
    AK_get_table_obj_id env_example store_alias "t" = 7 ∧
    (AK_grant_privilege_user env_example store_alias "u" "t" "ALL").2.AK_user_right =
      [⟨3, 44, 7, "UPDATE"⟩, ⟨4, 44, 7, "DELETE"⟩, ⟨5, 44, 7, "INSERT"⟩,
        ⟨6, 44, 7, "SELECT"⟩] :=
  ⟨by decide, by decide,
    (C6_grant_rows_carry_low_byte env_example
      (AK_user_add env_example store_catalog "v" "p" 44).2 "u" "p" "t" "ALL" 300
      (by decide) (by decide) (by decide) (by decide)).2.2.1.trans (by decide)⟩

/-! ### C13 -/

/-- C13 (code defect).  `AK_user_get_id` returns one byte of the stored id, so
two users whose ids have the same low byte resolve to the same id.  For two
names `u` and `v` that resolve to the same id and a row of `AK_user_right` that
carries the id `v` resolves to, `AK_revoke_all_privileges_user(u)` (its
deletions carried out) returns `EXIT_SUCCESS` and deletes the row with every
other row of that id: the rows of `v` do not stay. -/
theorem C13_revoke_all_deletes_rows_of_other_user (c : Env) (st : Store) (u v : String)
    (row : RightRow)
    (hok : ∀ b ∈ st.delete_faults, b = false)
    (hu : AK_user_get_id c st u ≠ c.EXIT_ERROR)
    (halias : AK_user_get_id c st v = AK_user_get_id c st u)
    (hrow : row ∈ st.AK_user_right)
    (hsub : row.subject_id = AK_user_get_id c st v) :
    ∃ st1, AK_revoke_all_privileges_user c st u = some (c.EXIT_SUCCESS, st1) ∧
      row ∉ st1.AK_user_right ∧
      st1.AK_user_right = st.AK_user_right.filter
        (fun r => !decide (r.subject_id = AK_user_get_id c st v)) := by
  obtain ⟨st1, h1, h2, _⟩ := revoke_all_privileges_ok c st .user (AK_user_get_id c st u) hok
    (AK_user_get_id_is_char c st u hu) ⟨row, hrow, hsub.trans halias⟩
  have h3 : st1.AK_user_right = st.AK_user_right.filter
      (fun r => !decide (r.subject_id = AK_user_get_id c st v)) := by
    rw [halias]
    exact h2
  refine ⟨st1, by simp only [AK_revoke_all_privileges_user, if_neg hu, h1], ?_, h3⟩
  rw [h3]
  intro hmem
  have := (List.mem_filter.1 hmem).2
  simp [hsub] at this

/-- Witness of `C13_revoke_all_deletes_rows_of_other_user`: `store_alias` holds
the users `"v"` (id 44) and `"u"` (id 300), added by `AK_user_add`, and both
names resolve to 44.  After a grant of `SELECT` to `"v"` and a grant of `INSERT`
to `"u"` the ledger holds two rows of subject 44, and the bulk revoke for `"u"`
returns `EXIT_SUCCESS` and leaves the ledger empty: the row granted to `"v"` is
gone. -/
theorem C13_revoke_all_deletes_rows_of_other_user_witness :
    store_alias.AK_user = [⟨44, "v", "p"⟩, ⟨300, "u", "p"⟩] ∧
    AK_user_get_id env_example store_alias_granted "v" = 44 ∧
    AK_user_get_id env_example store_alias_granted "u" = 44 ∧
    store_alias_v_granted.AK_user_right = [⟨3, 44, 7, "SELECT"⟩] ∧
    store_alias_granted.AK_user_right = [⟨3, 44, 7, "SELECT"⟩, ⟨4, 44, 7, "INSERT"⟩] ∧
    (AK_revoke_all_privileges_user env_example store_alias_granted "u").map
      (fun r => (r.1, r.2.AK_user_right)) = some (0, []) ∧
    ∃ st1, AK_revoke_all_privileges_user env_example store_alias_granted "u" =
        some (env_example.EXIT_SUCCESS, st1) ∧
      (⟨3, 44, 7, "SELECT"⟩ : RightRow) ∉ st1.AK_user_right :=
  have h := C13_revoke_all_deletes_rows_of_other_user env_example store_alias_granted
    "u" "v" ⟨3, 44, 7, "SELECT"⟩ (by decide) (by decide) (by decide) (by decide) (by decide)
  ⟨by decide, by decide, by decide, by decide, by decide, by decide,
    h.elim (fun st1 h1 => ⟨st1, h1.1, h1.2.1⟩)⟩

/-! ### C16 -/

/-- C16 (code defect).  `AK_user_get_id` returns one byte of the stored id, so
two users whose ids have the same low byte resolve to the same id.  For two
names `u` and `v` that resolve to the same id, an edge of `AK_user_role` that
carries the id `v` resolves to and a row of `AK_role_right` of the role of that
edge on the table with the right, `AK_check_user_privilege_via_roles(u, T, p)`
returns `EXIT_SUCCESS`, whether or not a role was assigned to `u`. -/
theorem C16_check_via_roles_succeeds_on_other_user (c : Env) (st : Store)
    (u v T p : String) (e : RoleEdgeRow) (row : RightRow)
    (hu : AK_user_get_id c st u ≠ c.EXIT_ERROR)
    (ht : AK_get_table_obj_id c st T ≠ c.EXIT_ERROR)
    (halias : AK_user_get_id c st v = AK_user_get_id c st u)
    (he : e ∈ st.AK_user_role) (hev : e.subject_id = AK_user_get_id c st v)
    (hrow : row ∈ st.AK_role_right) (h1 : row.subject_id = e.role_id)
    (h2 : row.artifact_id = AK_get_table_obj_id c st T) (h3 : row.right_type = p) :
    AK_check_user_privilege_via_roles c st u T p = c.EXIT_SUCCESS := by
  have hrole : AK_check_role_privilege c st e.role_id (AK_get_table_obj_id c st T) p =
      c.EXIT_SUCCESS := by
    unfold AK_check_role_privilege
    rw [if_pos]
    exact List.any_eq_true.2 ⟨row, hrow, by simp [h1, h2, h3]⟩
  simp only [AK_check_user_privilege_via_roles, hu, ht, or_self, if_false,
    check_privilege_via_roles]
  rw [if_pos]
  exact List.any_eq_true.2 ⟨e, he, by simp [hev, halias, hrole]⟩

/-- Witness of `C16_check_via_roles_succeeds_on_other_user`: `store_alias_role`
holds the users `"v"` (id 44) and `"u"` (id 300), added by `AK_user_add`; the
role `"r"` (id 3) holds `SELECT` on `"t"` and was assigned to `"v"` alone, so
`AK_user_role` holds the edge `(44, 3)` and no edge of the user 300.  Both names
resolve to 44, and the check for `"u"` returns `EXIT_SUCCESS`. -/
theorem C16_check_via_roles_succeeds_on_other_user_witness :
    store_alias_role.AK_user = [⟨44, "v", "p"⟩, ⟨300, "u", "p"⟩] ∧
    store_alias_role.AK_role = [⟨3, "r"⟩] ∧
    store_alias_role.AK_user_role = [⟨44, 3⟩] ∧
    store_alias_role.AK_role_right = [⟨4, 3, 7, "SELECT"⟩] ∧
    (∀ e ∈ store_alias_role.AK_user_role, e.subject_id ≠ 300) ∧
    AK_user_get_id env_example store_alias_role "u" = 44 ∧
    env_example.EXIT_SUCCESS = 0 ∧
    AK_check_user_privilege_via_roles env_example store_alias_role "u" "t" "SELECT" = 0 :=
  ⟨by decide, by decide, by decide, by decide, by decide, by decide, by decide,
    C16_check_via_roles_succeeds_on_other_user env_example store_alias_role "u" "v" "t"
      "SELECT" ⟨44, 3⟩ ⟨4, 3, 7, "SELECT"⟩ (by decide) (by decide) (by decide) (by decide)
      (by decide) (by decide) (by decide) (by decide) (by decide)⟩

/-! ### C18 -/

/-- C18 (code defect).  `AK_user_get_id` returns one byte of the stored id, so
two users whose ids have the same low byte resolve to the same id.  For two
names `u` and `v` that resolve to the same id and a row of `AK_user_right` that
carries the id `v` resolves to, `AK_check_user_privilege(u)` returns
`EXIT_SUCCESS`, whether or not `u` holds a row or a membership. -/
theorem C18_check_any_privilege_succeeds_on_other_user (c : Env) (st : Store)
    (u v : String) (row : RightRow)
    (hu : AK_user_get_id c st u ≠ c.EXIT_ERROR)
    (halias : AK_user_get_id c st v = AK_user_get_id c st u)
    (hrow : row ∈ st.AK_user_right)
    (hsub : row.subject_id = AK_user_get_id c st v) :
    AK_check_user_privilege c st u = c.EXIT_SUCCESS := by
  have hany : st.AK_user_right.any
      (fun r => decide (AK_char r.subject_id = AK_user_get_id c st u)) = true := by
    refine List.any_eq_true.2 ⟨row, hrow, ?_⟩
    rw [decide_eq_true_eq, hsub, halias]
    exact AK_user_get_id_is_char c st u hu
  simp only [AK_check_user_privilege, if_neg hu, hany, if_true]

/-- Witness of `C18_check_any_privilege_succeeds_on_other_user`:
`store_alias_v_granted` holds the users `"v"` (id 44) and `"u"` (id 300), added
by `AK_user_add`, and one row of `AK_user_right`, granted to `"v"`; no row
carries the subject 300 and `AK_user_group` is empty.  Both names resolve to 44,
and the check for `"u"` returns `EXIT_SUCCESS`. -/
theorem C18_check_any_privilege_succeeds_on_other_user_witness :
    store_alias_v_granted.AK_user = [⟨44, "v", "p"⟩, ⟨300, "u", "p"⟩] ∧
    store_alias_v_granted.AK_user_right = [⟨3, 44, 7, "SELECT"⟩] ∧
    (∀ row ∈ store_alias_v_granted.AK_user_right, row.subject_id ≠ 300) ∧
    store_alias_v_granted.AK_user_group = [] ∧
    AK_user_get_id env_example store_alias_v_granted "u" = 44 ∧
    env_example.EXIT_SUCCESS = 0 ∧
    AK_check_user_privilege env_example store_alias_v_granted "u" = 0 :=
  ⟨by decide, by decide, by decide, by decide, by decide, by decide,
    C18_check_any_privilege_succeeds_on_other_user env_example store_alias_v_granted "u" "v"
      ⟨3, 44, 7, "SELECT"⟩ (by decide) (by decide) (by decide) (by decide)⟩

/-! ### C14 -/

/-- C14 (code defect).  The user `u` and the group `g` resolve, `AK_user_group`
is not empty, and no row of `AK_user_group`, `AK_user_role` or `AK_group_role`
carries the id of the endpoint the call names.
`AK_remove_all_users_from_group(g)` reads `result` at the first row although no
value was assigned to it, so the run is undefined;
`AK_remove_user_from_all_groups(u)`, `AK_remove_all_roles_from_user(u)` and
`AK_remove_all_roles_from_group(g)` return `EXIT_SUCCESS`, not `EXIT_ERROR`, and
leave the store as it was. -/
theorem C14_bulk_removal_without_edge (c : Env) (st : Store) (u g : String)
    (first : UserGroupRow) (rest : List UserGroupRow)
    (hu : AK_user_get_id c st u ≠ c.EXIT_ERROR)
    (hg : AK_group_get_id c st g ≠ c.EXIT_ERROR)
    (hrows : st.AK_user_group = first :: rest)
    (hug : ∀ row ∈ st.AK_user_group, AK_user_get_id c st u ≠ AK_char row.user_id ∧
      AK_group_get_id c st g ≠ AK_char row.group_id)
    (hur : ∀ row ∈ st.AK_user_role, row.subject_id ≠ AK_user_get_id c st u)
    (hgr : ∀ row ∈ st.AK_group_role, row.subject_id ≠ AK_group_get_id c st g) :
    AK_remove_all_users_from_group c st g = none ∧
    AK_remove_user_from_all_groups c st u = (c.EXIT_SUCCESS, st) ∧
    AK_remove_all_roles_from_user c st u = (c.EXIT_SUCCESS, st) ∧
    AK_remove_all_roles_from_group c st g = (c.EXIT_SUCCESS, st) := by
  refine ⟨?_, ?_, ?_, ?_⟩
  · have hfirst : AK_group_get_id c st g ≠ AK_char first.group_id :=
      (hug first (by rw [hrows]; exact List.mem_cons_self _ _)).2
    simp only [AK_remove_all_users_from_group, if_neg hg, hrows, List.length_cons,
      remove_all_users_from_group_scan, List.getElem?_cons_zero, if_neg hfirst]
  · simp only [AK_remove_user_from_all_groups, if_neg hu]
    exact remove_user_from_all_groups_scan_no_match c _ _ 0 st (fun row hr => (hug row hr).1)
  · simp only [AK_remove_all_roles_from_user, if_neg hu]
    exact remove_all_roles_scan_no_match c .user _ _ 0 st hur
  · simp only [AK_remove_all_roles_from_group, if_neg hg]
    exact remove_all_roles_scan_no_match c .group _ _ 0 st hgr

/-- Witness of `C14_bulk_removal_without_edge`: in `store_no_edge` the user `"u"`
(id 1) and the group `"g"` (id 2) exist, the only membership is that of user 5
in group 6, and the only role edges are those of user 5 and of group 6. -/
theorem C14_bulk_removal_without_edge_witness :
    AK_user_get_id env_example store_no_edge "u" = 1 ∧
    AK_group_get_id env_example store_no_edge "g" = 2 ∧
    store_no_edge.AK_user_group = [⟨5, 6⟩] ∧
    store_no_edge.AK_user_role = [⟨5, 3⟩] ∧
    store_no_edge.AK_group_role = [⟨6, 3⟩] ∧
    env_example.EXIT_SUCCESS = 0 ∧ env_example.EXIT_ERROR = -1 ∧
    (AK_remove_all_users_from_group env_example store_no_edge "g" = none ∧
      AK_remove_user_from_all_groups env_example store_no_edge "u" = (0, store_no_edge) ∧
      AK_remove_all_roles_from_user env_example store_no_edge "u" = (0, store_no_edge) ∧
      AK_remove_all_roles_from_group env_example store_no_edge "g" = (0, store_no_edge)) :=
  ⟨by decide, by decide, by decide, by decide, by decide, by decide, by decide,
    C14_bulk_removal_without_edge env_example store_no_edge "u" "g" ⟨5, 6⟩ [] (by decide)
      (by decide) (by decide) (by decide) (by decide) (by decide)⟩

/-! ### Scans of the `"ALL"` branch that match no row or copy a long right -/

/-- A byte read is in the range of `char`. -/
theorem AK_char_range (v : Int) : -128 ≤ AK_char v ∧ AK_char v ≤ 127 := by
  unfold AK_char; omega

/-- A scan of the `"ALL"` branch that matches no row leaves the flags as they
were. -/
theorem check_all_scan_no_match (subject table_id : Int) (rows : List RightRow)
    (f : CheckingPrivileges)
    (h : ∀ row ∈ rows,
      ¬ (AK_char row.subject_id = subject ∧ table_id = AK_char row.artifact_id)) :
    check_all_scan subject table_id rows f = some f := by
  induction rows with
  | nil => rfl
  | cons row rest ih =>
    rw [check_all_scan, if_neg (h row (List.mem_cons_self _ _))]
    exact ih (fun r hr => h r (List.mem_cons_of_mem _ hr))

/-- The loop over the groups leaves the flags as they were when no row of the
ledger has the table id as the byte of its table column. -/
theorem check_all_groups_no_table (table_id : Int) (rights : List RightRow)
    (groups : List Int) (f : CheckingPrivileges)
    (h : ∀ row ∈ rights, table_id ≠ AK_char row.artifact_id) :
    check_all_groups table_id rights groups f = some f := by
  induction groups with
  | nil => rfl
  | cons g gs ih =>
    rw [check_all_groups, check_all_scan_no_match g table_id rights f
      (fun row hr hm => h row hr hm.2)]
    exact ih

/-- A scan of the `"ALL"` branch over a ledger that holds a matching row with a
right of 10 bytes or more is undefined, whatever the flags at its start. -/
theorem check_all_scan_long (subject table_id : Int) (rows : List RightRow)
    (f : CheckingPrivileges)
    (h : ∃ row ∈ rows, AK_char row.subject_id = subject ∧
      table_id = AK_char row.artifact_id ∧ 10 ≤ row.right_type.utf8ByteSize) :
    check_all_scan subject table_id rows f = none := by
  induction rows generalizing f with
  | nil =>
    obtain ⟨row, hr, _⟩ := h
    cases hr
  | cons r0 rest ih =>
    obtain ⟨row, hr, h1, h2, h3⟩ := h
    rw [check_all_scan]
    by_cases hm : AK_char r0.subject_id = subject ∧ table_id = AK_char r0.artifact_id
    · rw [if_pos hm]
      by_cases hlen : r0.right_type.utf8ByteSize < 10
      · rw [if_pos hlen]
        rcases List.mem_cons.1 hr with e | hmem
        · subst e
          omega
        · exact ih _ ⟨row, hmem, h1, h2, h3⟩
      · rw [if_neg hlen]
    · rw [if_neg hm]
      rcases List.mem_cons.1 hr with e | hmem
      · subst e
        exact absurd ⟨h1, h2⟩ hm
      · exact ih _ ⟨row, hmem, h1, h2, h3⟩

/-- The loop over the groups is undefined when the scan of one of the groups
is. -/
theorem check_all_groups_long (table_id : Int) (rights : List RightRow) (groups : List Int)
    (f : CheckingPrivileges) (g : Int) (hg : g ∈ groups)
    (h : ∀ f1, check_all_scan g table_id rights f1 = none) :
    check_all_groups table_id rights groups f = none := by
  induction groups generalizing f with
  | nil => cases hg
  | cons g0 gs ih =>
    rw [check_all_groups]
    rcases List.mem_cons.1 hg with e | hmem
    · subst e
      rw [h f]
    · cases check_all_scan g0 table_id rights f with
      | none => rfl
      | some f1 => exact ih f1 hmem

/-! ### C24 -/

/-- C24 (code defect).  For a user `U` and a table `T` that resolve, `U` holding
no direct row on `T`, whatever rights the groups of `U` hold on `T`:
`AK_check_privilege(U, T, "ALL")` does not return `EXIT_SUCCESS` when the object
id of `T` is outside the range of `char`, because the scans compare it with one
byte of the stored table id; and the run is undefined when a group of `U` (of at
most 100) holds on `T` a right of 10 bytes or more, because the group scan
copies it into `found_privilege[10]`. -/
theorem C24_check_all_denied_with_rights_in_group (c : Env) (st : Store) (U T : String)
    (hdist : c.EXIT_SUCCESS ≠ c.EXIT_ERROR)
    (hu : AK_user_get_id c st U ≠ c.EXIT_ERROR)
    (ht : AK_get_table_obj_id c st T ≠ c.EXIT_ERROR)
    (hdirect : ∀ row ∈ st.AK_user_right, ¬ (AK_char row.subject_id = AK_user_get_id c st U ∧
      AK_get_table_obj_id c st T = AK_char row.artifact_id)) :
    ((AK_get_table_obj_id c st T < -128 ∨ 127 < AK_get_table_obj_id c st T) →
      AK_check_privilege c st U T "ALL" ≠ some c.EXIT_SUCCESS) ∧
    ((st.AK_user_group.filter
        (fun e => decide (AK_user_get_id c st U = AK_char e.user_id))).length ≤ 100 →
      (∃ e ∈ st.AK_user_group, AK_user_get_id c st U = AK_char e.user_id ∧
        ∃ row ∈ st.AK_group_right, AK_char row.subject_id = AK_char e.group_id ∧
          AK_get_table_obj_id c st T = AK_char row.artifact_id ∧
          10 ≤ row.right_type.utf8ByteSize) →
      AK_check_privilege c st U T "ALL" = none) := by
  have hscan := check_all_scan_no_match (AK_user_get_id c st U) (AK_get_table_obj_id c st T)
    st.AK_user_right ⟨false, false, false, false⟩ hdirect
  constructor
  · intro hwide
    have hno : ∀ row ∈ st.AK_group_right,
        AK_get_table_obj_id c st T ≠ AK_char row.artifact_id := by
      intro row _ e
      have := AK_char_range row.artifact_id
      omega
    simp only [AK_check_privilege, hu, ht, or_self, if_false, if_true, hscan, has_right_of,
      Bool.and_self, Bool.false_eq_true]
    cases collect_groups (AK_user_get_id c st U) st.AK_user_group [] with
    | none => simp
    | some groups =>
      simp only [check_all_groups_no_table _ _ groups _ hno, Bool.and_self,
        Bool.false_eq_true, if_false]
      intro h
      exact hdist (Option.some.inj h).symm
  · intro hcap hex
    obtain ⟨e, he, hue, row, hrow, h1, h2, h3⟩ := hex
    have hg := collect_groups_eq (AK_user_get_id c st U) st.AK_user_group []
      (by simpa using hcap)
    simp only [List.nil_append] at hg
    have hmem : AK_char e.group_id ∈ (st.AK_user_group.filter
        (fun e => decide (AK_user_get_id c st U = AK_char e.user_id))).map
        (fun e => AK_char e.group_id) :=
      List.mem_map.2 ⟨e, List.mem_filter.2 ⟨he, by simpa using hue⟩, rfl⟩
    have hlong := check_all_groups_long (AK_get_table_obj_id c st T) st.AK_group_right _
      ⟨false, false, false, false⟩ (AK_char e.group_id) hmem
      (fun f1 => check_all_scan_long _ _ _ f1 ⟨row, hrow, h1, h2, h3⟩)
    simp only [AK_check_privilege, hu, ht, or_self, if_false, if_true, hscan, has_right_of,
      Bool.and_self, Bool.false_eq_true, hg, hlong]

/-- Witness of `C24_check_all_denied_with_rights_in_group`: two stores built by
the functions themselves in which `"u"` holds no direct grant and belongs to the
group `"g"`, which holds `UPDATE`, `DELETE`, `INSERT` and `SELECT` on `"t"`.  In
`store_wide_group_all` the table has object id 300 and the check of `"ALL"`
returns `EXIT_ERROR`.  In `store_group_all_references` the group holds
`"REFERENCES"` as well, of 10 bytes: the check returned `EXIT_SUCCESS` before
that grant and is undefined after it. -/
theorem C24_check_all_denied_with_rights_in_group_witness :
    store_wide_group_all.AK_user_right = [] ∧
    store_wide_group_all.AK_user_group = [⟨1, 2⟩] ∧
    store_wide_group_all.AK_group_right =
      [⟨51, 2, 300, "UPDATE"⟩, ⟨52, 2, 300, "DELETE"⟩, ⟨53, 2, 300, "INSERT"⟩,
        ⟨54, 2, 300, "SELECT"⟩] ∧
    AK_get_table_obj_id env_example store_wide_group_all "t" = 300 ∧
    env_example.EXIT_SUCCESS = 0 ∧ env_example.EXIT_ERROR = -1 ∧
    AK_check_privilege env_example store_wide_group_all "u" "t" "ALL" = some (-1) ∧
    AK_check_privilege env_example store_wide_group_all "u" "t" "ALL" ≠ some 0 ∧
    store_group_all_references.AK_user_right = [] ∧
    store_group_all_references.AK_user_group = [⟨1, 2⟩] ∧
    store_group_all_references.AK_group_right =
      [⟨51, 2, 7, "UPDATE"⟩, ⟨52, 2, 7, "DELETE"⟩, ⟨53, 2, 7, "INSERT"⟩,
        ⟨54, 2, 7, "SELECT"⟩, ⟨55, 2, 7, "REFERENCES"⟩] ∧
    AK_check_privilege env_example store_group_all "u" "t" "ALL" = some 0 ∧
    AK_check_privilege env_example store_group_all_references "u" "t" "ALL" = none :=
  ⟨by decide, by decide, by decide, by decide, by decide, by decide, by decide,
    (C24_check_all_denied_with_rights_in_group env_example store_wide_group_all "u" "t"
      (by decide) (by decide) (by decide) (by decide)).1 (by decide),
    by decide, by decide, by decide, by decide,
    (C24_check_all_denied_with_rights_in_group env_example store_group_all_references "u" "t"
      (by decide) (by decide) (by decide) (by decide)).2 (by decide)
      ⟨⟨1, 2⟩, by decide, by decide, ⟨55, 2, 7, "REFERENCES"⟩, by decide, by decide,
        by decide, by decide⟩⟩

/-! ### C25 -/

/-- C25 (code defect).  When `AK_check_privilege(u, T, "ALL")` returns
`EXIT_SUCCESS` and a right of 10 bytes or more is granted to `u` on `T`, the
grant appends one row to `AK_user_right`, and the same check is undefined after
it: the direct scan copies the right into `found_privilege[10]`.  The call no
longer returns `EXIT_SUCCESS`, although a row was only appended. -/
theorem C25_check_fails_after_grant_of_long_right (c : Env) (st : Store)
    (u T right : String)
    (hdist : c.EXIT_SUCCESS ≠ c.EXIT_ERROR)
    (hb : AK_check_privilege c st u T "ALL" = some c.EXIT_SUCCESS)
    (hlong : 10 ≤ right.utf8ByteSize) :
    (AK_grant_privilege_user c st u T right).2.AK_user_right =
      st.AK_user_right ++
        [⟨st.last_id + 1, AK_user_get_id c st u, AK_get_table_obj_id c st T, right⟩] ∧
    (AK_grant_privilege_user c st u T right).2.AK_group_right = st.AK_group_right ∧
    (AK_grant_privilege_user c st u T right).2.AK_user_group = st.AK_user_group ∧
    AK_check_privilege c (AK_grant_privilege_user c st u T right).2 u T "ALL" = none := by
  obtain ⟨hu, ht, hcd⟩ := AK_check_privilege_success c st u T "ALL" hdist hb
  have hall : right ≠ "ALL" := by
    intro e
    rw [e] at hlong
    revert hlong
    decide
  have htchar : AK_char (AK_get_table_obj_id c st T) = AK_get_table_obj_id c st T := by
    have hsel : ∃ x, AK_get_table_obj_id c st T = AK_char x := by
      rcases (check_decision_all_iff _ _ _).1 hcd with h | h
      · obtain ⟨row, _, _, h2, _⟩ := h "SELECT" (by decide)
        exact ⟨_, h2⟩
      · obtain ⟨e, _, _, row, _, _, h2, _⟩ := h "SELECT" (by decide)
        exact ⟨_, h2⟩
    obtain ⟨x, hx⟩ := hsel
    rw [hx, AK_char_idem]
  have hstore : (AK_grant_privilege_user c st u T right).2 =
      (grant_privilege st .user (AK_user_get_id c st u) (AK_get_table_obj_id c st T) right).2 :=
    AK_grant_privilege_store .user c st u T right hu ht
  have hrights : (AK_grant_privilege_user c st u T right).2.AK_user_right =
      st.AK_user_right ++
        [⟨st.last_id + 1, AK_user_get_id c st u, AK_get_table_obj_id c st T, right⟩] := by
    rw [hstore]
    have := grant_privilege_rights st .user (AK_user_get_id c st u)
      (AK_get_table_obj_id c st T) right
    simp only [spec_granted_rows, if_neg hall] at this
    exact this
  obtain ⟨f1, _, _, f4, _⟩ := grant_privilege_frame st .user (AK_user_get_id c st u)
    (AK_get_table_obj_id c st T) right
  have hgr : (AK_grant_privilege_user c st u T right).2.AK_group_right = st.AK_group_right := by
    rw [hstore]
    unfold grant_privilege
    rw [if_neg hall]
    simp [grant_row, Store.setRights, AK_get_id]
  have hug : (AK_grant_privilege_user c st u T right).2.AK_user_group = st.AK_user_group := by
    rw [hstore]
    unfold grant_privilege
    rw [if_neg hall]
    simp [grant_row, Store.setRights, AK_get_id]
  have hcongr : ∀ s1 s2 : Store, s1.AK_user = s2.AK_user →
      AK_user_get_id c s1 u = AK_user_get_id c s2 u := by
    intro s1 s2 h
    simp only [AK_user_get_id, h]
  have hu1 : AK_user_get_id c (AK_grant_privilege_user c st u T right).2 u =
      AK_user_get_id c st u :=
    hcongr _ _ (by rw [hstore]; exact f1)
  have ht1 : AK_get_table_obj_id c (AK_grant_privilege_user c st u T right).2 T =
      AK_get_table_obj_id c st T :=
    AK_get_table_obj_id_congr c st _ T (by rw [hstore]; exact f4)
  refine ⟨hrights, hgr, hug, ?_⟩
  have hscan := check_all_scan_long (AK_user_get_id c st u) (AK_get_table_obj_id c st T)
    (st.AK_user_right ++
      [⟨st.last_id + 1, AK_user_get_id c st u, AK_get_table_obj_id c st T, right⟩])
    ⟨false, false, false, false⟩
    ⟨⟨st.last_id + 1, AK_user_get_id c st u, AK_get_table_obj_id c st T, right⟩,
      by simp, AK_user_get_id_is_char c st u hu, htchar.symm, hlong⟩
  simp only [AK_check_privilege, hu1, ht1, hu, ht, or_self, if_false, if_true, hrights, hscan]

/-- Witness of `C25_check_fails_after_grant_of_long_right`: in `store_direct_all`
the user `"u"` holds the four rights on `"t"` and the check of `"ALL"` returns
`EXIT_SUCCESS`; after `AK_grant_privilege_user("u", "t", "REFERENCES")`, a right
of 10 bytes, the row `(14, 1, 7, "REFERENCES")` is appended and the same check
is undefined. -/
theorem C25_check_fails_after_grant_of_long_right_witness :
    env_example.EXIT_SUCCESS = 0 ∧
    AK_check_privilege env_example store_direct_all "u" "t" "ALL" = some 0 ∧
    "REFERENCES".utf8ByteSize = 10 ∧
    store_direct_all_references.AK_user_right =
      store_direct_all.AK_user_right ++ [⟨14, 1, 7, "REFERENCES"⟩] ∧
    AK_check_privilege env_example store_direct_all_references "u" "t" "ALL" = none :=
  have h := C25_check_fails_after_grant_of_long_right env_example store_direct_all "u" "t"
    "REFERENCES" (by decide) (by decide) (by decide)
  ⟨by decide, by decide, by decide, h.1.trans (by decide), h.2.2.2⟩

end AKDB
